import Mathlib

/-!
The installation supervisor of mattermost-cloud.

A shallow embedding of `internal/supervisor/installation.go`.

* The store and the provisioner are Go interfaces.  They are embedded as records of
  handlers over an arbitrary state type `σ`; a theorem quantified over the record and
  over `σ` speaks about every store behaviour.
* Every call made through these interfaces is appended, together with the answer it
  received, to the `trace` of the `World`: effects are statements about that trace.
* A Go `(value, error)` result is a pair whose second component is `none` for `nil`.
  Both components are kept, because the code does not always look at the error.
* The logger is left out: it is never used for control flow.
* The handlers do not write through the pointers they are handed.
-/

namespace model

/-- Modelled from the spec: the constants of package `model` are not in the sources.
The spec names the installation states; every constant is the string of its name. -/
def InstallationStateStable : String := "Stable"

/-- Modelled from the spec: installation state `CreationRequested`. -/
def InstallationStateCreationRequested : String := "CreationRequested"

/-- Modelled from the spec: installation state `CreationFailed`. -/
def InstallationStateCreationFailed : String := "CreationFailed"

/-- Modelled from the spec: installation state `UpgradeRequested`. -/
def InstallationStateUpgradeRequested : String := "UpgradeRequested"

/-- Modelled from the spec: installation state `UpgradeInProgress`. -/
def InstallationStateUpgradeInProgress : String := "UpgradeInProgress"

/-- Modelled from the spec: installation state `UpgradeFailed`. -/
def InstallationStateUpgradeFailed : String := "UpgradeFailed"

/-- Modelled from the spec: installation state `DeletionRequested`. -/
def InstallationStateDeletionRequested : String := "DeletionRequested"

/-- Modelled from the spec: installation state `DeletionInProgress`. -/
def InstallationStateDeletionInProgress : String := "DeletionInProgress"

/-- Modelled from the spec: installation state `DeletionFailed`. -/
def InstallationStateDeletionFailed : String := "DeletionFailed"

/-- Modelled from the spec: installation state `Deleted`. -/
def InstallationStateDeleted : String := "Deleted"

/-- Modelled from the spec: cluster installation state `CreationRequested`. -/
def ClusterInstallationStateCreationRequested : String := "CreationRequested"

/-- Modelled from the spec: cluster installation state `CreationFailed`. -/
def ClusterInstallationStateCreationFailed : String := "CreationFailed"

/-- Modelled from the spec: cluster installation state `Stable`. -/
def ClusterInstallationStateStable : String := "Stable"

/-- Modelled from the spec: cluster installation state `Reconciling`. -/
def ClusterInstallationStateReconciling : String := "Reconciling"

/-- Modelled from the spec: cluster installation state `DeletionRequested`. -/
def ClusterInstallationStateDeletionRequested : String := "DeletionRequested"

/-- Modelled from the spec: cluster installation state `DeletionFailed`. -/
def ClusterInstallationStateDeletionFailed : String := "DeletionFailed"

/-- Modelled from the spec: cluster installation state `Deleted`. -/
def ClusterInstallationStateDeleted : String := "Deleted"

/-- Modelled from the spec: cluster state `Stable` (a cluster is "stable or not"). -/
def ClusterStateStable : String := "Stable"

/-- Modelled from the spec: the pagination marker meaning "all" of package `model`. -/
def AllPerPage : Int := -1

/-- Modelled from the spec: a provisioning target, with its identifier and its state. -/
structure Cluster where
  ID : String
  State : String
deriving DecidableEq

/-- Modelled from the spec: a tenant workload, with its identifier and lifecycle state.
`Fields` stands for every other attribute of the record; the supervisor reads none. -/
structure Installation where
  ID : String
  State : String
  Fields : String
deriving DecidableEq

/-- Modelled from the spec: an installation materialised on a cluster. -/
structure ClusterInstallation where
  ID : String
  ClusterID : String
  InstallationID : String
  Namespace : String
  State : String
deriving DecidableEq

/-- Modelled from the spec: the list query on clusters (pagination, include-deleted). -/
structure ClusterFilter where
  PerPage : Int
  IncludeDeleted : Bool
deriving DecidableEq

/-- Modelled from the spec: the list query on cluster installations (by installation ID,
cluster ID, ID set, include-deleted flag, pagination).  A field the caller does not set
has Go's zero value. -/
structure ClusterInstallationFilter where
  PerPage : Int
  InstallationID : String
  ClusterID : String
  IDs : List String
  IncludeDeleted : Bool
deriving DecidableEq

end model

namespace supervisor

open model

/-- A Go `error`: `none` is `nil`. -/
abbrev error := Option String

/-- One call through the store or provisioner interface (or to `model.NewID`), with its
arguments and with the answer it received. -/
inductive Event where
  | GetClusters (filter : ClusterFilter) (clusters : List Cluster) (err : error)
  | GetCluster (id : String) (cluster : Option Cluster) (err : error)
  | LockCluster (clusterID lockerID : String) (locked : Bool) (err : error)
  | UnlockCluster (clusterID lockerID : String) (force : Bool) (unlocked : Bool) (err : error)
  | GetInstallation (installationID : String) (installation : Option Installation) (err : error)
  | GetUnlockedInstallationsPendingWork (installations : List Installation) (err : error)
  | UpdateInstallation (installation : Installation) (err : error)
  | LockInstallation (installationID lockerID : String) (locked : Bool) (err : error)
  | UnlockInstallation (installationID lockerID : String) (force : Bool) (unlocked : Bool)
      (err : error)
  | DeleteInstallation (installationID : String) (err : error)
  | CreateClusterInstallation (clusterInstallation : ClusterInstallation) (err : error)
  | GetClusterInstallations (filter : ClusterInstallationFilter)
      (clusterInstallations : List ClusterInstallation) (err : error)
  | LockClusterInstallations (clusterInstallationID : List String) (lockerID : String)
      (locked : Bool) (err : error)
  | UnlockClusterInstallations (clusterInstallationID : List String) (lockerID : String)
      (force : Bool) (unlocked : Bool) (err : error)
  | UpdateClusterInstallation (clusterInstallation : ClusterInstallation) (err : error)
  | ProvisionerUpdateClusterInstallation (cluster : Cluster) (installation : Installation)
      (clusterInstallation : ClusterInstallation) (err : error)
  | NewID (id : String)
deriving DecidableEq

/-- The interface `installationStore`: each method maps the state of the collaborator
to its answer and the next state. -/
structure installationStore (σ : Type) where
  GetClusters : ClusterFilter → σ → (List Cluster × error) × σ
  GetCluster : String → σ → (Option Cluster × error) × σ
  LockCluster : String → String → σ → (Bool × error) × σ
  UnlockCluster : String → String → Bool → σ → (Bool × error) × σ
  GetInstallation : String → σ → (Option Installation × error) × σ
  GetUnlockedInstallationsPendingWork : σ → (List Installation × error) × σ
  UpdateInstallation : Installation → σ → error × σ
  LockInstallation : String → String → σ → (Bool × error) × σ
  UnlockInstallation : String → String → Bool → σ → (Bool × error) × σ
  DeleteInstallation : String → σ → error × σ
  CreateClusterInstallation : ClusterInstallation → σ → error × σ
  GetClusterInstallation : String → σ → (Option ClusterInstallation × error) × σ
  GetClusterInstallations : ClusterInstallationFilter → σ →
    (List ClusterInstallation × error) × σ
  LockClusterInstallations : List String → String → σ → (Bool × error) × σ
  UnlockClusterInstallations : List String → String → Bool → σ → (Bool × error) × σ
  UpdateClusterInstallation : ClusterInstallation → σ → error × σ

/-- The interface `installationProvisioner`. -/
structure installationProvisioner (σ : Type) where
  CreateClusterInstallation : Cluster → Installation → ClusterInstallation → σ → error × σ
  DeleteClusterInstallation : Cluster → Installation → ClusterInstallation → σ → error × σ
  UpdateClusterInstallation : Cluster → Installation → ClusterInstallation → σ → error × σ

/-- The struct `InstallationSupervisor` (without its logger).  `NewID` stands for
`model.NewID`, whose body is not in the sources: it draws an identifier. -/
structure InstallationSupervisor (σ : Type) where
  store : installationStore σ
  provisioner : installationProvisioner σ
  instanceID : String
  NewID : σ → String × σ

/-- The state of the collaborators and the calls made so far, oldest first. -/
structure World (σ : Type) where
  st : σ
  trace : List Event

variable {σ : Type}

/-- A world that has made one more call. -/
def World.record (w : World σ) (st : σ) (e : Event) : World σ :=
  ⟨st, w.trace ++ [e]⟩

namespace installationStore

/-- The call `store.GetClusters(filter)`. -/
def callGetClusters (store : installationStore σ) (filter : ClusterFilter) (w : World σ) :
    (List Cluster × error) × World σ :=
  let r := store.GetClusters filter w.st
  (r.1, w.record r.2 (Event.GetClusters filter r.1.1 r.1.2))

/-- The call `store.GetCluster(id)`. -/
def callGetCluster (store : installationStore σ) (id : String) (w : World σ) :
    (Option Cluster × error) × World σ :=
  let r := store.GetCluster id w.st
  (r.1, w.record r.2 (Event.GetCluster id r.1.1 r.1.2))

/-- The call `store.LockCluster(clusterID, lockerID)`. -/
def callLockCluster (store : installationStore σ) (clusterID lockerID : String)
    (w : World σ) : (Bool × error) × World σ :=
  let r := store.LockCluster clusterID lockerID w.st
  (r.1, w.record r.2 (Event.LockCluster clusterID lockerID r.1.1 r.1.2))

/-- The call `store.UnlockCluster(clusterID, lockerID, force)`. -/
def callUnlockCluster (store : installationStore σ) (clusterID lockerID : String)
    (force : Bool) (w : World σ) : (Bool × error) × World σ :=
  let r := store.UnlockCluster clusterID lockerID force w.st
  (r.1, w.record r.2 (Event.UnlockCluster clusterID lockerID force r.1.1 r.1.2))

/-- The call `store.GetInstallation(installationID)`. -/
def callGetInstallation (store : installationStore σ) (installationID : String)
    (w : World σ) : (Option Installation × error) × World σ :=
  let r := store.GetInstallation installationID w.st
  (r.1, w.record r.2 (Event.GetInstallation installationID r.1.1 r.1.2))

/-- The call `store.GetUnlockedInstallationsPendingWork()`. -/
def callGetUnlockedInstallationsPendingWork (store : installationStore σ) (w : World σ) :
    (List Installation × error) × World σ :=
  let r := store.GetUnlockedInstallationsPendingWork w.st
  (r.1, w.record r.2 (Event.GetUnlockedInstallationsPendingWork r.1.1 r.1.2))

/-- The call `store.UpdateInstallation(installation)`. -/
def callUpdateInstallation (store : installationStore σ) (installation : Installation)
    (w : World σ) : error × World σ :=
  let r := store.UpdateInstallation installation w.st
  (r.1, w.record r.2 (Event.UpdateInstallation installation r.1))

/-- The call `store.LockInstallation(installationID, lockerID)`. -/
def callLockInstallation (store : installationStore σ) (installationID lockerID : String)
    (w : World σ) : (Bool × error) × World σ :=
  let r := store.LockInstallation installationID lockerID w.st
  (r.1, w.record r.2 (Event.LockInstallation installationID lockerID r.1.1 r.1.2))

/-- The call `store.UnlockInstallation(installationID, lockerID, force)`. -/
def callUnlockInstallation (store : installationStore σ) (installationID lockerID : String)
    (force : Bool) (w : World σ) : (Bool × error) × World σ :=
  let r := store.UnlockInstallation installationID lockerID force w.st
  (r.1, w.record r.2 (Event.UnlockInstallation installationID lockerID force r.1.1 r.1.2))

/-- The call `store.DeleteInstallation(installationID)`. -/
def callDeleteInstallation (store : installationStore σ) (installationID : String)
    (w : World σ) : error × World σ :=
  let r := store.DeleteInstallation installationID w.st
  (r.1, w.record r.2 (Event.DeleteInstallation installationID r.1))

/-- The call `store.CreateClusterInstallation(clusterInstallation)`. -/
def callCreateClusterInstallation (store : installationStore σ)
    (clusterInstallation : ClusterInstallation) (w : World σ) : error × World σ :=
  let r := store.CreateClusterInstallation clusterInstallation w.st
  (r.1, w.record r.2 (Event.CreateClusterInstallation clusterInstallation r.1))

/-- The call `store.GetClusterInstallations(filter)`. -/
def callGetClusterInstallations (store : installationStore σ)
    (filter : ClusterInstallationFilter) (w : World σ) :
    (List ClusterInstallation × error) × World σ :=
  let r := store.GetClusterInstallations filter w.st
  (r.1, w.record r.2 (Event.GetClusterInstallations filter r.1.1 r.1.2))

/-- The call `store.LockClusterInstallations(ids, lockerID)`. -/
def callLockClusterInstallations (store : installationStore σ) (ids : List String)
    (lockerID : String) (w : World σ) : (Bool × error) × World σ :=
  let r := store.LockClusterInstallations ids lockerID w.st
  (r.1, w.record r.2 (Event.LockClusterInstallations ids lockerID r.1.1 r.1.2))

/-- The call `store.UnlockClusterInstallations(ids, lockerID, force)`. -/
def callUnlockClusterInstallations (store : installationStore σ) (ids : List String)
    (lockerID : String) (force : Bool) (w : World σ) : (Bool × error) × World σ :=
  let r := store.UnlockClusterInstallations ids lockerID force w.st
  (r.1, w.record r.2 (Event.UnlockClusterInstallations ids lockerID force r.1.1 r.1.2))

/-- The call `store.UpdateClusterInstallation(clusterInstallation)`. -/
def callUpdateClusterInstallation (store : installationStore σ)
    (clusterInstallation : ClusterInstallation) (w : World σ) : error × World σ :=
  let r := store.UpdateClusterInstallation clusterInstallation w.st
  (r.1, w.record r.2 (Event.UpdateClusterInstallation clusterInstallation r.1))

end installationStore

/-- The call `provisioner.UpdateClusterInstallation(cluster, installation, ci)`. -/
def installationProvisioner.callUpdateClusterInstallation
    (provisioner : installationProvisioner σ) (cluster : Cluster)
    (installation : Installation) (clusterInstallation : ClusterInstallation)
    (w : World σ) : error × World σ :=
  let r := provisioner.UpdateClusterInstallation cluster installation clusterInstallation w.st
  (r.1, w.record r.2
    (Event.ProvisionerUpdateClusterInstallation cluster installation clusterInstallation r.1))

/-- The call `model.NewID()`. -/
def InstallationSupervisor.callNewID (s : InstallationSupervisor σ) (w : World σ) :
    String × World σ :=
  let r := s.NewID w.st
  (r.1, w.record r.2 (Event.NewID r.1))

/-! ## Locks -/

/-- Modelled from the spec: `newInstallationLock` and its `TryLock` are not in the
sources.  A try-lock is one non-blocking, store-backed attempt on behalf of the owner;
it reports failure when the store errs or when the lock is not acquired. -/
def installationLockTryLock (store : installationStore σ) (installationID lockerID : String)
    (w : World σ) : Bool × World σ :=
  let r := store.callLockInstallation installationID lockerID w
  (if r.1.2 ≠ none then false else r.1.1, r.2)

/-- Modelled from the spec: `Unlock` of the installation lock is not in the sources.
Release is store-backed and unconditional, and the engine never forces. -/
def installationLockUnlock (store : installationStore σ) (installationID lockerID : String)
    (w : World σ) : World σ :=
  (store.callUnlockInstallation installationID lockerID false w).2

/-- Modelled from the spec: `newClusterLock` and its `TryLock` are not in the sources.
A try-lock is one non-blocking, store-backed attempt on behalf of the owner; it reports
failure when the store errs or when the lock is not acquired. -/
def clusterLockTryLock (store : installationStore σ) (clusterID lockerID : String)
    (w : World σ) : Bool × World σ :=
  let r := store.callLockCluster clusterID lockerID w
  (if r.1.2 ≠ none then false else r.1.1, r.2)

/-- Modelled from the spec: `Unlock` of the cluster lock is not in the sources.
Release is store-backed and unconditional, and the engine never forces. -/
def clusterLockUnlock (store : installationStore σ) (clusterID lockerID : String)
    (w : World σ) : World σ :=
  (store.callUnlockCluster clusterID lockerID false w).2

/-- Modelled from the spec: `newClusterInstallationLocks` and its `TryLock` are not in the
sources.  The batch is locked by one all-or-nothing store call; the attempt reports
failure when the store errs or when the batch is not acquired. -/
def clusterInstallationLocksTryLock (store : installationStore σ)
    (clusterInstallationIDs : List String) (lockerID : String) (w : World σ) :
    Bool × World σ :=
  let r := store.callLockClusterInstallations clusterInstallationIDs lockerID w
  (if r.1.2 ≠ none then false else r.1.1, r.2)

/-- Modelled from the spec: `Unlock` of the batch lock is not in the sources.
Release is store-backed and unconditional, and the engine never forces. -/
def clusterInstallationLocksUnlock (store : installationStore σ)
    (clusterInstallationIDs : List String) (lockerID : String) (w : World σ) : World σ :=
  (store.callUnlockClusterInstallations clusterInstallationIDs lockerID false w).2

/-! ## The transition engine -/

/-- The three counters `stable`, `reconciling`, `failed` of the aggregation loop, which
`createInstallation` (lines 145-156) and `waitForUpdateComplete` (lines 318-329) both
run over the cluster installations. -/
def countStates (clusterInstallations : List ClusterInstallation) : Nat × Nat × Nat :=
  clusterInstallations.foldl
    (fun acc clusterInstallation =>
      let stable :=
        if clusterInstallation.State = ClusterInstallationStateStable then acc.1 + 1
        else acc.1
      let reconciling :=
        if clusterInstallation.State = ClusterInstallationStateReconciling then acc.2.1 + 1
        else acc.2.1
      let failed :=
        if clusterInstallation.State = ClusterInstallationStateCreationFailed then
          acc.2.2 + 1
        else acc.2.2
      (stable, reconciling, failed))
    (0, 0, 0)

/-- The method `createClusterInstallation`: it attempts to schedule a cluster installation
onto the given cluster, and answers `none` for Go's `nil`. -/
def createClusterInstallation (s : InstallationSupervisor σ) (cluster : Cluster)
    (installation : Installation) (instanceID : String) (w : World σ) :
    Option ClusterInstallation × World σ :=
  let l := clusterLockTryLock s.store cluster.ID instanceID w
  if l.1 = false then (none, l.2)
  else
    -- what follows runs under `defer clusterLock.Unlock()`
    let body : Option ClusterInstallation × World σ :=
      if cluster.State ≠ ClusterStateStable then (none, l.2)
      else
        let r := s.store.callGetClusterInstallations
          { PerPage := AllPerPage, InstallationID := "", ClusterID := cluster.ID, IDs := [],
            IncludeDeleted := false } l.2
        let existingClusterInstallations := r.1.1
        if existingClusterInstallations.length > 0 then (none, r.2)
        else
          let n := s.callNewID r.2
          let clusterInstallation : ClusterInstallation :=
            { ID := "", ClusterID := cluster.ID, InstallationID := installation.ID,
              Namespace := n.1, State := ClusterInstallationStateCreationRequested }
          let c := s.store.callCreateClusterInstallation clusterInstallation n.2
          if c.1 ≠ none then (none, c.2)
          else (some clusterInstallation, c.2)
    (body.1, clusterLockUnlock s.store cluster.ID instanceID body.2)

/-- The loop of `createInstallation` over the clusters (lines 182-194), with the return
that follows it. -/
def createInstallationLoop (s : InstallationSupervisor σ) (installation : Installation)
    (instanceID : String) : List Cluster → World σ → String × World σ
  | [], w => (installation.State, w)
  | cluster :: clusters, w =>
    let r := createClusterInstallation s cluster installation instanceID w
    if r.1 ≠ none then (InstallationStateCreationRequested, r.2)
    else createInstallationLoop s installation instanceID clusters r.2

/-- The method `createInstallation`. -/
def createInstallation (s : InstallationSupervisor σ) (installation : Installation)
    (instanceID : String) (w : World σ) : String × World σ :=
  let r := s.store.callGetClusterInstallations
    { PerPage := AllPerPage, InstallationID := installation.ID, ClusterID := "", IDs := [],
      IncludeDeleted := false } w
  let clusterInstallations := r.1.1
  if r.1.2 ≠ none then (installation.State, r.2)
  else if clusterInstallations.length > 0 then
    let stable := (countStates clusterInstallations).1
    let failed := (countStates clusterInstallations).2.2
    if clusterInstallations.length = stable then (InstallationStateStable, r.2)
    else if failed > 0 then (InstallationStateCreationFailed, r.2)
    else (InstallationStateCreationRequested, r.2)
  else
    let g := s.store.callGetClusters { PerPage := AllPerPage, IncludeDeleted := false } r.2
    if g.1.2 ≠ none then (installation.State, g.2)
    else createInstallationLoop s installation instanceID g.1.1 g.2

/-- The loop of `updateInstallation` over the cluster installations (lines 278-301):
`some state` is an early `return state`, `none` is the end of the loop.
`failedClusterInstallationState` is a helper of the package that is not in the sources;
it is taken as a parameter. -/
def updateInstallationLoop (s : InstallationSupervisor σ)
    (failedClusterInstallationState : String → String) (installation : Installation) :
    List ClusterInstallation → World σ → Option String × World σ
  | [], w => (none, w)
  | clusterInstallation :: clusterInstallations, w =>
    let g := s.store.callGetCluster clusterInstallation.ClusterID w
    if g.1.2 ≠ none then (some clusterInstallation.State, g.2)
    else
      match g.1.1 with
      | none => (some (failedClusterInstallationState clusterInstallation.State), g.2)
      | some cluster =>
        let p := s.provisioner.callUpdateClusterInstallation cluster installation
          clusterInstallation g.2
        if p.1 ≠ none then (some installation.State, p.2)
        else
          let u := s.store.callUpdateClusterInstallation
            { clusterInstallation with State := ClusterInstallationStateReconciling } p.2
          if u.1 ≠ none then (some installation.State, u.2)
          else
            updateInstallationLoop s failedClusterInstallationState installation
              clusterInstallations u.2

/-- The method `updateInstallation`. -/
def updateInstallation (s : InstallationSupervisor σ)
    (failedClusterInstallationState : String → String) (installation : Installation)
    (instanceID : String) (w : World σ) : String × World σ :=
  let r := s.store.callGetClusterInstallations
    { PerPage := AllPerPage, InstallationID := installation.ID, ClusterID := "", IDs := [],
      IncludeDeleted := false } w
  if r.1.2 ≠ none then (installation.State, r.2)
  else if r.1.1.length > 0 then
    let clusterInstallationIDs := r.1.1.map (fun clusterInstallation => clusterInstallation.ID)
    let l := clusterInstallationLocksTryLock s.store clusterInstallationIDs instanceID r.2
    if l.1 = false then (installation.State, l.2)
    else
      -- what follows runs under `defer clusterInstallationLocks.Unlock()`
      let body : String × World σ :=
        let r2 := s.store.callGetClusterInstallations
          { PerPage := AllPerPage, InstallationID := "", ClusterID := "",
            IDs := clusterInstallationIDs, IncludeDeleted := false } l.2
        if r2.1.2 ≠ none then (installation.State, r2.2)
        else
          let u := updateInstallationLoop s failedClusterInstallationState installation
            r2.1.1 r2.2
          match u.1 with
          | some state => (state, u.2)
          | none => (InstallationStateUpgradeInProgress, u.2)
      (body.1, clusterInstallationLocksUnlock s.store clusterInstallationIDs instanceID body.2)
  else
    let u := updateInstallationLoop s failedClusterInstallationState installation r.1.1 r.2
    match u.1 with
    | some state => (state, u.2)
    | none => (InstallationStateUpgradeInProgress, u.2)

/-- The method `waitForUpdateComplete`. -/
def waitForUpdateComplete (s : InstallationSupervisor σ) (installation : Installation)
    (_instanceID : String) (w : World σ) : String × World σ :=
  let r := s.store.callGetClusterInstallations
    { PerPage := AllPerPage, InstallationID := installation.ID, ClusterID := "", IDs := [],
      IncludeDeleted := false } w
  let clusterInstallations := r.1.1
  if r.1.2 ≠ none then (installation.State, r.2)
  else
    let stable := (countStates clusterInstallations).1
    let failed := (countStates clusterInstallations).2.2
    if clusterInstallations.length = stable then (InstallationStateStable, r.2)
    else if failed > 0 then (InstallationStateUpgradeFailed, r.2)
    else (installation.State, r.2)

/-- The counters of `deleteInstallation` (lines 385-387). -/
structure DeleteCounts where
  deletingClusterInstallations : Nat
  deletedClusterInstallations : Nat
  failedClusterInstallations : Nat
deriving DecidableEq

/-- The loop of `deleteInstallation` over the cluster installations (lines 389-427):
`Except.error state` is an early `return state`, `Except.ok counts` is the end of the
loop with the counters it reached. -/
def deleteInstallationLoop (s : InstallationSupervisor σ) (installation : Installation) :
    List ClusterInstallation → DeleteCounts → World σ → Except String DeleteCounts × World σ
  | [], counts, w => (Except.ok counts, w)
  | clusterInstallation :: clusterInstallations, counts, w =>
    -- the switch: `some counts` is a `continue`, `none` falls out of the switch
    let skip : Except String (Option DeleteCounts) :=
      if clusterInstallation.State = ClusterInstallationStateCreationRequested then
        Except.ok none
      else if clusterInstallation.State = ClusterInstallationStateCreationFailed then
        Except.ok none
      else if clusterInstallation.State = ClusterInstallationStateDeletionRequested then
        Except.ok (some { counts with
          deletingClusterInstallations := counts.deletingClusterInstallations + 1 })
      else if clusterInstallation.State = ClusterInstallationStateDeletionFailed then
        if installation.State = InstallationStateDeletionInProgress then
          Except.ok (some { counts with
            failedClusterInstallations := counts.failedClusterInstallations + 1 })
        else Except.ok none
      else if clusterInstallation.State = ClusterInstallationStateDeleted then
        Except.ok (some { counts with
          deletedClusterInstallations := counts.deletedClusterInstallations + 1 })
      else if clusterInstallation.State = ClusterInstallationStateStable then
        Except.ok none
      else Except.error InstallationStateDeletionFailed
    match skip with
    | Except.error state => (Except.error state, w)
    | Except.ok (some counts) => deleteInstallationLoop s installation clusterInstallations counts w
    | Except.ok none =>
      let u := s.store.callUpdateClusterInstallation
        { clusterInstallation with State := ClusterInstallationStateDeletionRequested } w
      if u.1 ≠ none then (Except.error installation.State, u.2)
      else
        deleteInstallationLoop s installation clusterInstallations
          { counts with
            deletingClusterInstallations := counts.deletingClusterInstallations + 1 } u.2

/-- The end of `deleteInstallation` (lines 385-454): the loop, then the decision on the
counters. -/
def deleteInstallationFinish (s : InstallationSupervisor σ) (installation : Installation)
    (clusterInstallations : List ClusterInstallation) (w : World σ) : String × World σ :=
  let d := deleteInstallationLoop s installation clusterInstallations ⟨0, 0, 0⟩ w
  match d.1 with
  | Except.error state => (state, d.2)
  | Except.ok counts =>
    if counts.failedClusterInstallations > 0 then (InstallationStateDeletionFailed, d.2)
    else if counts.deletedClusterInstallations < clusterInstallations.length then
      (InstallationStateDeletionInProgress, d.2)
    else
      let x := s.store.callDeleteInstallation installation.ID d.2
      if x.1 ≠ none then (installation.State, x.2)
      else (InstallationStateDeleted, x.2)

/-- The method `deleteInstallation`. -/
def deleteInstallation (s : InstallationSupervisor σ) (installation : Installation)
    (instanceID : String) (w : World σ) : String × World σ :=
  let r := s.store.callGetClusterInstallations
    { PerPage := AllPerPage, InstallationID := installation.ID, ClusterID := "", IDs := [],
      IncludeDeleted := true } w
  if r.1.2 ≠ none then (installation.State, r.2)
  else if r.1.1.length > 0 then
    let clusterInstallationIDs := r.1.1.map (fun clusterInstallation => clusterInstallation.ID)
    let l := clusterInstallationLocksTryLock s.store clusterInstallationIDs instanceID r.2
    if l.1 = false then (installation.State, l.2)
    else
      -- what follows runs under `defer clusterInstallationLocks.Unlock()`
      let body : String × World σ :=
        let r2 := s.store.callGetClusterInstallations
          { PerPage := AllPerPage, InstallationID := "", ClusterID := "",
            IDs := clusterInstallationIDs, IncludeDeleted := true } l.2
        if r2.1.2 ≠ none then (installation.State, r2.2)
        else deleteInstallationFinish s installation r2.1.1 r2.2
      (body.1, clusterInstallationLocksUnlock s.store clusterInstallationIDs instanceID body.2)
  else deleteInstallationFinish s installation r.1.1 r.2

/-- The method `transitionInstallation`. -/
def transitionInstallation (s : InstallationSupervisor σ)
    (failedClusterInstallationState : String → String) (installation : Installation)
    (instanceID : String) (w : World σ) : String × World σ :=
  if installation.State = InstallationStateCreationRequested then
    createInstallation s installation instanceID w
  else if installation.State = InstallationStateUpgradeRequested then
    updateInstallation s failedClusterInstallationState installation instanceID w
  else if installation.State = InstallationStateUpgradeInProgress then
    waitForUpdateComplete s installation instanceID w
  else if installation.State = InstallationStateDeletionRequested
      ∨ installation.State = InstallationStateDeletionInProgress then
    deleteInstallation s installation instanceID w
  else (installation.State, w)

/-- The method `Supervise`.  `Except.error` is the run-time panic of dereferencing the
`nil` installation that `GetInstallation` may answer; the deferred unlock runs in both
cases. -/
def Supervise (s : InstallationSupervisor σ)
    (failedClusterInstallationState : String → String) (installation : Installation)
    (w : World σ) : Except String Unit × World σ :=
  let l := installationLockTryLock s.store installation.ID s.instanceID w
  if l.1 = false then (Except.ok (), l.2)
  else
    -- what follows runs under `defer lock.Unlock()`
    let body : Except String Unit × World σ :=
      let t := transitionInstallation s failedClusterInstallationState installation
        s.instanceID l.2
      let newState := t.1
      let g := s.store.callGetInstallation installation.ID t.2
      if g.1.2 ≠ none then (Except.ok (), g.2)
      else
        match g.1.1 with
        | none => (Except.error "nil pointer dereference", g.2)
        | some installation =>
          if installation.State = newState then (Except.ok (), g.2)
          else
            let u := s.store.callUpdateInstallation { installation with State := newState } g.2
            (Except.ok (), u.2)
    (body.1, installationLockUnlock s.store installation.ID s.instanceID body.2)

/-- The loop of `Do` over the installations (lines 66-68). -/
def DoLoop (s : InstallationSupervisor σ) (failedClusterInstallationState : String → String) :
    List Installation → World σ → Except String Unit × World σ
  | [], w => (Except.ok (), w)
  | installation :: installations, w =>
    let r := Supervise s failedClusterInstallationState installation w
    match r.1 with
    | Except.error panic => (Except.error panic, r.2)
    | Except.ok _ => DoLoop s failedClusterInstallationState installations r.2

/-- The method `Do`: `Except.ok err` is `return err`, `Except.error` is a panic. -/
def Do (s : InstallationSupervisor σ) (failedClusterInstallationState : String → String)
    (w : World σ) : Except String error × World σ :=
  let r := s.store.callGetUnlockedInstallationsPendingWork w
  if r.1.2 ≠ none then (Except.ok none, r.2)
  else
    let d := DoLoop s failedClusterInstallationState r.1.1 r.2
    match d.1 with
    | Except.error panic => (Except.error panic, d.2)
    | Except.ok _ => (Except.ok none, d.2)

/-! ## A store in memory

A concrete store, used to run the supervisor on concrete inputs. -/

/-- The state of the store in memory: its records, the clusters that are locked, the
identifiers `model.NewID` will draw, and the names of the methods that answer with an
error (`CreateClusterInstallation on c` makes the creation fail on cluster `c` only,
`GetClusterInstallations by cluster` makes only the listings by cluster fail). -/
structure Mem where
  clusters : List Cluster
  installations : List Installation
  clusterInstallations : List ClusterInstallation
  lockedClusters : List String
  ids : List String
  failing : List String
deriving DecidableEq

/-- The answer of a method of the store in memory that may be set to fail. -/
def Mem.answer {α : Type} (m : Mem) (method : String) (zero : α) (r : α × Mem) :
    (α × error) × Mem :=
  if method ∈ m.failing then ((zero, some method), m) else ((r.1, none), r.2)

/-- The answer of a method of the store in memory that returns only an error. -/
def Mem.perform (m : Mem) (method : String) (next : Mem) : error × Mem :=
  if method ∈ m.failing then (some method, m) else (none, next)

/-- The cluster installations a filter selects. -/
def Mem.select (m : Mem) (filter : ClusterInstallationFilter) : List ClusterInstallation :=
  m.clusterInstallations.filter (fun ci =>
    (filter.InstallationID = "" ∨ ci.InstallationID = filter.InstallationID)
    ∧ (filter.ClusterID = "" ∨ ci.ClusterID = filter.ClusterID)
    ∧ (filter.IDs = [] ∨ ci.ID ∈ filter.IDs)
    ∧ (filter.IncludeDeleted = true ∨ ci.State ≠ ClusterInstallationStateDeleted))

/-- The store in memory. -/
def memStore : installationStore Mem where
  GetClusters := fun _ m => m.answer "GetClusters" [] (m.clusters, m)
  GetCluster := fun id m =>
    m.answer "GetCluster" none (m.clusters.find? (fun c => c.ID = id), m)
  LockCluster := fun clusterID _ m =>
    m.answer "LockCluster" false
      (if clusterID ∈ m.lockedClusters then (false, m)
       else (true, { m with lockedClusters := clusterID :: m.lockedClusters }))
  UnlockCluster := fun clusterID _ _ m =>
    m.answer "UnlockCluster" false
      (true, { m with lockedClusters := m.lockedClusters.filter (fun c => c ≠ clusterID) })
  GetInstallation := fun id m =>
    m.answer "GetInstallation" none (m.installations.find? (fun i => i.ID = id), m)
  GetUnlockedInstallationsPendingWork := fun m =>
    m.answer "GetUnlockedInstallationsPendingWork" [] (m.installations, m)
  UpdateInstallation := fun installation m =>
    m.perform "UpdateInstallation"
      { m with installations := m.installations.map (fun i =>
          if i.ID = installation.ID then installation else i) }
  LockInstallation := fun _ _ m => m.answer "LockInstallation" false (true, m)
  UnlockInstallation := fun _ _ _ m => m.answer "UnlockInstallation" false (true, m)
  DeleteInstallation := fun id m =>
    m.perform "DeleteInstallation"
      { m with installations := m.installations.filter (fun i => i.ID ≠ id) }
  CreateClusterInstallation := fun ci m =>
    if "CreateClusterInstallation on " ++ ci.ClusterID ∈ m.failing then
      (some "CreateClusterInstallation", m)
    else
      m.perform "CreateClusterInstallation"
        { m with clusterInstallations :=
            m.clusterInstallations ++ [{ ci with ID := ci.Namespace }] }
  GetClusterInstallation := fun id m =>
    m.answer "GetClusterInstallation" none
      (m.clusterInstallations.find? (fun ci => ci.ID = id), m)
  GetClusterInstallations := fun filter m =>
    if filter.ClusterID ≠ "" ∧ "GetClusterInstallations by cluster" ∈ m.failing then
      (([], some "GetClusterInstallations"), m)
    else m.answer "GetClusterInstallations" [] (m.select filter, m)
  LockClusterInstallations := fun _ _ m => m.answer "LockClusterInstallations" false (true, m)
  UnlockClusterInstallations := fun _ _ _ m =>
    m.answer "UnlockClusterInstallations" false (true, m)
  UpdateClusterInstallation := fun clusterInstallation m =>
    m.perform "UpdateClusterInstallation"
      { m with clusterInstallations := m.clusterInstallations.map (fun ci =>
          if ci.ID = clusterInstallation.ID then clusterInstallation else ci) }

/-- The provisioner that goes with the store in memory: it changes no record. -/
def memProvisioner : installationProvisioner Mem where
  CreateClusterInstallation := fun _ _ _ m => m.perform "ProvisionerCreate" m
  DeleteClusterInstallation := fun _ _ _ m => m.perform "ProvisionerDelete" m
  UpdateClusterInstallation := fun _ _ _ m => m.perform "ProvisionerUpdate" m

/-- The supervisor over the store in memory; `model.NewID` draws the next identifier. -/
def memSupervisor : InstallationSupervisor Mem where
  store := memStore
  provisioner := memProvisioner
  instanceID := "instance"
  NewID := fun m =>
    match m.ids with
    | [] => ("", m)
    | id :: ids => (id, { m with ids := ids })

/-- A helper the package would use for `failedClusterInstallationState`, for the runs on
concrete inputs: the failed variant of a requested state, any other state unchanged. -/
def failedVariant (state : String) : String :=
  if state = ClusterInstallationStateCreationRequested then
    ClusterInstallationStateCreationFailed
  else if state = ClusterInstallationStateDeletionRequested then
    ClusterInstallationStateDeletionFailed
  else state

/-- A store state for the create path with children: installation `i1` has a stable and
a failed cluster installation. -/
def memMixedChildren : Mem :=
  { clusters := [⟨"c1", ClusterStateStable⟩, ⟨"c2", ClusterStateStable⟩],
    installations := [⟨"i1", InstallationStateCreationRequested, ""⟩],
    clusterInstallations :=
      [⟨"ci1", "c1", "i1", "ns1", ClusterInstallationStateStable⟩,
       ⟨"ci2", "c2", "i1", "ns2", ClusterInstallationStateCreationFailed⟩],
    lockedClusters := [], ids := [], failing := [] }

/-- The renaming of the outcomes of Create's aggregation into those of the wait for an
update, in the words of the spec: Stable to Stable, CreationFailed to UpgradeFailed,
CreationRequested (waiting) to UpgradeInProgress (waiting). -/
def renameCreateOutcome (outcome : String) : String :=
  if outcome = InstallationStateStable then InstallationStateStable
  else if outcome = InstallationStateCreationFailed then InstallationStateUpgradeFailed
  else if outcome = InstallationStateCreationRequested then InstallationStateUpgradeInProgress
  else outcome

/-- A store state for the wait for an update: the only child of installation `i1` failed
its deletion. -/
def memDeletionFailedChild : Mem :=
  { clusters := [⟨"c1", ClusterStateStable⟩],
    installations := [⟨"i1", InstallationStateUpgradeInProgress, ""⟩],
    clusterInstallations :=
      [⟨"ci1", "c1", "i1", "ns1", ClusterInstallationStateDeletionFailed⟩],
    lockedClusters := [], ids := [], failing := [] }

/-! ## Observations on the trace -/

/-- The calls made between two worlds of one run. -/
def newEvents (w w2 : World σ) : List Event :=
  w2.trace.drop w.trace.length

/-- The error a call returned. -/
def Event.err : Event → error
  | .GetClusters _ _ err => err
  | .GetCluster _ _ err => err
  | .LockCluster _ _ _ err => err
  | .UnlockCluster _ _ _ _ err => err
  | .GetInstallation _ _ err => err
  | .GetUnlockedInstallationsPendingWork _ err => err
  | .UpdateInstallation _ err => err
  | .LockInstallation _ _ _ err => err
  | .UnlockInstallation _ _ _ _ err => err
  | .DeleteInstallation _ err => err
  | .CreateClusterInstallation _ err => err
  | .GetClusterInstallations _ _ err => err
  | .LockClusterInstallations _ _ _ err => err
  | .UnlockClusterInstallations _ _ _ _ err => err
  | .UpdateClusterInstallation _ err => err
  | .ProvisionerUpdateClusterInstallation _ _ _ err => err
  | .NewID _ => none

/-- A call that did what it was made for: it returned no error, and moreover a lock
attempt acquired its lock and `GetCluster` found the cluster. -/
def Event.succeeded : Event → Bool
  | .GetCluster _ cluster err => cluster.isSome && err.isNone
  | .LockCluster _ _ locked err => locked && err.isNone
  | .LockInstallation _ _ locked err => locked && err.isNone
  | .LockClusterInstallations _ _ locked err => locked && err.isNone
  | e => e.err.isNone

/-- The calls of a pass of `updateInstallation` over children paired with their
clusters, each call succeeding: for each child in turn the cluster is resolved, the
provisioner updates the child, and the child is persisted in state Reconciling. -/
def dispatchCalls (installation : Installation) :
    List (ClusterInstallation × Cluster) → List Event
  | [] => []
  | (clusterInstallation, cluster) :: rest =>
    Event.GetCluster clusterInstallation.ClusterID (some cluster) none
      :: Event.ProvisionerUpdateClusterInstallation cluster installation clusterInstallation none
      :: Event.UpdateClusterInstallation
          { clusterInstallation with State := ClusterInstallationStateReconciling } none
      :: dispatchCalls installation rest

/-- A store state for the update path: installation `i1` has two children, on the
clusters `c1` and `c2`. -/
def memUpgrade : Mem :=
  { clusters := [⟨"c1", ClusterStateStable⟩, ⟨"c2", ClusterStateStable⟩],
    installations := [⟨"i1", InstallationStateUpgradeRequested, ""⟩],
    clusterInstallations :=
      [⟨"ci1", "c1", "i1", "ns1", ClusterInstallationStateStable⟩,
       ⟨"ci2", "c2", "i1", "ns2", ClusterInstallationStateStable⟩],
    lockedClusters := [], ids := [], failing := [] }

/-- A store state for the update path without children. -/
def memNoChildren : Mem :=
  { clusters := [⟨"c1", ClusterStateStable⟩],
    installations := [⟨"i1", InstallationStateUpgradeRequested, ""⟩],
    clusterInstallations := [], lockedClusters := [], ids := [], failing := [] }

/-- The store state `memUpgrade` with a failing `GetCluster`. -/
def memUpgradeGetClusterFails : Mem :=
  { memUpgrade with failing := ["GetCluster"] }

/-- A store state for the update path: the only child of installation `i1` is on the
cluster `c9`, which the store does not have. -/
def memUpgradeMissingCluster : Mem :=
  { clusters := [⟨"c1", ClusterStateStable⟩],
    installations := [⟨"i1", InstallationStateUpgradeRequested, ""⟩],
    clusterInstallations :=
      [⟨"ci1", "c9", "i1", "ns1", ClusterInstallationStateStable⟩],
    lockedClusters := [], ids := [], failing := [] }

/-- The children a run of `updateInstallation` or `deleteInstallation` worked on: the
answer to its last listing of cluster installations (the re-read under the lock when
there is one, the first listing otherwise). -/
def snapshotOf (evs : List Event) : List ClusterInstallation :=
  evs.foldl
    (fun snapshot e =>
      match e with
      | .GetClusterInstallations _ clusterInstallations _ => clusterInstallations
      | _ => snapshot)
    []

/-- The six states of a child that `deleteInstallation` knows how to handle. -/
def deletable (state : String) : Prop :=
  state = ClusterInstallationStateCreationRequested
  ∨ state = ClusterInstallationStateCreationFailed
  ∨ state = ClusterInstallationStateStable
  ∨ state = ClusterInstallationStateDeletionRequested
  ∨ state = ClusterInstallationStateDeletionFailed
  ∨ state = ClusterInstallationStateDeleted

instance deletableDecidable : DecidablePred deletable := fun state => by
  unfold deletable
  infer_instance

/-- A store state for the delete path: installation `i1`, in DeletionInProgress, has a
deleted child and a child whose deletion failed. -/
def memDeleteFailed : Mem :=
  { clusters := [⟨"c1", ClusterStateStable⟩, ⟨"c2", ClusterStateStable⟩],
    installations := [⟨"i1", InstallationStateDeletionInProgress, ""⟩],
    clusterInstallations :=
      [⟨"ci1", "c1", "i1", "ns1", ClusterInstallationStateDeleted⟩,
       ⟨"ci2", "c2", "i1", "ns2", ClusterInstallationStateDeletionFailed⟩],
    lockedClusters := [], ids := [], failing := [] }

/-- A store state for the delete path: both children of installation `i1`, in
DeletionInProgress, are deleted. -/
def memAllDeleted : Mem :=
  { clusters := [⟨"c1", ClusterStateStable⟩, ⟨"c2", ClusterStateStable⟩],
    installations := [⟨"i1", InstallationStateDeletionInProgress, ""⟩],
    clusterInstallations :=
      [⟨"ci1", "c1", "i1", "ns1", ClusterInstallationStateDeleted⟩,
       ⟨"ci2", "c2", "i1", "ns2", ClusterInstallationStateDeleted⟩],
    lockedClusters := [], ids := [], failing := [] }

/-- A store state for the delete path: installation `i1`, in DeletionRequested, has no
children. -/
def memDeleteNoChildren : Mem :=
  { clusters := [⟨"c1", ClusterStateStable⟩],
    installations := [⟨"i1", InstallationStateDeletionRequested, ""⟩],
    clusterInstallations := [], lockedClusters := [], ids := [], failing := [] }

/-- The `CreateClusterInstallation` calls of a run, oldest first, each with the record it
was given and the error it returned. -/
def createCalls (evs : List Event) : List (ClusterInstallation × error) :=
  evs.filterMap (fun e =>
    match e with
    | .CreateClusterInstallation clusterInstallation err => some (clusterInstallation, err)
    | _ => none)

/-- The calls of a scan that passes over clusters without attempting a creation, in the
words of the spec: each cluster, when its turn comes, is not lockable, or is locked and
not Stable, or is locked, Stable and already has a cluster installation. -/
inductive Skipped (instanceID : String) : List Cluster → List Event → Prop where
  | nil : Skipped instanceID [] []
  | notLockable (cluster : Cluster) (locked : Bool) (err : error) (clusters : List Cluster)
      (evs : List Event) (h : ¬ (locked = true ∧ err = none))
      (rest : Skipped instanceID clusters evs) :
      Skipped instanceID (cluster :: clusters)
        (Event.LockCluster cluster.ID instanceID locked err :: evs)
  | notStable (cluster : Cluster) (unlocked : Bool) (uerr : error) (clusters : List Cluster)
      (evs : List Event) (h : cluster.State ≠ ClusterStateStable)
      (rest : Skipped instanceID clusters evs) :
      Skipped instanceID (cluster :: clusters)
        (Event.LockCluster cluster.ID instanceID true none
          :: Event.UnlockCluster cluster.ID instanceID false unlocked uerr :: evs)
  | occupied (cluster : Cluster) (existing : List ClusterInstallation) (err : error)
      (unlocked : Bool) (uerr : error) (clusters : List Cluster) (evs : List Event)
      (hstable : cluster.State = ClusterStateStable) (h : existing ≠ [])
      (rest : Skipped instanceID clusters evs) :
      Skipped instanceID (cluster :: clusters)
        (Event.LockCluster cluster.ID instanceID true none
          :: Event.GetClusterInstallations
              { PerPage := AllPerPage, InstallationID := "", ClusterID := cluster.ID,
                IDs := [], IncludeDeleted := false } existing err
          :: Event.UnlockCluster cluster.ID instanceID false unlocked uerr :: evs)

/-- A store state for the create path: installation `i1` has no children; cluster `c0` is
locked by another owner, `c1` is not stable, `c2` hosts a cluster installation of another
installation, `c3` and `c4` are stable and empty. -/
def memCreate : Mem :=
  { clusters := [⟨"c0", ClusterStateStable⟩, ⟨"c1", "Provisioning"⟩,
      ⟨"c2", ClusterStateStable⟩, ⟨"c3", ClusterStateStable⟩, ⟨"c4", ClusterStateStable⟩],
    installations := [⟨"i1", InstallationStateCreationRequested, ""⟩],
    clusterInstallations :=
      [⟨"ci0", "c2", "i0", "ns0", ClusterInstallationStateStable⟩],
    lockedClusters := ["c0"], ids := ["n1", "n2"], failing := [] }

/-- A store state for the create path: installation `i1` has no children, the clusters
`c1` and `c2` are stable, unlocked and empty, and the store refuses the creation on
`c1`. -/
def memCreateRefusedOnFirst : Mem :=
  { clusters := [⟨"c1", ClusterStateStable⟩, ⟨"c2", ClusterStateStable⟩],
    installations := [⟨"i1", InstallationStateCreationRequested, ""⟩],
    clusterInstallations := [], lockedClusters := [], ids := ["n1", "n2"],
    failing := ["CreateClusterInstallation on c1"] }

/-- A store state for the create path: installation `i1` has no children, the clusters
`c1` and `c2` are stable, unlocked and empty, and every creation fails. -/
def memCreateFails : Mem :=
  { clusters := [⟨"c1", ClusterStateStable⟩, ⟨"c2", ClusterStateStable⟩],
    installations := [⟨"i1", InstallationStateCreationRequested, ""⟩],
    clusterInstallations := [], lockedClusters := [], ids := ["n1", "n2"],
    failing := ["CreateClusterInstallation"] }

/-- What `createClusterInstallation` tests before it creates: the run locked the cluster,
the cluster is Stable, and the listing of its cluster installations answered the empty
list, with or without an error. -/
def passesChecks (instanceID : String) (evs : List Event) (cluster : Cluster) : Prop :=
  Event.LockCluster cluster.ID instanceID true none ∈ evs
  ∧ cluster.State = ClusterStateStable
  ∧ ∃ err, Event.GetClusterInstallations
      { PerPage := AllPerPage, InstallationID := "", ClusterID := cluster.ID, IDs := [],
        IncludeDeleted := false } [] err ∈ evs

/-- A listing of cluster installations that failed. -/
def Event.listingFailed : Event → Bool
  | .GetClusterInstallations _ _ err => err.isSome
  | _ => false

/-- A cluster that a run found eligible, in the words of the spec: lockable, stable and not
already hosting a cluster installation.  The run locked it, it is Stable, and the store
answered the listing of its cluster installations, without error, with the empty list. -/
def observedEligible (instanceID : String) (evs : List Event) (cluster : Cluster) : Prop :=
  Event.LockCluster cluster.ID instanceID true none ∈ evs
  ∧ cluster.State = ClusterStateStable
  ∧ Event.GetClusterInstallations
      { PerPage := AllPerPage, InstallationID := "", ClusterID := cluster.ID, IDs := [],
        IncludeDeleted := false } [] none ∈ evs

instance observedEligibleDecidable (instanceID : String) (evs : List Event) :
    DecidablePred (observedEligible instanceID evs) := fun cluster => by
  unfold observedEligible
  infer_instance

/-- Single tenancy of a store in memory: no two cluster installations that are not
Deleted reference the same cluster. -/
def singleTenancy (m : Mem) : Prop :=
  ((m.clusterInstallations.filter
      (fun ci => ci.State ≠ ClusterInstallationStateDeleted)).map
    (fun ci => ci.ClusterID)).Nodup

instance singleTenancyDecidable (m : Mem) : Decidable (singleTenancy m) := by
  unfold singleTenancy
  infer_instance

/-- A store state for the create path: the only cluster installation of the stable cluster
`c1` is in state Deleted, and installation `i1` has no children. -/
def memDeletedOnly : Mem :=
  { clusters := [⟨"c1", ClusterStateStable⟩],
    installations := [⟨"i1", InstallationStateCreationRequested, ""⟩],
    clusterInstallations :=
      [⟨"ci0", "c1", "i0", "ns0", ClusterInstallationStateDeleted⟩],
    lockedClusters := [], ids := ["n1"], failing := [] }

/-- A store state for the create path: the stable cluster `c1` hosts a stable cluster
installation of installation `i0`, installation `i1` has no children, and the listings by
cluster fail. -/
def memOccupiedListingFails : Mem :=
  { clusters := [⟨"c1", ClusterStateStable⟩],
    installations := [⟨"i1", InstallationStateCreationRequested, ""⟩],
    clusterInstallations :=
      [⟨"ci0", "c1", "i0", "ns0", ClusterInstallationStateStable⟩],
    lockedClusters := [], ids := ["n1"],
    failing := ["GetClusterInstallations by cluster"] }

/-- A store state for the create path: installation `i1` has no children; cluster `c0` is
locked by another owner, `c1` is not stable, `c2` hosts a failed cluster installation. -/
def memNoEligibleCluster : Mem :=
  { clusters := [⟨"c0", ClusterStateStable⟩, ⟨"c1", "Provisioning"⟩,
      ⟨"c2", ClusterStateStable⟩],
    installations := [⟨"i1", InstallationStateCreationRequested, ""⟩],
    clusterInstallations :=
      [⟨"ci0", "c2", "i0", "ns0", ClusterInstallationStateCreationFailed⟩],
    lockedClusters := ["c0"], ids := ["n1"], failing := [] }

/-- A child whose deletion is requested by a pass of `deleteInstallation`, in the words of
the spec: it is in CreationRequested, CreationFailed or Stable, or it is in DeletionFailed
and the installation is not yet DeletionInProgress. -/
def eligibleForDeletion (installation : Installation) (ci : ClusterInstallation) : Prop :=
  ci.State = ClusterInstallationStateCreationRequested
  ∨ ci.State = ClusterInstallationStateCreationFailed
  ∨ ci.State = ClusterInstallationStateStable
  ∨ (ci.State = ClusterInstallationStateDeletionFailed
      ∧ installation.State ≠ InstallationStateDeletionInProgress)

instance eligibleForDeletionDecidable (installation : Installation) :
    DecidablePred (eligibleForDeletion installation) := fun ci => by
  unfold eligibleForDeletion
  infer_instance

/-- The calls that persist the given children in state DeletionRequested, each one
succeeding, in list order. -/
def deletionRequests (cis : List ClusterInstallation) : List Event :=
  cis.map (fun ci =>
    Event.UpdateClusterInstallation
      { ci with State := ClusterInstallationStateDeletionRequested } none)

/-- The `UpdateClusterInstallation` calls of a run, oldest first, each with the record it
was given and the error it returned. -/
def updateCalls (evs : List Event) : List (ClusterInstallation × error) :=
  evs.filterMap (fun e =>
    match e with
    | .UpdateClusterInstallation clusterInstallation err => some (clusterInstallation, err)
    | _ => none)

/-- A call that aborts the pass of `deleteInstallation` over the children, in the words
of the spec: a listing of the children that failed (the first one or the re-read under
the lock), a batch lock that was not acquired, or a child that could not be persisted. -/
def Event.abortsPass : Event → Bool
  | .GetClusterInstallations _ _ err => err.isSome
  | .LockClusterInstallations _ _ locked err => !locked || err.isSome
  | .UpdateClusterInstallation _ err => err.isSome
  | _ => false

/-- A call of `deleteInstallation` that did not do what it was made for, in the words of
the spec: a call that aborts the pass, or a deletion of the installation record that
failed. -/
def Event.abortsDeletion : Event → Bool
  | .DeleteInstallation _ err => err.isSome
  | e => e.abortsPass

/-- A store state for the delete path: installation `i1`, in DeletionRequested, has a
stable child, a child whose deletion is requested, a child whose deletion failed and a
deleted child. -/
def memDeleteMixed : Mem :=
  { clusters := [⟨"c1", ClusterStateStable⟩, ⟨"c2", ClusterStateStable⟩,
      ⟨"c3", ClusterStateStable⟩, ⟨"c4", ClusterStateStable⟩],
    installations := [⟨"i1", InstallationStateDeletionRequested, ""⟩],
    clusterInstallations :=
      [⟨"ci1", "c1", "i1", "ns1", ClusterInstallationStateStable⟩,
       ⟨"ci2", "c2", "i1", "ns2", ClusterInstallationStateDeletionRequested⟩,
       ⟨"ci3", "c3", "i1", "ns3", ClusterInstallationStateDeletionFailed⟩,
       ⟨"ci4", "c4", "i1", "ns4", ClusterInstallationStateDeleted⟩],
    lockedClusters := [], ids := [], failing := [] }

/-- A store state for the delete path: installation `i1`, in DeletionRequested, has a
stable child, then a child in Reconciling, then another stable child. -/
def memDeleteReconciling : Mem :=
  { clusters := [⟨"c1", ClusterStateStable⟩, ⟨"c2", ClusterStateStable⟩,
      ⟨"c3", ClusterStateStable⟩],
    installations := [⟨"i1", InstallationStateDeletionRequested, ""⟩],
    clusterInstallations :=
      [⟨"ci1", "c1", "i1", "ns1", ClusterInstallationStateStable⟩,
       ⟨"ci2", "c2", "i1", "ns2", ClusterInstallationStateReconciling⟩,
       ⟨"ci3", "c3", "i1", "ns3", ClusterInstallationStateStable⟩],
    lockedClusters := [], ids := [], failing := [] }

/-- The store state `memDeleteMixed` with a failing `UpdateClusterInstallation`. -/
def memDeleteUpdateFails : Mem :=
  { memDeleteMixed with failing := ["UpdateClusterInstallation"] }

/-- The calls that `Do` and `Supervise` make themselves, on the installation records and
the installation lock, as opposed to the calls of a transition. -/
def Event.ofSupervise : Event → Bool
  | .GetInstallation _ _ _ => true
  | .GetUnlockedInstallationsPendingWork _ _ => true
  | .UpdateInstallation _ _ => true
  | .LockInstallation _ _ _ _ => true
  | .UnlockInstallation _ _ _ _ _ => true
  | _ => false

/-- The second world continues the first one with calls of a transition only. -/
def transitionTrace (w w2 : World σ) : Prop :=
  ∃ evs, w2.trace = w.trace ++ evs ∧ ∀ e ∈ evs, e.ofSupervise = false

/-- The records given to `UpdateInstallation` in a run, oldest first. -/
def installationWrites (evs : List Event) : List Installation :=
  evs.filterMap (fun e =>
    match e with
    | .UpdateInstallation installation _ => some installation
    | _ => none)

/-- A store state for `Supervise`: the record of installation `i1`, in UpgradeInProgress,
carries the fields `fresh`, and its only child is stable. -/
def memWaitStable : Mem :=
  { clusters := [⟨"c1", ClusterStateStable⟩],
    installations := [⟨"i1", InstallationStateUpgradeInProgress, "fresh"⟩],
    clusterInstallations :=
      [⟨"ci1", "c1", "i1", "ns1", ClusterInstallationStateStable⟩],
    lockedClusters := [], ids := [], failing := [] }

/-- The store state `memWaitStable` with a failing `LockInstallation`. -/
def memLockInstallationFails : Mem :=
  { memWaitStable with failing := ["LockInstallation"] }

/-- A store state for `Do`: two installations are pending, `i1` in DeletionRequested
without children and `i2` in CreationRequested without children; cluster `c1` is free. -/
def memTwoPending : Mem :=
  { clusters := [⟨"c1", ClusterStateStable⟩],
    installations := [⟨"i1", InstallationStateDeletionRequested, ""⟩,
      ⟨"i2", InstallationStateCreationRequested, ""⟩],
    clusterInstallations := [], lockedClusters := [], ids := ["n1"], failing := [] }

/-- A store in memory next to which another actor works: right after a listing of the
clusters the actor applies `afterClusters` to the records, and right after a listing of
the cluster installations of an installation it applies `afterChildren`.  These are the
listings the supervisor makes before it holds a lock on what it lists. -/
def actorStore (afterClusters afterChildren : Mem → Mem) : installationStore Mem :=
  { memStore with
    GetClusters := fun filter m =>
      ((memStore.GetClusters filter m).1, afterClusters (memStore.GetClusters filter m).2)
    GetClusterInstallations := fun filter m =>
      if filter.InstallationID ≠ "" then
        ((memStore.GetClusterInstallations filter m).1,
          afterChildren (memStore.GetClusterInstallations filter m).2)
      else memStore.GetClusterInstallations filter m }

/-- The supervisor over the store `actorStore`. -/
def actorSupervisor (afterClusters afterChildren : Mem → Mem) : InstallationSupervisor Mem :=
  { memSupervisor with store := actorStore afterClusters afterChildren }

/-- An actor that takes every cluster out of the state Stable. -/
def clustersLeaveStable (m : Mem) : Mem :=
  { m with clusters := m.clusters.map (fun c => { c with State := "Provisioning" }) }

/-- An actor that brings every cluster installation to the state Stable. -/
def childrenSettle (m : Mem) : Mem :=
  { m with clusterInstallations :=
      m.clusterInstallations.map (fun ci => { ci with State := ClusterInstallationStateStable }) }

/-- A store state for the create path: installation `i1` has no cluster installation, and
cluster `c1` is Stable and hosts none. -/
def memOneFreeCluster : Mem :=
  { clusters := [⟨"c1", ClusterStateStable⟩],
    installations := [⟨"i1", InstallationStateCreationRequested, ""⟩],
    clusterInstallations := [], lockedClusters := [], ids := ["n1"], failing := [] }

/-- The store state `memUpgrade` with children that are not settled yet. -/
def memUpgradeUnsettled : Mem :=
  { memUpgrade with clusterInstallations :=
      [⟨"ci1", "c1", "i1", "ns1", ClusterInstallationStateCreationRequested⟩,
       ⟨"ci2", "c2", "i1", "ns2", ClusterInstallationStateReconciling⟩] }

/-- A lock of the store: the installation lock, the cluster lock, or the batch lock on
cluster installations, each with its owner. -/
inductive LockRef where
  | installation (installationID lockerID : String)
  | cluster (clusterID lockerID : String)
  | clusterInstallations (clusterInstallationIDs : List String) (lockerID : String)
deriving DecidableEq

/-- The lock a call acquired: a lock attempt that the store granted without error. -/
def Event.acquires : Event → Option LockRef
  | .LockInstallation id lockerID true none => some (.installation id lockerID)
  | .LockCluster id lockerID true none => some (.cluster id lockerID)
  | .LockClusterInstallations ids lockerID true none =>
    some (.clusterInstallations ids lockerID)
  | _ => none

/-- The lock an unlock call was issued for. -/
def Event.releases : Event → Option LockRef
  | .UnlockInstallation id lockerID _ _ _ => some (.installation id lockerID)
  | .UnlockCluster id lockerID _ _ _ => some (.cluster id lockerID)
  | .UnlockClusterInstallations ids lockerID _ _ _ =>
    some (.clusterInstallations ids lockerID)
  | _ => none

/-- The locks held after a run, innermost first, given the locks held before it; `none`
when the run issues an unlock for a lock that is not the innermost one held (in
particular for a lock that was not acquired, or that was released already). -/
def locksHeldAfter : List LockRef → List Event → Option (List LockRef)
  | held, [] => some held
  | held, e :: evs =>
    match e.acquires with
    | some lock => locksHeldAfter (lock :: held) evs
    | none =>
      match e.releases with
      | none => locksHeldAfter held evs
      | some lock =>
        match held with
        | [] => none
        | top :: rest => if lock = top then locksHeldAfter rest evs else none

/-- The second world continues the first one with a run that respects the locks: it
acquires the locks `locks`, innermost first, on top of those held, and each unlock it
issues is for the innermost lock held. -/
def heldTrace (locks : List LockRef) (w w2 : World σ) : Prop :=
  ∃ evs, w2.trace = w.trace ++ evs
    ∧ ∀ held, locksHeldAfter held evs = some (locks ++ held)

/-- The world with the calls `before` put in front of its trace. -/
def World.shift (before : List Event) (w : World σ) : World σ :=
  ⟨w.st, before ++ w.trace⟩

/-! ## Theorems -/

/-! ### The aggregation loop -/

theorem countStates_foldl (cis : List ClusterInstallation) (a b c : Nat) :
    cis.foldl
      (fun acc clusterInstallation =>
        let stable :=
          if clusterInstallation.State = ClusterInstallationStateStable then acc.1 + 1
          else acc.1
        let reconciling :=
          if clusterInstallation.State = ClusterInstallationStateReconciling then acc.2.1 + 1
          else acc.2.1
        let failed :=
          if clusterInstallation.State = ClusterInstallationStateCreationFailed then
            acc.2.2 + 1
          else acc.2.2
        (stable, reconciling, failed))
      (a, b, c)
    = (a + cis.countP (fun ci => ci.State = ClusterInstallationStateStable),
       b + cis.countP (fun ci => ci.State = ClusterInstallationStateReconciling),
       c + cis.countP (fun ci => ci.State = ClusterInstallationStateCreationFailed)) := by
  induction cis generalizing a b c with
  | nil => simp
  | cons ci cis ih =>
    simp only [List.foldl_cons, ih, List.countP_cons, decide_eq_true_eq]
    refine Prod.ext ?_ (Prod.ext ?_ ?_) <;> dsimp only <;> split <;> omega

theorem countStates_stable (cis : List ClusterInstallation) :
    (countStates cis).1 = cis.countP (fun ci => ci.State = ClusterInstallationStateStable) := by
  unfold countStates
  rw [countStates_foldl]
  simp

theorem countStates_failed (cis : List ClusterInstallation) :
    (countStates cis).2.2
      = cis.countP (fun ci => ci.State = ClusterInstallationStateCreationFailed) := by
  unfold countStates
  rw [countStates_foldl]
  simp

/-- The test `len(clusterInstallations) == stable` holds exactly when every cluster
installation is stable. -/
theorem length_eq_stable_iff (cis : List ClusterInstallation) :
    cis.length = (countStates cis).1
      ↔ ∀ ci ∈ cis, ci.State = ClusterInstallationStateStable := by
  rw [countStates_stable, eq_comm, List.countP_eq_length]
  simp

/-- The test `failed > 0` holds exactly when some cluster installation failed its
creation. -/
theorem failed_pos_iff (cis : List ClusterInstallation) :
    (countStates cis).2.2 > 0
      ↔ ∃ ci ∈ cis, ci.State = ClusterInstallationStateCreationFailed := by
  rw [countStates_failed, gt_iff_lt, List.countP_pos_iff]
  simp

/-! ### Create: aggregation of the children -/

/-- The state `createInstallation` returns when the store lists the children `cis`
without error and `cis` is not empty. -/
theorem createInstallation_of_children (s : InstallationSupervisor σ)
    (installation : Installation) (instanceID : String) (w : World σ)
    (cis : List ClusterInstallation) (st : σ)
    (hget : s.store.GetClusterInstallations
      { PerPage := AllPerPage, InstallationID := installation.ID, ClusterID := "", IDs := [],
        IncludeDeleted := false } w.st = ((cis, none), st))
    (hne : cis ≠ []) :
    createInstallation s installation instanceID w =
      (if cis.length = (countStates cis).1 then InstallationStateStable
       else if (countStates cis).2.2 > 0 then InstallationStateCreationFailed
       else InstallationStateCreationRequested,
       w.record st (Event.GetClusterInstallations
        { PerPage := AllPerPage, InstallationID := installation.ID, ClusterID := "",
          IDs := [], IncludeDeleted := false } cis none)) := by
  have hlen : cis.length > 0 := List.length_pos.mpr hne
  simp only [createInstallation, installationStore.callGetClusterInstallations, hget]
  simp only [ne_eq, not_true_eq_false, if_false, hlen, if_true]
  split
  · rfl
  · split <;> rfl

/-- C1: when the store lists a non-empty set of cluster installations for an installation
in state CreationRequested, `createInstallation` returns Stable if every child is Stable,
otherwise CreationFailed if some child is CreationFailed, otherwise CreationRequested;
and any list with a CreationFailed child yields CreationFailed, however many children
are Stable. -/
theorem createInstallation_aggregates (s : InstallationSupervisor σ)
    (installation : Installation) (instanceID : String) (w : World σ)
    (cis : List ClusterInstallation) (st : σ)
    (_hstate : installation.State = InstallationStateCreationRequested)
    (hget : s.store.GetClusterInstallations
      { PerPage := AllPerPage, InstallationID := installation.ID, ClusterID := "", IDs := [],
        IncludeDeleted := false } w.st = ((cis, none), st))
    (hne : cis ≠ []) :
    ((∀ ci ∈ cis, ci.State = ClusterInstallationStateStable) →
      (createInstallation s installation instanceID w).1 = InstallationStateStable)
    ∧ (¬ (∀ ci ∈ cis, ci.State = ClusterInstallationStateStable) →
        (∃ ci ∈ cis, ci.State = ClusterInstallationStateCreationFailed) →
        (createInstallation s installation instanceID w).1 = InstallationStateCreationFailed)
    ∧ (¬ (∀ ci ∈ cis, ci.State = ClusterInstallationStateStable) →
        ¬ (∃ ci ∈ cis, ci.State = ClusterInstallationStateCreationFailed) →
        (createInstallation s installation instanceID w).1
          = InstallationStateCreationRequested)
    ∧ ((∃ ci ∈ cis, ci.State = ClusterInstallationStateCreationFailed) →
        (createInstallation s installation instanceID w).1
          = InstallationStateCreationFailed) := by
  rw [createInstallation_of_children s installation instanceID w cis st hget hne]
  refine ⟨?_, ?_, ?_, ?_⟩
  · intro hall
    simp [(length_eq_stable_iff cis).mpr hall]
  · intro hall hfail
    have h1 : ¬ cis.length = (countStates cis).1 := fun h => hall ((length_eq_stable_iff cis).mp h)
    simp [h1, (failed_pos_iff cis).mpr hfail]
  · intro hall hfail
    have h1 : ¬ cis.length = (countStates cis).1 := fun h => hall ((length_eq_stable_iff cis).mp h)
    have h2 : ¬ (countStates cis).2.2 > 0 := fun h => hfail ((failed_pos_iff cis).mp h)
    simp [h1, h2]
  · intro hfail
    have h1 : ¬ cis.length = (countStates cis).1 := by
      intro h
      obtain ⟨ci, hci, hst⟩ := hfail
      have := (length_eq_stable_iff cis).mp h ci hci
      rw [hst] at this
      exact absurd this (by decide)
    simp [h1, (failed_pos_iff cis).mpr hfail]

/-- C1 at a concrete store: a stable child and a failed child give CreationFailed. -/
theorem createInstallation_aggregates_witness :
    (createInstallation memSupervisor ⟨"i1", InstallationStateCreationRequested, ""⟩
      "instance" ⟨memMixedChildren, []⟩).1 = InstallationStateCreationFailed :=
  (createInstallation_aggregates memSupervisor ⟨"i1", InstallationStateCreationRequested, ""⟩
    "instance" ⟨memMixedChildren, []⟩ memMixedChildren.clusterInstallations memMixedChildren
    rfl rfl (by decide)).2.2.2
    ⟨⟨"ci2", "c2", "i1", "ns2", ClusterInstallationStateCreationFailed⟩, by decide, rfl⟩

/-! ### Wait for update: aggregation of the children -/

/-- The state `waitForUpdateComplete` returns when the store lists the children `cis`
without error. -/
theorem waitForUpdateComplete_of_children (s : InstallationSupervisor σ)
    (installation : Installation) (instanceID : String) (w : World σ)
    (cis : List ClusterInstallation) (st : σ)
    (hget : s.store.GetClusterInstallations
      { PerPage := AllPerPage, InstallationID := installation.ID, ClusterID := "", IDs := [],
        IncludeDeleted := false } w.st = ((cis, none), st)) :
    waitForUpdateComplete s installation instanceID w =
      (if cis.length = (countStates cis).1 then InstallationStateStable
       else if (countStates cis).2.2 > 0 then InstallationStateUpgradeFailed
       else installation.State,
       w.record st (Event.GetClusterInstallations
        { PerPage := AllPerPage, InstallationID := installation.ID, ClusterID := "",
          IDs := [], IncludeDeleted := false } cis none)) := by
  simp only [waitForUpdateComplete, installationStore.callGetClusterInstallations, hget]
  simp only [ne_eq, not_true_eq_false, if_false]
  split
  · rfl
  · split <;> rfl

/-- C7, counterexample: the only child of an UpgradeInProgress installation is in
DeletionFailed, so not all children are Stable and one child is in a failed state, yet
`waitForUpdateComplete` returns UpgradeInProgress and not UpgradeFailed. -/
theorem waitForUpdateComplete_ignores_deletionFailed :
    (memStore.GetClusterInstallations
        { PerPage := AllPerPage, InstallationID := "i1", ClusterID := "", IDs := [],
          IncludeDeleted := false } memDeletionFailedChild).1
      = ([⟨"ci1", "c1", "i1", "ns1", ClusterInstallationStateDeletionFailed⟩], none)
    ∧ (waitForUpdateComplete memSupervisor ⟨"i1", InstallationStateUpgradeInProgress, ""⟩
        "instance" ⟨memDeletionFailedChild, []⟩).1 = InstallationStateUpgradeInProgress
    ∧ (waitForUpdateComplete memSupervisor ⟨"i1", InstallationStateUpgradeInProgress, ""⟩
        "instance" ⟨memDeletionFailedChild, []⟩).1 ≠ InstallationStateUpgradeFailed := by
  refine ⟨by decide, by decide, by decide⟩

/-- C7, amended: for an installation in state UpgradeInProgress whose children the store
lists without error, `waitForUpdateComplete` returns UpgradeFailed whenever not all
children are Stable and at least one child is in state CreationFailed. -/
theorem waitForUpdateComplete_creationFailed (s : InstallationSupervisor σ)
    (installation : Installation) (instanceID : String) (w : World σ)
    (cis : List ClusterInstallation) (st : σ)
    (_hstate : installation.State = InstallationStateUpgradeInProgress)
    (hget : s.store.GetClusterInstallations
      { PerPage := AllPerPage, InstallationID := installation.ID, ClusterID := "", IDs := [],
        IncludeDeleted := false } w.st = ((cis, none), st))
    (hall : ¬ (∀ ci ∈ cis, ci.State = ClusterInstallationStateStable))
    (hfail : ∃ ci ∈ cis, ci.State = ClusterInstallationStateCreationFailed) :
    (waitForUpdateComplete s installation instanceID w).1 = InstallationStateUpgradeFailed := by
  rw [waitForUpdateComplete_of_children s installation instanceID w cis st hget]
  have h1 : ¬ cis.length = (countStates cis).1 := fun h => hall ((length_eq_stable_iff cis).mp h)
  simp [h1, (failed_pos_iff cis).mpr hfail]

/-- C7, amended, at a concrete store: a stable child and a child in CreationFailed give
UpgradeFailed. -/
theorem waitForUpdateComplete_creationFailed_witness :
    (waitForUpdateComplete memSupervisor ⟨"i1", InstallationStateUpgradeInProgress, ""⟩
      "instance" ⟨memMixedChildren, []⟩).1 = InstallationStateUpgradeFailed :=
  waitForUpdateComplete_creationFailed memSupervisor
    ⟨"i1", InstallationStateUpgradeInProgress, ""⟩ "instance" ⟨memMixedChildren, []⟩
    memMixedChildren.clusterInstallations memMixedChildren rfl rfl (by decide)
    ⟨⟨"ci2", "c2", "i1", "ns2", ClusterInstallationStateCreationFailed⟩, by decide, rfl⟩

/-- C8: for every non-empty list of children that the store returns without error,
`waitForUpdateComplete` on an UpgradeInProgress installation returns the outcome of
`createInstallation` on a CreationRequested installation, renamed: Stable to Stable,
CreationFailed to UpgradeFailed, CreationRequested to UpgradeInProgress. -/
theorem waitForUpdateComplete_refines_create (s : InstallationSupervisor σ)
    (created updated : Installation) (instanceID : String) (w w2 : World σ)
    (cis : List ClusterInstallation) (st st2 : σ)
    (hcreated : created.State = InstallationStateCreationRequested)
    (hupdated : updated.State = InstallationStateUpgradeInProgress)
    (hget : s.store.GetClusterInstallations
      { PerPage := AllPerPage, InstallationID := created.ID, ClusterID := "", IDs := [],
        IncludeDeleted := false } w.st = ((cis, none), st))
    (hget2 : s.store.GetClusterInstallations
      { PerPage := AllPerPage, InstallationID := updated.ID, ClusterID := "", IDs := [],
        IncludeDeleted := false } w2.st = ((cis, none), st2))
    (hne : cis ≠ []) :
    (waitForUpdateComplete s updated instanceID w2).1
      = renameCreateOutcome (createInstallation s created instanceID w).1 := by
  have _ := hcreated
  rw [waitForUpdateComplete_of_children s updated instanceID w2 cis st2 hget2,
    createInstallation_of_children s created instanceID w cis st hget hne, hupdated]
  dsimp only
  split
  · decide
  · split <;> decide

/-- C8 at a concrete store, on a stable child and a failed child. -/
theorem waitForUpdateComplete_refines_create_witness :
    (waitForUpdateComplete memSupervisor ⟨"i1", InstallationStateUpgradeInProgress, ""⟩
      "instance" ⟨memMixedChildren, []⟩).1
      = renameCreateOutcome
          (createInstallation memSupervisor ⟨"i1", InstallationStateCreationRequested, ""⟩
            "instance" ⟨memMixedChildren, []⟩).1 :=
  waitForUpdateComplete_refines_create memSupervisor
    ⟨"i1", InstallationStateCreationRequested, ""⟩
    ⟨"i1", InstallationStateUpgradeInProgress, ""⟩ "instance" ⟨memMixedChildren, []⟩
    ⟨memMixedChildren, []⟩ memMixedChildren.clusterInstallations memMixedChildren
    memMixedChildren rfl rfl rfl rfl (by decide)

/-! ### Update -/

theorem newEvents_of_trace (w w2 : World σ) (evs : List Event)
    (h : w2.trace = w.trace ++ evs) : newEvents w w2 = evs := by
  simp [newEvents, h]

/-- The loop of `updateInstallation` only adds calls to the trace; when each of them
succeeded, the loop ran to its end and made exactly the calls of `dispatchCalls`. -/
theorem updateInstallationLoop_trace (s : InstallationSupervisor σ) (f : String → String)
    (installation : Installation) (cis : List ClusterInstallation) (w : World σ) :
    ∃ evs, (updateInstallationLoop s f installation cis w).2.trace = w.trace ++ evs
      ∧ ((∀ e ∈ evs, e.succeeded = true) →
          (updateInstallationLoop s f installation cis w).1 = none
          ∧ ∃ clusters : List Cluster, clusters.length = cis.length
              ∧ evs = dispatchCalls installation (cis.zip clusters)) := by
  induction cis generalizing w with
  | nil => exact ⟨[], by simp [updateInstallationLoop], fun _ => ⟨rfl, [], rfl, rfl⟩⟩
  | cons ci cis ih =>
    rcases hg : s.store.GetCluster ci.ClusterID w.st with ⟨⟨cluster, err⟩, st1⟩
    cases err with
    | some msg =>
      refine ⟨[Event.GetCluster ci.ClusterID cluster (some msg)], ?_, ?_⟩
      · simp [updateInstallationLoop, installationStore.callGetCluster, hg, World.record]
      · intro h
        have := h _ (List.mem_singleton.mpr rfl)
        simp [Event.succeeded] at this
    | none =>
      cases cluster with
      | none =>
        refine ⟨[Event.GetCluster ci.ClusterID none none], ?_, ?_⟩
        · simp [updateInstallationLoop, installationStore.callGetCluster, hg, World.record]
        · intro h
          have := h _ (List.mem_singleton.mpr rfl)
          simp [Event.succeeded] at this
      | some cluster =>
        rcases hp : s.provisioner.UpdateClusterInstallation cluster installation ci st1
          with ⟨perr, st2⟩
        cases perr with
        | some msg =>
          refine ⟨[Event.GetCluster ci.ClusterID (some cluster) none,
            Event.ProvisionerUpdateClusterInstallation cluster installation ci (some msg)],
            ?_, ?_⟩
          · simp [updateInstallationLoop, installationStore.callGetCluster, hg, World.record,
              installationProvisioner.callUpdateClusterInstallation, hp]
          · intro h
            have := h (Event.ProvisionerUpdateClusterInstallation cluster installation ci
              (some msg)) (by simp)
            simp [Event.succeeded, Event.err] at this
        | none =>
          rcases hu : s.store.UpdateClusterInstallation
            { ci with State := ClusterInstallationStateReconciling } st2 with ⟨uerr, st3⟩
          cases uerr with
          | some msg =>
            refine ⟨[Event.GetCluster ci.ClusterID (some cluster) none,
              Event.ProvisionerUpdateClusterInstallation cluster installation ci none,
              Event.UpdateClusterInstallation
                { ci with State := ClusterInstallationStateReconciling } (some msg)],
              ?_, ?_⟩
            · simp [updateInstallationLoop, installationStore.callGetCluster, hg,
                World.record, installationProvisioner.callUpdateClusterInstallation, hp,
                installationStore.callUpdateClusterInstallation, hu]
            · intro h
              have := h (Event.UpdateClusterInstallation
                { ci with State := ClusterInstallationStateReconciling } (some msg)) (by simp)
              simp [Event.succeeded, Event.err] at this
          | none =>
            obtain ⟨evs, htrace, hrest⟩ := ih
              ⟨st3, w.trace ++ [Event.GetCluster ci.ClusterID (some cluster) none,
                Event.ProvisionerUpdateClusterInstallation cluster installation ci none,
                Event.UpdateClusterInstallation
                  { ci with State := ClusterInstallationStateReconciling } none]⟩
            have hstep : updateInstallationLoop s f installation (ci :: cis) w
                = updateInstallationLoop s f installation cis
                  ⟨st3, w.trace ++ [Event.GetCluster ci.ClusterID (some cluster) none,
                    Event.ProvisionerUpdateClusterInstallation cluster installation ci none,
                    Event.UpdateClusterInstallation
                      { ci with State := ClusterInstallationStateReconciling } none]⟩ := by
              simp [updateInstallationLoop, installationStore.callGetCluster, hg,
                World.record, installationProvisioner.callUpdateClusterInstallation, hp,
                installationStore.callUpdateClusterInstallation, hu]
            refine ⟨Event.GetCluster ci.ClusterID (some cluster) none
              :: Event.ProvisionerUpdateClusterInstallation cluster installation ci none
              :: Event.UpdateClusterInstallation
                  { ci with State := ClusterInstallationStateReconciling } none :: evs, ?_, ?_⟩
            · rw [hstep, htrace]
              simp
            · intro h
              obtain ⟨hnone, clusters, hlen, hevs⟩ := hrest (fun e he => h e (by simp [he]))
              refine ⟨by rw [hstep]; exact hnone, cluster :: clusters, by simp [hlen], ?_⟩
              rw [hevs]
              rfl

theorem World.record_st (w : World σ) (st : σ) (e : Event) : (w.record st e).st = st := rfl

theorem World.record_trace (w : World σ) (st : σ) (e : Event) :
    (w.record st e).trace = w.trace ++ [e] := rfl

/-- The run of `updateInstallation` once the children are listed, the batch lock is
acquired and the children are re-read: the loop over the snapshot, then the unlock. -/
theorem updateInstallation_locked (s : InstallationSupervisor σ) (f : String → String)
    (installation : Installation) (instanceID : String) (w : World σ)
    (first snapshot : List ClusterInstallation) (st1 st2 st3 : σ)
    (h1 : s.store.GetClusterInstallations
      { PerPage := AllPerPage, InstallationID := installation.ID, ClusterID := "",
        IDs := [], IncludeDeleted := false } w.st = ((first, none), st1))
    (hne : first ≠ [])
    (hl : s.store.LockClusterInstallations (first.map (fun ci => ci.ID)) instanceID st1
      = ((true, none), st2))
    (h2 : s.store.GetClusterInstallations
      { PerPage := AllPerPage, InstallationID := "", ClusterID := "",
        IDs := first.map (fun ci => ci.ID), IncludeDeleted := false } st2
      = ((snapshot, none), st3)) :
    updateInstallation s f installation instanceID w =
      (((updateInstallationLoop s f installation snapshot
          ⟨st3, w.trace ++ [Event.GetClusterInstallations
            { PerPage := AllPerPage, InstallationID := installation.ID, ClusterID := "",
              IDs := [], IncludeDeleted := false } first none,
            Event.LockClusterInstallations (first.map (fun ci => ci.ID)) instanceID true none,
            Event.GetClusterInstallations
              { PerPage := AllPerPage, InstallationID := "", ClusterID := "",
                IDs := first.map (fun ci => ci.ID), IncludeDeleted := false }
              snapshot none]⟩).1).getD InstallationStateUpgradeInProgress,
       clusterInstallationLocksUnlock s.store (first.map (fun ci => ci.ID)) instanceID
        (updateInstallationLoop s f installation snapshot
          ⟨st3, w.trace ++ [Event.GetClusterInstallations
            { PerPage := AllPerPage, InstallationID := installation.ID, ClusterID := "",
              IDs := [], IncludeDeleted := false } first none,
            Event.LockClusterInstallations (first.map (fun ci => ci.ID)) instanceID true none,
            Event.GetClusterInstallations
              { PerPage := AllPerPage, InstallationID := "", ClusterID := "",
                IDs := first.map (fun ci => ci.ID), IncludeDeleted := false }
              snapshot none]⟩).2) := by
  have hlen : first.length > 0 := List.length_pos.mpr hne
  simp only [updateInstallation, installationStore.callGetClusterInstallations, h1,
    clusterInstallationLocksTryLock, installationStore.callLockClusterInstallations, hl,
    World.record_st, h2, World.record, List.append_assoc, List.singleton_append,
    ne_eq, not_true_eq_false, if_false, hlen, if_true, Bool.true_eq_false]
  split <;> simp_all

/-- C6, counterexample: the batch lock is acquired and every store call of the run returns
without error, but `GetCluster` finds no cluster for the only child; `updateInstallation`
makes no provisioner call and does not return UpgradeInProgress. -/
theorem updateInstallation_missing_cluster_aborts :
    (updateInstallation memSupervisor failedVariant
        ⟨"i1", InstallationStateUpgradeRequested, ""⟩ "instance"
        ⟨memUpgradeMissingCluster, []⟩).2.trace
      = [Event.GetClusterInstallations
          { PerPage := AllPerPage, InstallationID := "i1", ClusterID := "", IDs := [],
            IncludeDeleted := false }
          [⟨"ci1", "c9", "i1", "ns1", ClusterInstallationStateStable⟩] none,
         Event.LockClusterInstallations ["ci1"] "instance" true none,
         Event.GetClusterInstallations
          { PerPage := AllPerPage, InstallationID := "", ClusterID := "",
            IDs := ["ci1"], IncludeDeleted := false }
          [⟨"ci1", "c9", "i1", "ns1", ClusterInstallationStateStable⟩] none,
         Event.GetCluster "c9" none none,
         Event.UnlockClusterInstallations ["ci1"] "instance" false true none]
    ∧ (∀ e ∈ (updateInstallation memSupervisor failedVariant
        ⟨"i1", InstallationStateUpgradeRequested, ""⟩ "instance"
        ⟨memUpgradeMissingCluster, []⟩).2.trace, e.err = none)
    ∧ (updateInstallation memSupervisor failedVariant
        ⟨"i1", InstallationStateUpgradeRequested, ""⟩ "instance"
        ⟨memUpgradeMissingCluster, []⟩).1 ≠ InstallationStateUpgradeInProgress := by
  refine ⟨by decide, by decide, by decide⟩

/-- C6, amended: when the batch lock is acquired, every store and provisioner call of the
run succeeds and `GetCluster` finds the cluster of every child, `updateInstallation`
returns UpgradeInProgress and its calls are: the listing of the children, the batch lock,
the re-read, then for each child of the re-read snapshot, in list order, the resolution of
its cluster, one provisioner update and the persisting of the child in state Reconciling,
then the unlock.  With zero cluster installations it returns UpgradeInProgress and its
only call is the listing. -/
theorem updateInstallation_dispatches (s : InstallationSupervisor σ) (f : String → String)
    (installation : Installation) (instanceID : String) (w : World σ) :
    ((∀ e ∈ newEvents w (updateInstallation s f installation instanceID w).2,
        e.succeeded = true) →
      (updateInstallation s f installation instanceID w).1
        = InstallationStateUpgradeInProgress
      ∧ ∃ (first snapshot : List ClusterInstallation) (clusters : List Cluster)
          (unlocked : Bool),
          clusters.length = snapshot.length
          ∧ newEvents w (updateInstallation s f installation instanceID w).2 =
            if first = [] then
              [Event.GetClusterInstallations
                { PerPage := AllPerPage, InstallationID := installation.ID, ClusterID := "",
                  IDs := [], IncludeDeleted := false } [] none]
            else
              [Event.GetClusterInstallations
                { PerPage := AllPerPage, InstallationID := installation.ID, ClusterID := "",
                  IDs := [], IncludeDeleted := false } first none,
               Event.LockClusterInstallations (first.map (fun ci => ci.ID)) instanceID true
                none,
               Event.GetClusterInstallations
                { PerPage := AllPerPage, InstallationID := "", ClusterID := "",
                  IDs := first.map (fun ci => ci.ID), IncludeDeleted := false } snapshot none]
              ++ dispatchCalls installation (snapshot.zip clusters)
              ++ [Event.UnlockClusterInstallations (first.map (fun ci => ci.ID)) instanceID
                    false unlocked none])
    ∧ (∀ st : σ,
        s.store.GetClusterInstallations
          { PerPage := AllPerPage, InstallationID := installation.ID, ClusterID := "",
            IDs := [], IncludeDeleted := false } w.st = (([], none), st) →
        updateInstallation s f installation instanceID w
          = (InstallationStateUpgradeInProgress,
             w.record st (Event.GetClusterInstallations
              { PerPage := AllPerPage, InstallationID := installation.ID, ClusterID := "",
                IDs := [], IncludeDeleted := false } [] none))) := by
  constructor
  · rcases h1 : s.store.GetClusterInstallations
      { PerPage := AllPerPage, InstallationID := installation.ID, ClusterID := "",
        IDs := [], IncludeDeleted := false } w.st with ⟨⟨first, err⟩, st1⟩
    cases err with
    | some msg =>
      intro hok
      simp only [updateInstallation, installationStore.callGetClusterInstallations, h1] at hok
      simp [newEvents, World.record, Event.succeeded, Event.err] at hok
    | none =>
      cases first with
      | nil =>
        intro _
        have heq : updateInstallation s f installation instanceID w
            = (InstallationStateUpgradeInProgress,
               w.record st1 (Event.GetClusterInstallations
                { PerPage := AllPerPage, InstallationID := installation.ID, ClusterID := "",
                  IDs := [], IncludeDeleted := false } [] none)) := by
          simp [updateInstallation, installationStore.callGetClusterInstallations, h1,
            updateInstallationLoop]
        refine ⟨by rw [heq], [], [], [], false, rfl, ?_⟩
        rw [heq]
        simp [newEvents, World.record]
      | cons c0 rest =>
        rcases hl : s.store.LockClusterInstallations ((c0 :: rest).map (fun ci => ci.ID))
          instanceID st1 with ⟨⟨locked, lerr⟩, st2⟩
        by_cases hacq : locked = true ∧ lerr = none
        · obtain ⟨rfl, rfl⟩ := hacq
          rcases h2 : s.store.GetClusterInstallations
            { PerPage := AllPerPage, InstallationID := "", ClusterID := "",
              IDs := (c0 :: rest).map (fun ci => ci.ID), IncludeDeleted := false } st2
            with ⟨⟨snapshot, err2⟩, st3⟩
          cases err2 with
          | some msg =>
            intro hok
            simp only [updateInstallation, installationStore.callGetClusterInstallations, h1,
              clusterInstallationLocksTryLock, installationStore.callLockClusterInstallations,
              hl, World.record_st, h2, clusterInstallationLocksUnlock,
              installationStore.callUnlockClusterInstallations] at hok
            simp [newEvents, World.record, Event.succeeded, Event.err] at hok
          | none =>
            intro hok
            have heq := updateInstallation_locked s f installation instanceID w (c0 :: rest)
              snapshot st1 st2 st3 h1 (by simp) hl h2
            obtain ⟨evs, htr, hres⟩ := updateInstallationLoop_trace s f installation snapshot
              ⟨st3, w.trace ++ [Event.GetClusterInstallations
                { PerPage := AllPerPage, InstallationID := installation.ID, ClusterID := "",
                  IDs := [], IncludeDeleted := false } (c0 :: rest) none,
                Event.LockClusterInstallations ((c0 :: rest).map (fun ci => ci.ID)) instanceID
                  true none,
                Event.GetClusterInstallations
                  { PerPage := AllPerPage, InstallationID := "", ClusterID := "",
                    IDs := (c0 :: rest).map (fun ci => ci.ID), IncludeDeleted := false }
                  snapshot none]⟩
            rw [heq] at hok ⊢
            simp only [clusterInstallationLocksUnlock,
              installationStore.callUnlockClusterInstallations, World.record,
              newEvents] at hok ⊢
            simp only [htr, List.append_assoc, List.drop_left] at hok ⊢
            generalize s.store.UnlockClusterInstallations _ _ _ _ = U at hok ⊢
            have hevs := hres (fun e he => hok e (by simp [he]))
            have huerr := hok (Event.UnlockClusterInstallations
              ((c0 :: rest).map (fun ci => ci.ID)) instanceID false U.1.1 U.1.2) (by simp)
            simp only [Event.succeeded, Event.err, Option.isNone_iff_eq_none] at huerr
            obtain ⟨hnone, clusters, hlen, hdis⟩ := hevs
            refine ⟨by rw [hnone]; rfl, c0 :: rest, snapshot, clusters, U.1.1, hlen, ?_⟩
            simp [hdis, huerr]
        · intro hok
          have hl2 : (if lerr ≠ none then false else locked) = false := by
            cases lerr <;> cases locked <;> simp_all
          simp only [updateInstallation, installationStore.callGetClusterInstallations, h1,
            clusterInstallationLocksTryLock, installationStore.callLockClusterInstallations,
            hl, World.record_st, hl2] at hok
          simp [newEvents, World.record, Event.succeeded, Event.err] at hok
          exact absurd hok (by simpa using hacq)
  · intro st h1
    simp [updateInstallation, installationStore.callGetClusterInstallations, h1,
      updateInstallationLoop]

/-- C6, amended, at a concrete store: two children, every call succeeds. -/
theorem updateInstallation_dispatches_witness :
    (∀ e ∈ newEvents ⟨memUpgrade, []⟩
        (updateInstallation memSupervisor failedVariant
          ⟨"i1", InstallationStateUpgradeRequested, ""⟩ "instance" ⟨memUpgrade, []⟩).2,
        e.succeeded = true)
    ∧ (updateInstallation memSupervisor failedVariant
        ⟨"i1", InstallationStateUpgradeRequested, ""⟩ "instance" ⟨memUpgrade, []⟩).1
      = InstallationStateUpgradeInProgress
    ∧ updateInstallation memSupervisor failedVariant
        ⟨"i1", InstallationStateUpgradeRequested, ""⟩ "instance" ⟨memNoChildren, []⟩
      = (InstallationStateUpgradeInProgress,
         (⟨memNoChildren, []⟩ : World Mem).record memNoChildren
          (Event.GetClusterInstallations
            { PerPage := AllPerPage, InstallationID := "i1", ClusterID := "", IDs := [],
              IncludeDeleted := false } [] none)) :=
  ⟨by decide,
   ((updateInstallation_dispatches memSupervisor failedVariant
      ⟨"i1", InstallationStateUpgradeRequested, ""⟩ "instance" ⟨memUpgrade, []⟩).1
      (by decide)).1,
   (updateInstallation_dispatches memSupervisor failedVariant
      ⟨"i1", InstallationStateUpgradeRequested, ""⟩ "instance" ⟨memNoChildren, []⟩).2
      memNoChildren rfl⟩

/-- When `GetCluster` fails on a child, the loop of `updateInstallation` returns the state
of that child (line 282), whatever the state of the installation. -/
theorem updateInstallationLoop_getCluster_error (s : InstallationSupervisor σ)
    (f : String → String) (installation : Installation) (ci : ClusterInstallation)
    (cis : List ClusterInstallation) (w : World σ) (cluster : Option Cluster) (msg : String)
    (st : σ) (hg : s.store.GetCluster ci.ClusterID w.st = ((cluster, some msg), st)) :
    updateInstallationLoop s f installation (ci :: cis) w
      = (some ci.State, w.record st (Event.GetCluster ci.ClusterID cluster (some msg))) := by
  simp [updateInstallationLoop, installationStore.callGetCluster, hg]

/-- When `GetCluster` finds no cluster for a child, the loop of `updateInstallation`
returns the failed variant of the state of that child (line 286) and makes no other call:
the child is not persisted. -/
theorem updateInstallationLoop_missing_cluster (s : InstallationSupervisor σ)
    (f : String → String) (installation : Installation) (ci : ClusterInstallation)
    (cis : List ClusterInstallation) (w : World σ) (st : σ)
    (hg : s.store.GetCluster ci.ClusterID w.st = ((none, none), st)) :
    updateInstallationLoop s f installation (ci :: cis) w
      = (some (f ci.State), w.record st (Event.GetCluster ci.ClusterID none none)) := by
  simp [updateInstallationLoop, installationStore.callGetCluster, hg]

/-- C4, the code at the failing input: installation `i1` is in UpgradeRequested, its first
child is Stable, and `GetCluster` fails.  `updateInstallation` returns the state of the
child, not UpgradeRequested. -/
theorem updateInstallation_getCluster_error_returns_child_state :
    (updateInstallation memSupervisor failedVariant
        ⟨"i1", InstallationStateUpgradeRequested, ""⟩ "instance"
        ⟨memUpgradeGetClusterFails, []⟩).1 = ClusterInstallationStateStable
    ∧ (updateInstallation memSupervisor failedVariant
        ⟨"i1", InstallationStateUpgradeRequested, ""⟩ "instance"
        ⟨memUpgradeGetClusterFails, []⟩).1 ≠ InstallationStateUpgradeRequested
    ∧ (updateInstallation memSupervisor failedVariant
        ⟨"i1", InstallationStateUpgradeRequested, ""⟩ "instance"
        ⟨memUpgradeGetClusterFails, []⟩).2.trace
      = [Event.GetClusterInstallations
          { PerPage := AllPerPage, InstallationID := "i1", ClusterID := "", IDs := [],
            IncludeDeleted := false } memUpgrade.clusterInstallations none,
         Event.LockClusterInstallations ["ci1", "ci2"] "instance" true none,
         Event.GetClusterInstallations
          { PerPage := AllPerPage, InstallationID := "", ClusterID := "",
            IDs := ["ci1", "ci2"], IncludeDeleted := false }
          memUpgrade.clusterInstallations none,
         Event.GetCluster "c1" none (some "GetCluster"),
         Event.UnlockClusterInstallations ["ci1", "ci2"] "instance" false true none] := by
  refine ⟨by decide, by decide, by decide⟩

/-- C5, the code at the failing input: the only child of installation `i1` is on a cluster
the store does not have.  For every helper `failedClusterInstallationState`,
`updateInstallation` returns the helper's value as the state of the installation, makes no
`UpdateClusterInstallation` call, and leaves the child as it was in the store. -/
theorem updateInstallation_missing_cluster_not_persisted (f : String → String) :
    (updateInstallation memSupervisor f
        ⟨"i1", InstallationStateUpgradeRequested, ""⟩ "instance"
        ⟨memUpgradeMissingCluster, []⟩).1 = f ClusterInstallationStateStable
    ∧ (updateInstallation memSupervisor f
        ⟨"i1", InstallationStateUpgradeRequested, ""⟩ "instance"
        ⟨memUpgradeMissingCluster, []⟩).2.trace
      = [Event.GetClusterInstallations
          { PerPage := AllPerPage, InstallationID := "i1", ClusterID := "", IDs := [],
            IncludeDeleted := false } memUpgradeMissingCluster.clusterInstallations none,
         Event.LockClusterInstallations ["ci1"] "instance" true none,
         Event.GetClusterInstallations
          { PerPage := AllPerPage, InstallationID := "", ClusterID := "",
            IDs := ["ci1"], IncludeDeleted := false }
          memUpgradeMissingCluster.clusterInstallations none,
         Event.GetCluster "c9" none none,
         Event.UnlockClusterInstallations ["ci1"] "instance" false true none]
    ∧ (updateInstallation memSupervisor f
        ⟨"i1", InstallationStateUpgradeRequested, ""⟩ "instance"
        ⟨memUpgradeMissingCluster, []⟩).2.st.clusterInstallations
      = [⟨"ci1", "c9", "i1", "ns1", ClusterInstallationStateStable⟩] := by
  refine ⟨rfl, rfl, rfl⟩

/-! ### Delete -/

/-- One turn of the loop of `deleteInstallation` on a child already being deleted. -/
theorem deleteInstallationLoop_cons_deleting (s : InstallationSupervisor σ)
    (installation : Installation) (ci : ClusterInstallation)
    (cis : List ClusterInstallation) (counts : DeleteCounts) (w : World σ)
    (h : ci.State = ClusterInstallationStateDeletionRequested) :
    deleteInstallationLoop s installation (ci :: cis) counts w
      = deleteInstallationLoop s installation cis
          { counts with
            deletingClusterInstallations := counts.deletingClusterInstallations + 1 } w := by
  simp +decide [deleteInstallationLoop, h, ClusterInstallationStateDeletionRequested,
    ClusterInstallationStateCreationRequested, ClusterInstallationStateCreationFailed]

/-- One turn of the loop of `deleteInstallation` on a deleted child. -/
theorem deleteInstallationLoop_cons_deleted (s : InstallationSupervisor σ)
    (installation : Installation) (ci : ClusterInstallation)
    (cis : List ClusterInstallation) (counts : DeleteCounts) (w : World σ)
    (h : ci.State = ClusterInstallationStateDeleted) :
    deleteInstallationLoop s installation (ci :: cis) counts w
      = deleteInstallationLoop s installation cis
          { counts with
            deletedClusterInstallations := counts.deletedClusterInstallations + 1 } w := by
  simp +decide [deleteInstallationLoop, h, ClusterInstallationStateDeletionRequested,
    ClusterInstallationStateCreationRequested, ClusterInstallationStateCreationFailed,
    ClusterInstallationStateDeleted, ClusterInstallationStateDeletionFailed]

/-- One turn of the loop of `deleteInstallation` on a child whose deletion failed, when
the installation is already DeletionInProgress. -/
theorem deleteInstallationLoop_cons_failed (s : InstallationSupervisor σ)
    (installation : Installation) (ci : ClusterInstallation)
    (cis : List ClusterInstallation) (counts : DeleteCounts) (w : World σ)
    (h : ci.State = ClusterInstallationStateDeletionFailed)
    (hin : installation.State = InstallationStateDeletionInProgress) :
    deleteInstallationLoop s installation (ci :: cis) counts w
      = deleteInstallationLoop s installation cis
          { counts with
            failedClusterInstallations := counts.failedClusterInstallations + 1 } w := by
  simp +decide [deleteInstallationLoop, h, hin, ClusterInstallationStateDeletionRequested,
    ClusterInstallationStateCreationRequested, ClusterInstallationStateCreationFailed,
    ClusterInstallationStateDeleted, ClusterInstallationStateDeletionFailed]

/-- One turn of the loop of `deleteInstallation` on a child whose deletion is requested
now: the child is persisted in state DeletionRequested. -/
theorem deleteInstallationLoop_cons_eligible (s : InstallationSupervisor σ)
    (installation : Installation) (ci : ClusterInstallation)
    (cis : List ClusterInstallation) (counts : DeleteCounts) (w : World σ)
    (h : ci.State = ClusterInstallationStateCreationRequested
      ∨ ci.State = ClusterInstallationStateCreationFailed
      ∨ ci.State = ClusterInstallationStateStable
      ∨ (ci.State = ClusterInstallationStateDeletionFailed
          ∧ installation.State ≠ InstallationStateDeletionInProgress)) :
    deleteInstallationLoop s installation (ci :: cis) counts w
      = if (s.store.callUpdateClusterInstallation
            { ci with State := ClusterInstallationStateDeletionRequested } w).1 ≠ none then
          (Except.error installation.State,
            (s.store.callUpdateClusterInstallation
              { ci with State := ClusterInstallationStateDeletionRequested } w).2)
        else
          deleteInstallationLoop s installation cis
            { counts with
              deletingClusterInstallations := counts.deletingClusterInstallations + 1 }
            (s.store.callUpdateClusterInstallation
              { ci with State := ClusterInstallationStateDeletionRequested } w).2 := by
  rcases h with h | h | h | ⟨h, hin⟩ <;>
    simp +decide [deleteInstallationLoop, h, ClusterInstallationStateDeletionRequested,
      ClusterInstallationStateCreationRequested, ClusterInstallationStateCreationFailed,
      ClusterInstallationStateDeleted, ClusterInstallationStateDeletionFailed,
      ClusterInstallationStateStable]
  simp [hin]

/-- One turn of the loop of `deleteInstallation` on a child in any other state: the loop
returns DeletionFailed at once. -/
theorem deleteInstallationLoop_cons_other (s : InstallationSupervisor σ)
    (installation : Installation) (ci : ClusterInstallation)
    (cis : List ClusterInstallation) (counts : DeleteCounts) (w : World σ)
    (h : ¬ deletable ci.State) :
    deleteInstallationLoop s installation (ci :: cis) counts w
      = (Except.error InstallationStateDeletionFailed, w) := by
  simp only [deletable, not_or] at h
  obtain ⟨h1, h2, h3, h4, h5, h6⟩ := h
  simp [deleteInstallationLoop, h1, h2, h3, h4, h5, h6]

/-- The loop of `deleteInstallation`: it only adds `UpdateClusterInstallation` calls to
the trace; when it runs to its end its counters count the deleted children and, for an
installation in DeletionInProgress, the children whose deletion failed; an early return
gives DeletionFailed or the state of the installation; and it runs to its end when every
call succeeds and every child is in one of the six states. -/
theorem deleteInstallationLoop_spec (s : InstallationSupervisor σ)
    (installation : Installation) (cis : List ClusterInstallation) (counts : DeleteCounts)
    (w : World σ) :
    ∃ evs, (deleteInstallationLoop s installation cis counts w).2.trace = w.trace ++ evs
      ∧ (∀ e ∈ evs, ∃ ci err, e = Event.UpdateClusterInstallation ci err)
      ∧ (∀ c, (deleteInstallationLoop s installation cis counts w).1 = Except.ok c →
          c.deletedClusterInstallations = counts.deletedClusterInstallations
            + cis.countP (fun ci => ci.State = ClusterInstallationStateDeleted)
          ∧ c.failedClusterInstallations = counts.failedClusterInstallations
            + (if installation.State = InstallationStateDeletionInProgress then
                cis.countP (fun ci => ci.State = ClusterInstallationStateDeletionFailed)
               else 0))
      ∧ (∀ state, (deleteInstallationLoop s installation cis counts w).1 = Except.error state →
          state = InstallationStateDeletionFailed ∨ state = installation.State)
      ∧ ((∀ e ∈ evs, e.succeeded = true) → (∀ ci ∈ cis, deletable ci.State) →
          ∃ c, (deleteInstallationLoop s installation cis counts w).1 = Except.ok c) := by
  induction cis generalizing counts w with
  | nil =>
    refine ⟨[], by simp [deleteInstallationLoop], by simp, ?_, ?_, ?_⟩
    · intro c hc
      simp only [deleteInstallationLoop, Except.ok.injEq] at hc
      subst hc
      simp
    · intro state hs
      simp [deleteInstallationLoop] at hs
    · intro _ _
      exact ⟨counts, rfl⟩
  | cons ci cis ih =>
    -- a turn that goes on with the rest of the list
    have key : ∀ (counts2 : DeleteCounts) (w2 : World σ) (pre : List Event),
        deleteInstallationLoop s installation (ci :: cis) counts w
          = deleteInstallationLoop s installation cis counts2 w2 →
        w2.trace = w.trace ++ pre →
        (∀ e ∈ pre, ∃ ci err, e = Event.UpdateClusterInstallation ci err) →
        counts2.deletedClusterInstallations = counts.deletedClusterInstallations
          + (if ci.State = ClusterInstallationStateDeleted then 1 else 0) →
        counts2.failedClusterInstallations = counts.failedClusterInstallations
          + (if installation.State = InstallationStateDeletionInProgress
              ∧ ci.State = ClusterInstallationStateDeletionFailed then 1 else 0) →
        ∃ evs, (deleteInstallationLoop s installation (ci :: cis) counts w).2.trace
            = w.trace ++ evs
          ∧ (∀ e ∈ evs, ∃ ci err, e = Event.UpdateClusterInstallation ci err)
          ∧ (∀ c, (deleteInstallationLoop s installation (ci :: cis) counts w).1
                = Except.ok c →
              c.deletedClusterInstallations = counts.deletedClusterInstallations
                + (ci :: cis).countP (fun ci => ci.State = ClusterInstallationStateDeleted)
              ∧ c.failedClusterInstallations = counts.failedClusterInstallations
                + (if installation.State = InstallationStateDeletionInProgress then
                    (ci :: cis).countP
                      (fun ci => ci.State = ClusterInstallationStateDeletionFailed)
                   else 0))
          ∧ (∀ state, (deleteInstallationLoop s installation (ci :: cis) counts w).1
                = Except.error state →
              state = InstallationStateDeletionFailed ∨ state = installation.State)
          ∧ ((∀ e ∈ evs, e.succeeded = true) → (∀ ci2 ∈ ci :: cis, deletable ci2.State) →
              ∃ c, (deleteInstallationLoop s installation (ci :: cis) counts w).1
                = Except.ok c) := by
      intro counts2 w2 pre hstep htr2 hpre hdel hfail
      obtain ⟨evs, htr, hupd, hcnt, herr, hok⟩ := ih counts2 w2
      refine ⟨pre ++ evs, ?_, ?_, ?_, ?_, ?_⟩
      · rw [hstep, htr, htr2, List.append_assoc]
      · intro e he
        rcases List.mem_append.mp he with h | h
        · exact hpre e h
        · exact hupd e h
      · intro c hc
        rw [hstep] at hc
        obtain ⟨h1, h2⟩ := hcnt c hc
        rw [h1, h2, hdel, hfail]
        simp only [List.countP_cons, decide_eq_true_eq]
        constructor
        · omega
        · by_cases hin : installation.State = InstallationStateDeletionInProgress
          · simp only [hin, true_and, if_true]
            omega
          · simp [hin]
      · intro state hs
        rw [hstep] at hs
        exact herr state hs
      · intro hsucc hstates
        rw [hstep]
        exact hok (fun e he => hsucc e (List.mem_append.mpr (Or.inr he)))
          (fun ci2 h2 => hstates ci2 (List.mem_cons_of_mem _ h2))
    -- a turn that persists the child
    have keyEligible : (ci.State = ClusterInstallationStateCreationRequested
          ∨ ci.State = ClusterInstallationStateCreationFailed
          ∨ ci.State = ClusterInstallationStateStable
          ∨ (ci.State = ClusterInstallationStateDeletionFailed
              ∧ installation.State ≠ InstallationStateDeletionInProgress)) →
        ∃ evs, (deleteInstallationLoop s installation (ci :: cis) counts w).2.trace
            = w.trace ++ evs
          ∧ (∀ e ∈ evs, ∃ ci err, e = Event.UpdateClusterInstallation ci err)
          ∧ (∀ c, (deleteInstallationLoop s installation (ci :: cis) counts w).1
                = Except.ok c →
              c.deletedClusterInstallations = counts.deletedClusterInstallations
                + (ci :: cis).countP (fun ci => ci.State = ClusterInstallationStateDeleted)
              ∧ c.failedClusterInstallations = counts.failedClusterInstallations
                + (if installation.State = InstallationStateDeletionInProgress then
                    (ci :: cis).countP
                      (fun ci => ci.State = ClusterInstallationStateDeletionFailed)
                   else 0))
          ∧ (∀ state, (deleteInstallationLoop s installation (ci :: cis) counts w).1
                = Except.error state →
              state = InstallationStateDeletionFailed ∨ state = installation.State)
          ∧ ((∀ e ∈ evs, e.succeeded = true) → (∀ ci2 ∈ ci :: cis, deletable ci2.State) →
              ∃ c, (deleteInstallationLoop s installation (ci :: cis) counts w).1
                = Except.ok c) := by
      intro hel
      have hstep := deleteInstallationLoop_cons_eligible s installation ci cis counts w hel
      have hnd : ci.State ≠ ClusterInstallationStateDeleted := by
        rcases hel with h | h | h | ⟨h, _⟩ <;> rw [h] <;> decide
      have hnf : ¬ (installation.State = InstallationStateDeletionInProgress
          ∧ ci.State = ClusterInstallationStateDeletionFailed) := by
        rintro ⟨hin, hf⟩
        rcases hel with h | h | h | ⟨_, h⟩
        · rw [h] at hf; exact absurd hf (by decide)
        · rw [h] at hf; exact absurd hf (by decide)
        · rw [h] at hf; exact absurd hf (by decide)
        · exact h hin
      rcases hu : s.store.UpdateClusterInstallation
        { ci with State := ClusterInstallationStateDeletionRequested } w.st with ⟨err, st1⟩
      cases err with
      | some msg =>
        have hres : deleteInstallationLoop s installation (ci :: cis) counts w
            = (Except.error installation.State,
                w.record st1 (Event.UpdateClusterInstallation
                  { ci with State := ClusterInstallationStateDeletionRequested }
                  (some msg))) := by
          rw [hstep]
          simp [installationStore.callUpdateClusterInstallation, hu]
        refine ⟨[Event.UpdateClusterInstallation
          { ci with State := ClusterInstallationStateDeletionRequested } (some msg)],
          by rw [hres]; rfl, ?_, ?_, ?_, ?_⟩
        · intro e he
          exact ⟨_, _, List.mem_singleton.mp he⟩
        · intro c hc
          rw [hres] at hc
          simp at hc
        · intro state hs
          rw [hres] at hs
          simp only [Except.error.injEq] at hs
          exact Or.inr hs.symm
        · intro hsucc _
          have := hsucc _ (List.mem_singleton.mpr rfl)
          simp [Event.succeeded, Event.err] at this
      | none =>
        refine key { counts with
            deletingClusterInstallations := counts.deletingClusterInstallations + 1 }
          (w.record st1 (Event.UpdateClusterInstallation
            { ci with State := ClusterInstallationStateDeletionRequested } none))
          [Event.UpdateClusterInstallation
            { ci with State := ClusterInstallationStateDeletionRequested } none]
          ?_ rfl ?_ ?_ ?_
        · rw [hstep]
          simp [installationStore.callUpdateClusterInstallation, hu]
        · intro e he
          exact ⟨_, _, List.mem_singleton.mp he⟩
        · simp [hnd]
        · simp only [hnf, if_false, Nat.add_zero]
    by_cases hdel : deletable ci.State
    · rcases hdel with h | h | h | h | h | h
      · exact keyEligible (Or.inl h)
      · exact keyEligible (Or.inr (Or.inl h))
      · exact keyEligible (Or.inr (Or.inr (Or.inl h)))
      · refine key _ w [] (deleteInstallationLoop_cons_deleting s installation ci cis counts w h)
          (by simp) (by simp) ?_ ?_
        · simp +decide [h, ClusterInstallationStateDeletionRequested,
            ClusterInstallationStateDeleted]
        · simp +decide [h, ClusterInstallationStateDeletionRequested,
            ClusterInstallationStateDeletionFailed]
      · by_cases hin : installation.State = InstallationStateDeletionInProgress
        · refine key _ w []
            (deleteInstallationLoop_cons_failed s installation ci cis counts w h hin)
            (by simp) (by simp) ?_ ?_
          · simp +decide [h, ClusterInstallationStateDeletionFailed,
              ClusterInstallationStateDeleted]
          · simp [h, hin]
        · exact keyEligible (Or.inr (Or.inr (Or.inr ⟨h, hin⟩)))
      · refine key _ w [] (deleteInstallationLoop_cons_deleted s installation ci cis counts w h)
          (by simp) (by simp) ?_ ?_
        · simp [h]
        · simp +decide [h, ClusterInstallationStateDeletionFailed,
            ClusterInstallationStateDeleted]
    · have hres := deleteInstallationLoop_cons_other s installation ci cis counts w hdel
      refine ⟨[], by rw [hres]; simp, by simp, ?_, ?_, ?_⟩
      · intro c hc
        rw [hres] at hc
        simp at hc
      · intro state hs
        rw [hres] at hs
        simp only [Except.error.injEq] at hs
        exact Or.inl hs.symm
      · intro _ hstates
        exact absurd (hstates ci (List.mem_cons_self _ _)) hdel

/-- The outcome of a pass of `deleteInstallation` over the children `cis`: when the
installation record is deleted, when Deleted is returned, and which state is returned
when every call succeeds. -/
theorem deleteInstallationFinish_spec (s : InstallationSupervisor σ)
    (installation : Installation) (cis : List ClusterInstallation) (w : World σ) :
    ∃ evs, (deleteInstallationFinish s installation cis w).2.trace = w.trace ++ evs
      ∧ (∀ e ∈ evs, (∃ ci err, e = Event.UpdateClusterInstallation ci err)
          ∨ (∃ err, e = Event.DeleteInstallation installation.ID err))
      ∧ (∀ id err, Event.DeleteInstallation id err ∈ evs →
          (∀ ci ∈ cis, ci.State = ClusterInstallationStateDeleted)
          ∧ ¬ (installation.State = InstallationStateDeletionInProgress
              ∧ ∃ ci ∈ cis, ci.State = ClusterInstallationStateDeletionFailed))
      ∧ (installation.State ≠ InstallationStateDeleted →
          ((deleteInstallationFinish s installation cis w).1 = InstallationStateDeleted
            ↔ ∃ id, Event.DeleteInstallation id none ∈ evs))
      ∧ ((∀ e ∈ evs, e.succeeded = true) → (∀ ci ∈ cis, deletable ci.State) →
          (deleteInstallationFinish s installation cis w).1
            = if installation.State = InstallationStateDeletionInProgress
                ∧ ∃ ci ∈ cis, ci.State = ClusterInstallationStateDeletionFailed then
                InstallationStateDeletionFailed
              else if ∃ ci ∈ cis, ci.State ≠ ClusterInstallationStateDeleted then
                InstallationStateDeletionInProgress
              else InstallationStateDeleted) := by
  obtain ⟨evs, htr, hupd, hcnt, herr, hok⟩ :=
    deleteInstallationLoop_spec s installation cis ⟨0, 0, 0⟩ w
  have hnodel : ∀ id err, Event.DeleteInstallation id err ∉ evs := by
    intro id err hmem
    obtain ⟨ci, e, he⟩ := hupd _ hmem
    cases he
  rcases hloop : (deleteInstallationLoop s installation cis ⟨0, 0, 0⟩ w).1 with state | c
  · -- an early return of the loop
    have hres : deleteInstallationFinish s installation cis w
        = (state, (deleteInstallationLoop s installation cis ⟨0, 0, 0⟩ w).2) := by
      simp [deleteInstallationFinish, hloop]
    refine ⟨evs, by rw [hres]; exact htr, fun e he => Or.inl (hupd e he), ?_, ?_, ?_⟩
    · intro id err hmem
      exact absurd hmem (hnodel id err)
    · intro hnd
      rw [hres]
      constructor
      · intro hs
        rcases herr state hloop with h | h
        · rw [h] at hs
          exact absurd (show InstallationStateDeletionFailed = InstallationStateDeleted from hs)
            (by decide)
        · rw [h] at hs
          exact absurd hs hnd
      · rintro ⟨id, hmem⟩
        exact absurd hmem (hnodel id none)
    · intro hsucc hstates
      obtain ⟨c, hc⟩ := hok hsucc hstates
      rw [hloop] at hc
      cases hc
  · obtain ⟨hdeleted, hfailed⟩ := hcnt c hloop
    simp only [Nat.zero_add] at hdeleted hfailed
    have hfail_iff : c.failedClusterInstallations > 0
        ↔ (installation.State = InstallationStateDeletionInProgress
            ∧ ∃ ci ∈ cis, ci.State = ClusterInstallationStateDeletionFailed) := by
      rw [hfailed]
      by_cases hin : installation.State = InstallationStateDeletionInProgress
      · simp [hin, List.countP_pos_iff]
      · simp [hin]
    have hdel_iff : c.deletedClusterInstallations < cis.length
        ↔ ∃ ci ∈ cis, ci.State ≠ ClusterInstallationStateDeleted := by
      rw [hdeleted]
      constructor
      · intro hlt
        by_contra hall
        push_neg at hall
        have : cis.countP (fun ci => ci.State = ClusterInstallationStateDeleted)
            = cis.length := by
          rw [List.countP_eq_length]
          simpa using hall
        omega
      · rintro ⟨ci, hci, hne⟩
        have hle := List.countP_le_length
          (fun ci : ClusterInstallation => decide (ci.State = ClusterInstallationStateDeleted))
          (l := cis)
        rcases Nat.lt_or_ge (cis.countP
          (fun ci => ci.State = ClusterInstallationStateDeleted)) cis.length with h | h
        · exact h
        · have heq : cis.countP (fun ci => ci.State = ClusterInstallationStateDeleted)
              = cis.length := le_antisymm hle h
          rw [List.countP_eq_length] at heq
          exact absurd (by simpa using heq ci hci) hne
    by_cases hf : c.failedClusterInstallations > 0
    · have hres : deleteInstallationFinish s installation cis w
          = (InstallationStateDeletionFailed,
              (deleteInstallationLoop s installation cis ⟨0, 0, 0⟩ w).2) := by
        simp [deleteInstallationFinish, hloop, hf]
      refine ⟨evs, by rw [hres]; exact htr, fun e he => Or.inl (hupd e he), ?_, ?_, ?_⟩
      · intro id err hmem
        exact absurd hmem (hnodel id err)
      · intro _
        rw [hres]
        constructor
        · intro hs
          exact absurd (show InstallationStateDeletionFailed = InstallationStateDeleted from hs)
            (by decide)
        · rintro ⟨id, hmem⟩
          exact absurd hmem (hnodel id none)
      · intro _ _
        rw [hres, if_pos (hfail_iff.mp hf)]
    · by_cases hd : c.deletedClusterInstallations < cis.length
      · have hres : deleteInstallationFinish s installation cis w
            = (InstallationStateDeletionInProgress,
                (deleteInstallationLoop s installation cis ⟨0, 0, 0⟩ w).2) := by
          simp [deleteInstallationFinish, hloop, hf, hd]
        refine ⟨evs, by rw [hres]; exact htr, fun e he => Or.inl (hupd e he), ?_, ?_, ?_⟩
        · intro id err hmem
          exact absurd hmem (hnodel id err)
        · intro _
          rw [hres]
          constructor
          · intro hs
            exact absurd
              (show InstallationStateDeletionInProgress = InstallationStateDeleted from hs)
              (by decide)
          · rintro ⟨id, hmem⟩
            exact absurd hmem (hnodel id none)
        · intro _ _
          rw [hres, if_neg (fun h => hf (hfail_iff.mpr h)), if_pos (hdel_iff.mp hd)]
      · -- the installation record is deleted
        have hall : ∀ ci ∈ cis, ci.State = ClusterInstallationStateDeleted := by
          intro ci hci
          by_contra hne
          exact hd (hdel_iff.mpr ⟨ci, hci, hne⟩)
        rcases hx : s.store.DeleteInstallation installation.ID
          (deleteInstallationLoop s installation cis ⟨0, 0, 0⟩ w).2.st with ⟨xerr, st1⟩
        have hres : deleteInstallationFinish s installation cis w
            = (if xerr ≠ none then installation.State else InstallationStateDeleted,
                (deleteInstallationLoop s installation cis ⟨0, 0, 0⟩ w).2.record st1
                  (Event.DeleteInstallation installation.ID xerr)) := by
          simp only [deleteInstallationFinish, hloop, hf, hd, if_false,
            installationStore.callDeleteInstallation, hx]
          split <;> rfl
        refine ⟨evs ++ [Event.DeleteInstallation installation.ID xerr], ?_, ?_, ?_, ?_, ?_⟩
        · rw [hres]
          simp [World.record, htr]
        · intro e he
          rcases List.mem_append.mp he with h | h
          · exact Or.inl (hupd e h)
          · exact Or.inr ⟨xerr, List.mem_singleton.mp h⟩
        · intro id err _
          exact ⟨hall, fun h => hf (hfail_iff.mpr h)⟩
        · intro hnd
          rw [hres]
          cases xerr with
          | some msg =>
            simp only [ne_eq, reduceCtorEq, not_false_eq_true, if_true]
            constructor
            · intro hs
              exact absurd hs hnd
            · rintro ⟨id, hmem⟩
              rcases List.mem_append.mp hmem with h | h
              · exact absurd h (hnodel id none)
              · simp at h
          | none =>
            simp only [ne_eq, not_true_eq_false, if_false, true_iff]
            exact ⟨installation.ID, by simp⟩
        · intro hsucc _
          have hxs := hsucc (Event.DeleteInstallation installation.ID xerr) (by simp)
          simp only [Event.succeeded, Event.err, Option.isNone_iff_eq_none] at hxs
          rw [hres, hxs, if_neg (fun h => hf (hfail_iff.mpr h)),
            if_neg (fun h => hd (hdel_iff.mpr h))]
          simp

theorem snapshotOf_append_quiet (l1 l2 : List Event)
    (h : ∀ filter cis err, Event.GetClusterInstallations filter cis err ∉ l2) :
    snapshotOf (l1 ++ l2) = snapshotOf l1 := by
  unfold snapshotOf
  rw [List.foldl_append]
  generalize List.foldl _ [] l1 = acc
  induction l2 generalizing acc with
  | nil => rfl
  | cons e l2 ih =>
    have hq : ∀ filter cis err, Event.GetClusterInstallations filter cis err ∉ l2 :=
      fun filter cis err hmem => h filter cis err (List.mem_cons_of_mem _ hmem)
    rw [List.foldl_cons]
    cases e with
    | GetClusterInstallations filter cis err =>
      exact absurd (List.mem_cons_self _ _) (h filter cis err)
    | _ => exact ih hq acc

/-- The two kinds of run of `deleteInstallation`: either the run is aborted before the
pass over the children (a call failed or the lock was not acquired; the state of the
installation is returned and no `DeleteInstallation` call is made), or the pass runs
over the snapshot, between the calls `pre` that produced the snapshot and the unlock. -/
theorem deleteInstallation_shape (s : InstallationSupervisor σ)
    (installation : Installation) (instanceID : String) (w : World σ) :
    ((deleteInstallation s installation instanceID w).1 = installation.State
      ∧ (∃ e ∈ newEvents w (deleteInstallation s installation instanceID w).2,
          e.succeeded = false)
      ∧ (∀ id err, Event.DeleteInstallation id err
          ∉ newEvents w (deleteInstallation s installation instanceID w).2))
    ∨ ∃ (snapshot : List ClusterInstallation) (w0 : World σ) (pre post : List Event),
        newEvents w (deleteInstallation s installation instanceID w).2
          = pre ++ newEvents w0 (deleteInstallationFinish s installation snapshot w0).2 ++ post
        ∧ (deleteInstallation s installation instanceID w).1
          = (deleteInstallationFinish s installation snapshot w0).1
        ∧ snapshotOf pre = snapshot
        ∧ (∀ id err, Event.DeleteInstallation id err ∉ pre)
        ∧ (∀ id err, Event.DeleteInstallation id err ∉ post)
        ∧ (∀ filter cis err, Event.GetClusterInstallations filter cis err ∉ post) := by
  rcases h1 : s.store.GetClusterInstallations
    { PerPage := AllPerPage, InstallationID := installation.ID, ClusterID := "",
      IDs := [], IncludeDeleted := true } w.st with ⟨⟨first, err⟩, st1⟩
  cases err with
  | some msg =>
    left
    simp [deleteInstallation, installationStore.callGetClusterInstallations, h1, newEvents,
      World.record, Event.succeeded, Event.err]
  | none =>
    cases first with
    | nil =>
      right
      obtain ⟨evs, htr, -⟩ := deleteInstallationFinish_spec s installation []
        (w.record st1 (Event.GetClusterInstallations
          { PerPage := AllPerPage, InstallationID := installation.ID, ClusterID := "",
            IDs := [], IncludeDeleted := true } [] none))
      have heq : deleteInstallation s installation instanceID w
          = deleteInstallationFinish s installation []
              (w.record st1 (Event.GetClusterInstallations
                { PerPage := AllPerPage, InstallationID := installation.ID, ClusterID := "",
                  IDs := [], IncludeDeleted := true } [] none)) := by
        simp [deleteInstallation, installationStore.callGetClusterInstallations, h1]
      refine ⟨[], _, [Event.GetClusterInstallations
          { PerPage := AllPerPage, InstallationID := installation.ID, ClusterID := "",
            IDs := [], IncludeDeleted := true } [] none], [], ?_, by rw [heq], rfl,
        by simp, by simp, by simp⟩
      rw [heq, newEvents_of_trace _ _ _ htr]
      unfold newEvents
      rw [htr]
      simp [World.record]
    | cons c0 rest =>
      rcases hl : s.store.LockClusterInstallations ((c0 :: rest).map (fun ci => ci.ID))
        instanceID st1 with ⟨⟨locked, lerr⟩, st2⟩
      by_cases hacq : locked = true ∧ lerr = none
      · obtain ⟨rfl, rfl⟩ := hacq
        rcases h2 : s.store.GetClusterInstallations
          { PerPage := AllPerPage, InstallationID := "", ClusterID := "",
            IDs := (c0 :: rest).map (fun ci => ci.ID), IncludeDeleted := true } st2
          with ⟨⟨snapshot, err2⟩, st3⟩
        cases err2 with
        | some msg =>
          left
          simp only [deleteInstallation, installationStore.callGetClusterInstallations, h1,
            clusterInstallationLocksTryLock, installationStore.callLockClusterInstallations,
            hl, World.record_st, h2, clusterInstallationLocksUnlock,
            installationStore.callUnlockClusterInstallations]
          simp [newEvents, World.record, Event.succeeded, Event.err]
        | none =>
          right
          obtain ⟨w0, hw0⟩ : ∃ w0 : World σ, w0 = ⟨st3, w.trace ++
              [Event.GetClusterInstallations
                { PerPage := AllPerPage, InstallationID := installation.ID, ClusterID := "",
                  IDs := [], IncludeDeleted := true } (c0 :: rest) none,
              Event.LockClusterInstallations ((c0 :: rest).map (fun ci => ci.ID)) instanceID
                true none,
              Event.GetClusterInstallations
                { PerPage := AllPerPage, InstallationID := "", ClusterID := "",
                  IDs := (c0 :: rest).map (fun ci => ci.ID), IncludeDeleted := true }
                snapshot none]⟩ := ⟨_, rfl⟩
          obtain ⟨evs, htr, -⟩ := deleteInstallationFinish_spec s installation snapshot w0
          have heq : deleteInstallation s installation instanceID w
              = ((deleteInstallationFinish s installation snapshot w0).1,
                 clusterInstallationLocksUnlock s.store ((c0 :: rest).map (fun ci => ci.ID))
                  instanceID (deleteInstallationFinish s installation snapshot w0).2) := by
            rw [hw0]
            simp only [deleteInstallation, installationStore.callGetClusterInstallations, h1,
              clusterInstallationLocksTryLock, installationStore.callLockClusterInstallations,
              hl, World.record_st, h2, World.record]
            simp
          refine ⟨snapshot, w0, [Event.GetClusterInstallations
              { PerPage := AllPerPage, InstallationID := installation.ID, ClusterID := "",
                IDs := [], IncludeDeleted := true } (c0 :: rest) none,
              Event.LockClusterInstallations ((c0 :: rest).map (fun ci => ci.ID)) instanceID
                true none,
              Event.GetClusterInstallations
                { PerPage := AllPerPage, InstallationID := "", ClusterID := "",
                  IDs := (c0 :: rest).map (fun ci => ci.ID), IncludeDeleted := true }
                snapshot none],
            [Event.UnlockClusterInstallations ((c0 :: rest).map (fun ci => ci.ID)) instanceID
              false
              (s.store.UnlockClusterInstallations ((c0 :: rest).map (fun ci => ci.ID))
                instanceID false
                (deleteInstallationFinish s installation snapshot w0).2.st).1.1
              (s.store.UnlockClusterInstallations ((c0 :: rest).map (fun ci => ci.ID))
                instanceID false
                (deleteInstallationFinish s installation snapshot w0).2.st).1.2],
            ?_, by rw [heq], by simp [snapshotOf], by simp, by simp, by simp⟩
          rw [heq, newEvents_of_trace _ _ _ htr]
          simp only [newEvents, clusterInstallationLocksUnlock,
            installationStore.callUnlockClusterInstallations, World.record, htr]
          subst hw0
          simp
      · left
        have hl2 : (if lerr ≠ none then false else locked) = false := by
          cases lerr <;> cases locked <;> simp_all
        have heq : deleteInstallation s installation instanceID w
            = (installation.State,
                (w.record st1 (Event.GetClusterInstallations
                  { PerPage := AllPerPage, InstallationID := installation.ID,
                    ClusterID := "", IDs := [], IncludeDeleted := true } (c0 :: rest)
                    none)).record st2
                  (Event.LockClusterInstallations ((c0 :: rest).map (fun ci => ci.ID))
                    instanceID locked lerr)) := by
          simp only [deleteInstallation, installationStore.callGetClusterInstallations, h1,
            clusterInstallationLocksTryLock, installationStore.callLockClusterInstallations,
            hl, World.record_st, hl2]
          simp
        rw [heq]
        refine ⟨rfl, ⟨Event.LockClusterInstallations ((c0 :: rest).map (fun ci => ci.ID))
          instanceID locked lerr, by simp [newEvents, World.record], ?_⟩,
          by simp [newEvents, World.record]⟩
        cases lerr <;> cases locked <;> simp_all [Event.succeeded]

/-- The snapshot of a run of `deleteInstallation` that reaches the pass over the
children is the list the pass runs over. -/
theorem snapshotOf_pass (s : InstallationSupervisor σ) (installation : Installation)
    (snapshot : List ClusterInstallation) (w0 : World σ) (pre post evs : List Event)
    (hsnap : snapshotOf pre = snapshot)
    (hkind : ∀ e ∈ evs, (∃ ci err, e = Event.UpdateClusterInstallation ci err)
      ∨ (∃ err, e = Event.DeleteInstallation installation.ID err))
    (hevs : newEvents w0 (deleteInstallationFinish s installation snapshot w0).2 = evs)
    (hq : ∀ filter cis err, Event.GetClusterInstallations filter cis err ∉ post) :
    snapshotOf
      (pre ++ newEvents w0 (deleteInstallationFinish s installation snapshot w0).2 ++ post)
      = snapshot := by
  rw [hevs, List.append_assoc, snapshotOf_append_quiet, hsnap]
  intro filter cis err hmem
  rcases List.mem_append.mp hmem with h | h
  · rcases hkind _ h with ⟨ci, e, he⟩ | ⟨e, he⟩ <;> cases he
  · exact hq filter cis err h

/-- C2: for an installation in DeletionRequested or DeletionInProgress, when every store
call of the run succeeds (the batch lock included) and every child of the locked snapshot
is in one of CreationRequested, CreationFailed, Stable, DeletionRequested, DeletionFailed,
Deleted, `deleteInstallation` returns DeletionFailed if the installation is
DeletionInProgress and some child is DeletionFailed, otherwise DeletionInProgress if some
child is not Deleted, otherwise Deleted. -/
theorem deleteInstallation_outcome (s : InstallationSupervisor σ)
    (installation : Installation) (instanceID : String) (w : World σ)
    (_hstate : installation.State = InstallationStateDeletionRequested
      ∨ installation.State = InstallationStateDeletionInProgress)
    (hok : ∀ e ∈ newEvents w (deleteInstallation s installation instanceID w).2,
      e.succeeded = true)
    (hsix : ∀ ci ∈ snapshotOf (newEvents w (deleteInstallation s installation instanceID w).2),
      deletable ci.State) :
    (deleteInstallation s installation instanceID w).1
      = if installation.State = InstallationStateDeletionInProgress
          ∧ ∃ ci ∈ snapshotOf (newEvents w (deleteInstallation s installation instanceID w).2),
              ci.State = ClusterInstallationStateDeletionFailed then
          InstallationStateDeletionFailed
        else if ∃ ci ∈ snapshotOf
            (newEvents w (deleteInstallation s installation instanceID w).2),
            ci.State ≠ ClusterInstallationStateDeleted then
          InstallationStateDeletionInProgress
        else InstallationStateDeleted := by
  rcases deleteInstallation_shape s installation instanceID w with
    ⟨-, ⟨e, he, hfalse⟩, -⟩ | ⟨snapshot, w0, pre, post, hE, hres, hsnap, -, -, hq⟩
  · rw [hok e he] at hfalse
    cases hfalse
  · obtain ⟨evs, htr, hkind, -, -, hpass⟩ :=
      deleteInstallationFinish_spec s installation snapshot w0
    have hevs := newEvents_of_trace _ _ _ htr
    have hS := snapshotOf_pass s installation snapshot w0 pre post evs hsnap hkind hevs hq
    rw [hE] at hok hsix ⊢
    rw [hS] at hsix ⊢
    rw [hres]
    refine hpass (fun e he => hok e ?_) hsix
    rw [hevs]
    simp [he]

/-- C2 at a concrete store: a DeletionInProgress installation with a deleted child and a
child whose deletion failed gives DeletionFailed. -/
theorem deleteInstallation_outcome_witness :
    (deleteInstallation memSupervisor ⟨"i1", InstallationStateDeletionInProgress, ""⟩
      "instance" ⟨memDeleteFailed, []⟩).1 = InstallationStateDeletionFailed :=
  (deleteInstallation_outcome memSupervisor ⟨"i1", InstallationStateDeletionInProgress, ""⟩
    "instance" ⟨memDeleteFailed, []⟩ (Or.inr rfl) (by decide) (by decide)).trans (by decide)

/-- What a `DeleteInstallation` call in a run of `deleteInstallation` tells about the last
listing of the run, for an installation in DeletionRequested or DeletionInProgress: every
listed child is in state Deleted and none was counted as a hard failure; and Deleted is
returned exactly when such a call is made and succeeds. -/
theorem deleteInstallation_delete_call (s : InstallationSupervisor σ)
    (installation : Installation) (instanceID : String) (w : World σ)
    (hstate : installation.State = InstallationStateDeletionRequested
      ∨ installation.State = InstallationStateDeletionInProgress) :
    (∀ id err, Event.DeleteInstallation id err
        ∈ newEvents w (deleteInstallation s installation instanceID w).2 →
      id = installation.ID
      ∧ (∀ ci ∈ snapshotOf (newEvents w (deleteInstallation s installation instanceID w).2),
          ci.State = ClusterInstallationStateDeleted)
      ∧ ¬ (installation.State = InstallationStateDeletionInProgress
          ∧ ∃ ci ∈ snapshotOf
              (newEvents w (deleteInstallation s installation instanceID w).2),
              ci.State = ClusterInstallationStateDeletionFailed))
    ∧ ((deleteInstallation s installation instanceID w).1 = InstallationStateDeleted
        ↔ ∃ id, Event.DeleteInstallation id none
            ∈ newEvents w (deleteInstallation s installation instanceID w).2) := by
  have hnd : installation.State ≠ InstallationStateDeleted := by
    rcases hstate with h | h <;> rw [h] <;> decide
  rcases deleteInstallation_shape s installation instanceID w with
    ⟨hres, -, hnone⟩ | ⟨snapshot, w0, pre, post, hE, hres, hsnap, hpre, hpost, hq⟩
  · refine ⟨fun id err hmem => absurd hmem (hnone id err), ?_⟩
    rw [hres]
    exact ⟨fun h => absurd h hnd, fun ⟨id, hmem⟩ => absurd hmem (hnone id none)⟩
  · obtain ⟨evs, htr, hkind, hcall, hiff, -⟩ :=
      deleteInstallationFinish_spec s installation snapshot w0
    have hevs := newEvents_of_trace _ _ _ htr
    have hS := snapshotOf_pass s installation snapshot w0 pre post evs hsnap hkind hevs hq
    have hmem_iff : ∀ id err, Event.DeleteInstallation id err
        ∈ newEvents w (deleteInstallation s installation instanceID w).2
        ↔ Event.DeleteInstallation id err ∈ evs := by
      intro id err
      rw [hE, hevs]
      simp only [List.mem_append]
      constructor
      · rintro ((h | h) | h)
        · exact absurd h (hpre id err)
        · exact h
        · exact absurd h (hpost id err)
      · intro h
        exact Or.inl (Or.inr h)
    refine ⟨fun id err hmem => ?_, ?_⟩
    · have hin := (hmem_iff id err).mp hmem
      rw [hE, hS]
      refine ⟨?_, hcall id err hin⟩
      rcases hkind _ hin with ⟨ci, e, he⟩ | ⟨e, he⟩
      · cases he
      · cases he
        rfl
    · rw [hres, hiff hnd]
      exact ⟨fun ⟨id, h⟩ => ⟨id, (hmem_iff id none).mpr h⟩,
        fun ⟨id, h⟩ => ⟨id, (hmem_iff id none).mp h⟩⟩

/-! ### Create: the scan of the clusters -/

/-- C10, counterexample: with two stable, unlocked, empty clusters and a store whose
creation fails, one invocation of `createInstallation` makes two
`CreateClusterInstallation` calls. -/
theorem createInstallation_two_create_calls :
    createCalls (createInstallation memSupervisor
        ⟨"i1", InstallationStateCreationRequested, ""⟩ "instance" ⟨memCreateFails, []⟩).2.trace
      = [(⟨"", "c1", "i1", "n1", ClusterInstallationStateCreationRequested⟩,
            some "CreateClusterInstallation"),
         (⟨"", "c2", "i1", "n2", ClusterInstallationStateCreationRequested⟩,
            some "CreateClusterInstallation")]
    ∧ ¬ (createCalls (createInstallation memSupervisor
        ⟨"i1", InstallationStateCreationRequested, ""⟩ "instance"
        ⟨memCreateFails, []⟩).2.trace).length ≤ 1 := by
  refine ⟨by decide, by decide⟩

/-- C9, counterexample: `c1` is the first cluster that is lockable, Stable and without a
cluster installation, but the store refuses the creation on it; `createInstallation` then
locks and examines the later cluster `c2` and creates the cluster installation there. -/
theorem createInstallation_creates_on_later_cluster :
    (createInstallation memSupervisor ⟨"i1", InstallationStateCreationRequested, ""⟩
        "instance" ⟨memCreateRefusedOnFirst, []⟩).2.trace
      = [Event.GetClusterInstallations
          { PerPage := AllPerPage, InstallationID := "i1", ClusterID := "", IDs := [],
            IncludeDeleted := false } [] none,
         Event.GetClusters { PerPage := AllPerPage, IncludeDeleted := false }
          [⟨"c1", ClusterStateStable⟩, ⟨"c2", ClusterStateStable⟩] none,
         Event.LockCluster "c1" "instance" true none,
         Event.GetClusterInstallations
          { PerPage := AllPerPage, InstallationID := "", ClusterID := "c1", IDs := [],
            IncludeDeleted := false } [] none,
         Event.NewID "n1",
         Event.CreateClusterInstallation
          ⟨"", "c1", "i1", "n1", ClusterInstallationStateCreationRequested⟩
          (some "CreateClusterInstallation"),
         Event.UnlockCluster "c1" "instance" false true none,
         Event.LockCluster "c2" "instance" true none,
         Event.GetClusterInstallations
          { PerPage := AllPerPage, InstallationID := "", ClusterID := "c2", IDs := [],
            IncludeDeleted := false } [] none,
         Event.NewID "n2",
         Event.CreateClusterInstallation
          ⟨"", "c2", "i1", "n2", ClusterInstallationStateCreationRequested⟩ none,
         Event.UnlockCluster "c2" "instance" false true none]
    ∧ (createInstallation memSupervisor ⟨"i1", InstallationStateCreationRequested, ""⟩
        "instance" ⟨memCreateRefusedOnFirst, []⟩).2.st.clusterInstallations
      = [⟨"n2", "c2", "i1", "n2", ClusterInstallationStateCreationRequested⟩] := by
  refine ⟨by decide, by decide⟩

theorem createCalls_append (a b : List Event) :
    createCalls (a ++ b) = createCalls a ++ createCalls b := by
  simp [createCalls, List.filterMap_append]

/-- A scan that skips clusters makes no `CreateClusterInstallation` call. -/
theorem Skipped.createCalls_eq_nil {instanceID : String} {clusters : List Cluster}
    {evs : List Event} (h : Skipped instanceID clusters evs) : createCalls evs = [] := by
  induction h with
  | nil => rfl
  | notLockable cluster locked err clusters evs _ _ ih => simpa [createCalls] using ih
  | notStable cluster unlocked uerr clusters evs _ _ ih => simpa [createCalls] using ih
  | occupied cluster existing err unlocked uerr clusters evs _ _ _ ih =>
    simpa [createCalls] using ih

theorem Skipped.append {instanceID : String} {a b : List Cluster} {e1 e2 : List Event}
    (h1 : Skipped instanceID a e1) (h2 : Skipped instanceID b e2) :
    Skipped instanceID (a ++ b) (e1 ++ e2) := by
  induction h1 with
  | nil => exact h2
  | notLockable cluster locked err clusters evs h _ ih =>
    exact Skipped.notLockable cluster locked err _ _ h ih
  | notStable cluster unlocked uerr clusters evs h _ ih =>
    exact Skipped.notStable cluster unlocked uerr _ _ h ih
  | occupied cluster existing err unlocked uerr clusters evs hstable h _ ih =>
    exact Skipped.occupied cluster existing err unlocked uerr _ _ hstable h ih

/-- The three kinds of run of `createClusterInstallation` on a cluster: the cluster is
skipped; or it is locked, Stable and empty and the creation fails; or it is locked,
Stable and empty and the creation succeeds. -/
theorem createClusterInstallation_cases (s : InstallationSupervisor σ) (cluster : Cluster)
    (installation : Installation) (instanceID : String) (w : World σ) :
    ∃ evs, (createClusterInstallation s cluster installation instanceID w).2.trace
        = w.trace ++ evs
      ∧ (((createClusterInstallation s cluster installation instanceID w).1 = none
            ∧ Skipped instanceID [cluster] evs)
        ∨ ((createClusterInstallation s cluster installation instanceID w).1 = none
            ∧ ∃ (lerr : error) (n msg : String) (unlocked : Bool) (uerr : error),
              evs = [Event.LockCluster cluster.ID instanceID true none,
                Event.GetClusterInstallations
                  { PerPage := AllPerPage, InstallationID := "", ClusterID := cluster.ID,
                    IDs := [], IncludeDeleted := false } [] lerr,
                Event.NewID n,
                Event.CreateClusterInstallation
                  ⟨"", cluster.ID, installation.ID, n,
                    ClusterInstallationStateCreationRequested⟩ (some msg),
                Event.UnlockCluster cluster.ID instanceID false unlocked uerr])
        ∨ (cluster.State = ClusterStateStable
            ∧ ∃ (lerr : error) (n : String) (unlocked : Bool) (uerr : error),
              (createClusterInstallation s cluster installation instanceID w).1
                = some ⟨"", cluster.ID, installation.ID, n,
                    ClusterInstallationStateCreationRequested⟩
              ∧ evs = [Event.LockCluster cluster.ID instanceID true none,
                Event.GetClusterInstallations
                  { PerPage := AllPerPage, InstallationID := "", ClusterID := cluster.ID,
                    IDs := [], IncludeDeleted := false } [] lerr,
                Event.NewID n,
                Event.CreateClusterInstallation
                  ⟨"", cluster.ID, installation.ID, n,
                    ClusterInstallationStateCreationRequested⟩ none,
                Event.UnlockCluster cluster.ID instanceID false unlocked uerr])) := by
  rcases hl : s.store.LockCluster cluster.ID instanceID w.st with ⟨⟨locked, lerr⟩, st1⟩
  by_cases hacq : locked = true ∧ lerr = none
  · obtain ⟨rfl, rfl⟩ := hacq
    by_cases hst : cluster.State = ClusterStateStable
    · rcases hg : s.store.GetClusterInstallations
        { PerPage := AllPerPage, InstallationID := "", ClusterID := cluster.ID,
          IDs := [], IncludeDeleted := false } st1 with ⟨⟨existing, gerr⟩, st2⟩
      cases existing with
      | cons e0 erest =>
        rcases hu : s.store.UnlockCluster cluster.ID instanceID false st2
          with ⟨⟨unlocked, uerr⟩, st3⟩
        refine ⟨_, ?_, Or.inl ⟨?_, Skipped.occupied cluster (e0 :: erest) gerr unlocked uerr
          [] [] hst (by simp) Skipped.nil⟩⟩
        · simp [createClusterInstallation, clusterLockTryLock, clusterLockUnlock,
            installationStore.callLockCluster, installationStore.callUnlockCluster,
            installationStore.callGetClusterInstallations, hl, hst, hg, hu, World.record]
        · simp [createClusterInstallation, clusterLockTryLock, clusterLockUnlock,
            installationStore.callLockCluster, installationStore.callUnlockCluster,
            installationStore.callGetClusterInstallations, hl, hst, hg, hu, World.record]
      | nil =>
        rcases hn : s.NewID st2 with ⟨n, st3⟩
        rcases hc : s.store.CreateClusterInstallation
          ⟨"", cluster.ID, installation.ID, n, ClusterInstallationStateCreationRequested⟩ st3
          with ⟨cerr, st4⟩
        rcases hu : s.store.UnlockCluster cluster.ID instanceID false st4
          with ⟨⟨unlocked, uerr⟩, st5⟩
        cases cerr with
        | some msg =>
          refine ⟨_, ?_, Or.inr (Or.inl ⟨?_, gerr, n, msg, unlocked, uerr, rfl⟩)⟩
          · simp [createClusterInstallation, clusterLockTryLock, clusterLockUnlock,
              installationStore.callLockCluster, installationStore.callUnlockCluster,
              installationStore.callGetClusterInstallations, hl, hst, hg, hu, World.record,
              InstallationSupervisor.callNewID, hn,
              installationStore.callCreateClusterInstallation, hc]
          · simp [createClusterInstallation, clusterLockTryLock, clusterLockUnlock,
              installationStore.callLockCluster, installationStore.callUnlockCluster,
              installationStore.callGetClusterInstallations, hl, hst, hg, hu, World.record,
              InstallationSupervisor.callNewID, hn,
              installationStore.callCreateClusterInstallation, hc]
        | none =>
          refine ⟨_, ?_, Or.inr (Or.inr ⟨hst, gerr, n, unlocked, uerr, ?_, rfl⟩)⟩
          · simp [createClusterInstallation, clusterLockTryLock, clusterLockUnlock,
              installationStore.callLockCluster, installationStore.callUnlockCluster,
              installationStore.callGetClusterInstallations, hl, hst, hg, hu, World.record,
              InstallationSupervisor.callNewID, hn,
              installationStore.callCreateClusterInstallation, hc]
          · simp [createClusterInstallation, clusterLockTryLock, clusterLockUnlock,
              installationStore.callLockCluster, installationStore.callUnlockCluster,
              installationStore.callGetClusterInstallations, hl, hst, hg, hu, World.record,
              InstallationSupervisor.callNewID, hn,
              installationStore.callCreateClusterInstallation, hc]
    · rcases hu : s.store.UnlockCluster cluster.ID instanceID false st1
        with ⟨⟨unlocked, uerr⟩, st2⟩
      refine ⟨_, ?_, Or.inl ⟨?_, Skipped.notStable cluster unlocked uerr [] [] hst
        Skipped.nil⟩⟩
      · simp [createClusterInstallation, clusterLockTryLock, clusterLockUnlock,
          installationStore.callLockCluster, installationStore.callUnlockCluster, hl, hst,
          hu, World.record]
      · simp [createClusterInstallation, clusterLockTryLock, clusterLockUnlock,
          installationStore.callLockCluster, installationStore.callUnlockCluster, hl, hst,
          hu, World.record]
  · have hl2 : (if lerr ≠ none then false else locked) = false := by
      cases lerr <;> cases locked <;> simp_all
    refine ⟨_, ?_, Or.inl ⟨?_, Skipped.notLockable cluster locked lerr [] [] hacq
      Skipped.nil⟩⟩
    · simp only [createClusterInstallation, clusterLockTryLock,
        installationStore.callLockCluster, hl, hl2]
      simp [World.record]
    · simp only [createClusterInstallation, clusterLockTryLock,
        installationStore.callLockCluster, hl, hl2]
      simp

/-- The loop of `createInstallation` over the clusters: every `CreateClusterInstallation`
call but the last one failed; and when no call failed, either the loop skipped every
cluster and returned the state of the installation, or it skipped the clusters `pre`,
created the cluster installation on the next cluster and returned CreationRequested at
once. -/
theorem createInstallationLoop_spec (s : InstallationSupervisor σ)
    (installation : Installation) (instanceID : String) (clusters : List Cluster)
    (w : World σ) :
    ∃ evs, (createInstallationLoop s installation instanceID clusters w).2.trace
        = w.trace ++ evs
      ∧ (∃ failed last, createCalls evs = failed ++ last
          ∧ (∀ c ∈ failed, c.2 ≠ none) ∧ last.length ≤ 1)
      ∧ ((∀ c ∈ createCalls evs, c.2 = none) →
          ((createInstallationLoop s installation instanceID clusters w).1
              = installation.State
            ∧ Skipped instanceID clusters evs)
          ∨ ((createInstallationLoop s installation instanceID clusters w).1
              = InstallationStateCreationRequested
            ∧ ∃ (pre : List Cluster) (cluster : Cluster) (post : List Cluster)
                (segs : List Event) (lerr : error) (n : String) (unlocked : Bool)
                (uerr : error),
                clusters = pre ++ cluster :: post
                ∧ Skipped instanceID pre segs
                ∧ cluster.State = ClusterStateStable
                ∧ evs = segs ++ [Event.LockCluster cluster.ID instanceID true none,
                    Event.GetClusterInstallations
                      { PerPage := AllPerPage, InstallationID := "",
                        ClusterID := cluster.ID, IDs := [], IncludeDeleted := false }
                      [] lerr,
                    Event.NewID n,
                    Event.CreateClusterInstallation
                      ⟨"", cluster.ID, installation.ID, n,
                        ClusterInstallationStateCreationRequested⟩ none,
                    Event.UnlockCluster cluster.ID instanceID false unlocked uerr])) := by
  induction clusters generalizing w with
  | nil =>
    exact ⟨[], by simp [createInstallationLoop], ⟨[], [], rfl, by simp, by simp⟩,
      fun _ => Or.inl ⟨rfl, Skipped.nil⟩⟩
  | cons cluster clusters ih =>
    obtain ⟨evs1, htr1, hcase⟩ :=
      createClusterInstallation_cases s cluster installation instanceID w
    obtain ⟨evs2, htr2, ⟨failed2, last2, hcalls2, hfailed2, hlast2⟩, hfit2⟩ :=
      ih (createClusterInstallation s cluster installation instanceID w).2
    rcases hcase with ⟨hnone, hskip⟩ | ⟨hnone, lerr, n, msg, unlocked, uerr, hevs⟩
      | ⟨hst, lerr, n, unlocked, uerr, hsome, hevs⟩
    · -- the cluster is skipped
      have hstep : createInstallationLoop s installation instanceID (cluster :: clusters) w
          = createInstallationLoop s installation instanceID clusters
              (createClusterInstallation s cluster installation instanceID w).2 := by
        simp [createInstallationLoop, hnone]
      have hc1 := hskip.createCalls_eq_nil
      refine ⟨evs1 ++ evs2, by rw [hstep, htr2, htr1, List.append_assoc],
        ⟨failed2, last2, by rw [createCalls_append, hc1, hcalls2]; rfl, hfailed2, hlast2⟩,
        ?_⟩
      rw [createCalls_append, hc1, List.nil_append, hstep]
      intro hsucc
      rcases hfit2 hsucc with ⟨hres, hsk⟩
        | ⟨hres, pre, c, post, segs, lerr, n, unlocked, uerr, hcl, hsk, hcst, hevs2⟩
      · exact Or.inl ⟨hres, hskip.append hsk⟩
      · refine Or.inr ⟨hres, cluster :: pre, c, post, evs1 ++ segs, lerr, n, unlocked, uerr,
          by rw [hcl]; rfl, hskip.append hsk, hcst, ?_⟩
        rw [hevs2, List.append_assoc]
    · -- the creation fails
      have hstep : createInstallationLoop s installation instanceID (cluster :: clusters) w
          = createInstallationLoop s installation instanceID clusters
              (createClusterInstallation s cluster installation instanceID w).2 := by
        simp [createInstallationLoop, hnone]
      have hc1 : createCalls evs1
          = [(⟨"", cluster.ID, installation.ID, n,
              ClusterInstallationStateCreationRequested⟩, some msg)] := by
        rw [hevs]
        rfl
      refine ⟨evs1 ++ evs2, by rw [hstep, htr2, htr1, List.append_assoc],
        ⟨(⟨"", cluster.ID, installation.ID, n, ClusterInstallationStateCreationRequested⟩,
            some msg) :: failed2, last2,
          by rw [createCalls_append, hc1, hcalls2]; rfl, ?_, hlast2⟩, ?_⟩
      · intro c hc
        rcases List.mem_cons.mp hc with h | h
        · rw [h]
          simp
        · exact hfailed2 c h
      · rw [createCalls_append, hc1]
        intro hsucc
        have := hsucc _ (List.mem_append_left _ (List.mem_singleton.mpr rfl))
        simp at this
    · -- the creation succeeds
      have hstep : createInstallationLoop s installation instanceID (cluster :: clusters) w
          = (InstallationStateCreationRequested,
              (createClusterInstallation s cluster installation instanceID w).2) := by
        simp [createInstallationLoop, hsome]
      have hc1 : createCalls evs1
          = [(⟨"", cluster.ID, installation.ID, n,
              ClusterInstallationStateCreationRequested⟩, none)] := by
        rw [hevs]
        rfl
      refine ⟨evs1, by rw [hstep, htr1],
        ⟨[], _, by rw [hc1]; rfl, by simp, by simp⟩, fun _ => Or.inr ?_⟩
      rw [hstep]
      exact ⟨rfl, [], cluster, clusters, [], lerr, n, unlocked, uerr, rfl, Skipped.nil, hst,
        by rw [hevs]; rfl⟩

/-- The run of `createInstallation` for an installation without cluster installations,
once the clusters are listed: the scan of the clusters. -/
theorem createInstallation_scan (s : InstallationSupervisor σ)
    (installation : Installation) (instanceID : String) (w : World σ)
    (clusters : List Cluster) (st1 st2 : σ)
    (h1 : s.store.GetClusterInstallations
      { PerPage := AllPerPage, InstallationID := installation.ID, ClusterID := "",
        IDs := [], IncludeDeleted := false } w.st = (([], none), st1))
    (h2 : s.store.GetClusters { PerPage := AllPerPage, IncludeDeleted := false } st1
      = ((clusters, none), st2)) :
    createInstallation s installation instanceID w
      = createInstallationLoop s installation instanceID clusters
          ⟨st2, w.trace ++
            [Event.GetClusterInstallations
              { PerPage := AllPerPage, InstallationID := installation.ID, ClusterID := "",
                IDs := [], IncludeDeleted := false } [] none,
             Event.GetClusters { PerPage := AllPerPage, IncludeDeleted := false }
              clusters none]⟩ := by
  simp [createInstallation, installationStore.callGetClusterInstallations, h1,
    installationStore.callGetClusters, h2, World.record]

/-- The calls of `createInstallation`: without a scan of the clusters no
`CreateClusterInstallation` call is made; otherwise the calls are the two listings and
the calls of the scan. -/
theorem createInstallation_shape (s : InstallationSupervisor σ)
    (installation : Installation) (instanceID : String) (w : World σ) :
    (createCalls (newEvents w (createInstallation s installation instanceID w).2) = [])
    ∨ ∃ (clusters : List Cluster) (w0 : World σ) (evs : List Event),
        (createInstallationLoop s installation instanceID clusters w0).2.trace
          = w0.trace ++ evs
        ∧ (createInstallation s installation instanceID w).1
          = (createInstallationLoop s installation instanceID clusters w0).1
        ∧ newEvents w (createInstallation s installation instanceID w).2
          = Event.GetClusterInstallations
              { PerPage := AllPerPage, InstallationID := installation.ID, ClusterID := "",
                IDs := [], IncludeDeleted := false } [] none
            :: Event.GetClusters { PerPage := AllPerPage, IncludeDeleted := false }
                clusters none
            :: newEvents w0 (createInstallationLoop s installation instanceID clusters w0).2
        := by
  rcases h1 : s.store.GetClusterInstallations
    { PerPage := AllPerPage, InstallationID := installation.ID, ClusterID := "",
      IDs := [], IncludeDeleted := false } w.st with ⟨⟨first, err⟩, st1⟩
  cases err with
  | some msg =>
    left
    simp [createInstallation, installationStore.callGetClusterInstallations, h1, newEvents,
      World.record, createCalls]
  | none =>
    cases first with
    | cons c0 rest =>
      left
      rw [createInstallation_of_children s installation instanceID w (c0 :: rest) st1 h1
        (by simp)]
      simp [newEvents, World.record, createCalls]
    | nil =>
      rcases hg : s.store.GetClusters { PerPage := AllPerPage, IncludeDeleted := false } st1
        with ⟨⟨clusters, gerr⟩, st2⟩
      cases gerr with
      | some msg =>
        left
        simp [createInstallation, installationStore.callGetClusterInstallations, h1,
          installationStore.callGetClusters, hg, newEvents, World.record, createCalls]
      | none =>
        right
        have heq := createInstallation_scan s installation instanceID w clusters st1 st2 h1 hg
        obtain ⟨evs, htr, -⟩ := createInstallationLoop_spec s installation instanceID
          clusters ⟨st2, w.trace ++
            [Event.GetClusterInstallations
              { PerPage := AllPerPage, InstallationID := installation.ID, ClusterID := "",
                IDs := [], IncludeDeleted := false } [] none,
             Event.GetClusters { PerPage := AllPerPage, IncludeDeleted := false }
              clusters none]⟩
        refine ⟨clusters, _, evs, htr, by rw [heq], ?_⟩
        rw [heq, newEvents_of_trace _ _ _ htr]
        unfold newEvents
        rw [htr]
        simp

/-- C9, amended: when an installation has no cluster installations, the store lists the
clusters, no listing of a cluster's cluster installations fails and no
`CreateClusterInstallation` call of the run fails, then either every cluster is passed
over (none is lockable, Stable and without a cluster installation) and nothing is
created, or `createInstallation` creates exactly one cluster installation, on the first
cluster in the store's list order that is lockable, Stable and has no existing cluster
installation (the store answers its listing with the empty list and no error), with
ClusterID that cluster's ID, InstallationID the installation's ID and State
CreationRequested; it then returns CreationRequested, and its last call is the unlock of
that cluster: no later cluster is locked or examined. -/
theorem createInstallation_first_fit (s : InstallationSupervisor σ)
    (installation : Installation) (instanceID : String) (w : World σ)
    (clusters : List Cluster) (st1 st2 : σ)
    (h1 : s.store.GetClusterInstallations
      { PerPage := AllPerPage, InstallationID := installation.ID, ClusterID := "",
        IDs := [], IncludeDeleted := false } w.st = (([], none), st1))
    (h2 : s.store.GetClusters { PerPage := AllPerPage, IncludeDeleted := false } st1
      = ((clusters, none), st2))
    (hlist : ∀ e ∈ newEvents w (createInstallation s installation instanceID w).2,
      e.listingFailed = false)
    (hsucc : ∀ c ∈ createCalls
      (newEvents w (createInstallation s installation instanceID w).2), c.2 = none) :
    (∃ segs : List Event,
        Skipped instanceID clusters segs
        ∧ (createInstallation s installation instanceID w).1 = installation.State
        ∧ newEvents w (createInstallation s installation instanceID w).2
          = Event.GetClusterInstallations
              { PerPage := AllPerPage, InstallationID := installation.ID, ClusterID := "",
                IDs := [], IncludeDeleted := false } [] none
            :: Event.GetClusters { PerPage := AllPerPage, IncludeDeleted := false }
                clusters none
            :: segs)
    ∨ ((createInstallation s installation instanceID w).1
          = InstallationStateCreationRequested
      ∧ ∃ (pre : List Cluster) (cluster : Cluster) (post : List Cluster)
          (segs : List Event) (n : String) (unlocked : Bool) (uerr : error),
          clusters = pre ++ cluster :: post
          ∧ Skipped instanceID pre segs
          ∧ cluster.State = ClusterStateStable
          ∧ createCalls (newEvents w (createInstallation s installation instanceID w).2)
            = [(⟨"", cluster.ID, installation.ID, n,
                  ClusterInstallationStateCreationRequested⟩, none)]
          ∧ newEvents w (createInstallation s installation instanceID w).2
            = Event.GetClusterInstallations
                { PerPage := AllPerPage, InstallationID := installation.ID,
                  ClusterID := "", IDs := [], IncludeDeleted := false } [] none
              :: Event.GetClusters { PerPage := AllPerPage, IncludeDeleted := false }
                  clusters none
              :: (segs ++ [Event.LockCluster cluster.ID instanceID true none,
                    Event.GetClusterInstallations
                      { PerPage := AllPerPage, InstallationID := "",
                        ClusterID := cluster.ID, IDs := [], IncludeDeleted := false }
                      [] none,
                    Event.NewID n,
                    Event.CreateClusterInstallation
                      ⟨"", cluster.ID, installation.ID, n,
                        ClusterInstallationStateCreationRequested⟩ none,
                    Event.UnlockCluster cluster.ID instanceID false unlocked uerr])) := by
  have heq := createInstallation_scan s installation instanceID w clusters st1 st2 h1 h2
  obtain ⟨evs, htr, -, hfit⟩ := createInstallationLoop_spec s installation instanceID
    clusters ⟨st2, w.trace ++
      [Event.GetClusterInstallations
        { PerPage := AllPerPage, InstallationID := installation.ID, ClusterID := "",
          IDs := [], IncludeDeleted := false } [] none,
       Event.GetClusters { PerPage := AllPerPage, IncludeDeleted := false }
        clusters none]⟩
  have hE : newEvents w (createInstallation s installation instanceID w).2
      = Event.GetClusterInstallations
          { PerPage := AllPerPage, InstallationID := installation.ID, ClusterID := "",
            IDs := [], IncludeDeleted := false } [] none
        :: Event.GetClusters { PerPage := AllPerPage, IncludeDeleted := false }
            clusters none
        :: evs := by
    rw [heq]
    unfold newEvents
    rw [htr]
    simp
  have hcc : createCalls (newEvents w (createInstallation s installation instanceID w).2)
      = createCalls evs := by
    rw [hE]
    rfl
  rw [hcc] at hsucc
  rcases hfit hsucc with ⟨hres, hsk⟩
    | ⟨hres, pre, cluster, post, segs, lerr, n, unlocked, uerr, hcl, hsk, hst, hevs⟩
  · exact Or.inl ⟨evs, hsk, by rw [heq, hres], hE⟩
  · have hnone : lerr = none := by
      have hfail := hlist (Event.GetClusterInstallations
        { PerPage := AllPerPage, InstallationID := "", ClusterID := cluster.ID, IDs := [],
          IncludeDeleted := false } [] lerr) (by rw [hE, hevs]; simp)
      cases lerr with
      | none => rfl
      | some msg => simp [Event.listingFailed] at hfail
    subst hnone
    refine Or.inr ⟨by rw [heq, hres], pre, cluster, post, segs, n, unlocked, uerr,
      hcl, hsk, hst, ?_, by rw [hE, hevs]⟩
    rw [hcc, hevs, createCalls_append, hsk.createCalls_eq_nil]
    rfl

/-- C9, amended, at a concrete store: `c0` is locked by another owner, `c1` is not stable,
`c2` hosts a cluster installation, and the creation succeeds on `c3`; `c4` is left
alone. -/
theorem createInstallation_first_fit_witness :
    ((∃ segs : List Event,
        Skipped "instance" memCreate.clusters segs
        ∧ (createInstallation memSupervisor ⟨"i1", InstallationStateCreationRequested, ""⟩
            "instance" ⟨memCreate, []⟩).1 = InstallationStateCreationRequested
        ∧ newEvents ⟨memCreate, []⟩
            (createInstallation memSupervisor ⟨"i1", InstallationStateCreationRequested, ""⟩
              "instance" ⟨memCreate, []⟩).2
          = Event.GetClusterInstallations
              { PerPage := AllPerPage, InstallationID := "i1", ClusterID := "",
                IDs := [], IncludeDeleted := false } [] none
            :: Event.GetClusters { PerPage := AllPerPage, IncludeDeleted := false }
                memCreate.clusters none
            :: segs)
    ∨ ((createInstallation memSupervisor ⟨"i1", InstallationStateCreationRequested, ""⟩
          "instance" ⟨memCreate, []⟩).1 = InstallationStateCreationRequested
      ∧ ∃ (pre : List Cluster) (cluster : Cluster) (post : List Cluster)
          (segs : List Event) (n : String) (unlocked : Bool) (uerr : error),
          memCreate.clusters = pre ++ cluster :: post
          ∧ Skipped "instance" pre segs
          ∧ cluster.State = ClusterStateStable
          ∧ createCalls (newEvents ⟨memCreate, []⟩
              (createInstallation memSupervisor
                ⟨"i1", InstallationStateCreationRequested, ""⟩ "instance"
                ⟨memCreate, []⟩).2)
            = [(⟨"", cluster.ID, "i1", n, ClusterInstallationStateCreationRequested⟩, none)]
          ∧ newEvents ⟨memCreate, []⟩
              (createInstallation memSupervisor
                ⟨"i1", InstallationStateCreationRequested, ""⟩ "instance"
                ⟨memCreate, []⟩).2
            = Event.GetClusterInstallations
                { PerPage := AllPerPage, InstallationID := "i1", ClusterID := "",
                  IDs := [], IncludeDeleted := false } [] none
              :: Event.GetClusters { PerPage := AllPerPage, IncludeDeleted := false }
                  memCreate.clusters none
              :: (segs ++ [Event.LockCluster cluster.ID "instance" true none,
                    Event.GetClusterInstallations
                      { PerPage := AllPerPage, InstallationID := "",
                        ClusterID := cluster.ID, IDs := [], IncludeDeleted := false }
                      [] none,
                    Event.NewID n,
                    Event.CreateClusterInstallation
                      ⟨"", cluster.ID, "i1", n,
                        ClusterInstallationStateCreationRequested⟩ none,
                    Event.UnlockCluster cluster.ID "instance" false unlocked uerr])))
    ∧ createCalls (newEvents ⟨memCreate, []⟩
        (createInstallation memSupervisor ⟨"i1", InstallationStateCreationRequested, ""⟩
          "instance" ⟨memCreate, []⟩).2)
      = [(⟨"", "c3", "i1", "n1", ClusterInstallationStateCreationRequested⟩, none)] :=
  ⟨createInstallation_first_fit memSupervisor
      ⟨"i1", InstallationStateCreationRequested, ""⟩ "instance" ⟨memCreate, []⟩
      memCreate.clusters memCreate memCreate rfl rfl (by decide) (by decide),
   by decide⟩

/-- C10, amended: for every store behaviour, among the `CreateClusterInstallation` calls
of one invocation of `createInstallation` every call but the last one failed: at most one
call succeeds, and no call follows a call that succeeded. -/
theorem createInstallation_one_successful_create (s : InstallationSupervisor σ)
    (installation : Installation) (instanceID : String) (w : World σ) :
    ∃ failed last,
      createCalls (newEvents w (createInstallation s installation instanceID w).2)
        = failed ++ last
      ∧ (∀ c ∈ failed, c.2 ≠ none) ∧ last.length ≤ 1 := by
  rcases createInstallation_shape s installation instanceID w with
    hnil | ⟨clusters, w0, evs, htr, -, hE⟩
  · exact ⟨[], [], by rw [hnil]; rfl, by simp, by simp⟩
  · obtain ⟨evs2, htr2, ⟨failed, last, hcalls, hfailed, hlast⟩, -⟩ :=
      createInstallationLoop_spec s installation instanceID clusters w0
    have hev : evs2 = evs := List.append_cancel_left (htr2.symm.trans htr)
    subst hev
    refine ⟨failed, last, ?_, hfailed, hlast⟩
    rw [hE, newEvents_of_trace _ _ _ htr, ← hcalls]
    rfl

/-! ### The dispatcher -/

/-- C16: for an installation whose state is none of CreationRequested, UpgradeRequested,
UpgradeInProgress, DeletionRequested, DeletionInProgress, `transitionInstallation` returns
the state of the installation and leaves the world as it was: the state of the
collaborators is unchanged and the trace gains no store call, no lock attempt and no
provisioner call. -/
theorem transitionInstallation_unexpected_state (s : InstallationSupervisor σ)
    (f : String → String) (installation : Installation) (instanceID : String) (w : World σ)
    (h1 : installation.State ≠ InstallationStateCreationRequested)
    (h2 : installation.State ≠ InstallationStateUpgradeRequested)
    (h3 : installation.State ≠ InstallationStateUpgradeInProgress)
    (h4 : installation.State ≠ InstallationStateDeletionRequested)
    (h5 : installation.State ≠ InstallationStateDeletionInProgress) :
    transitionInstallation s f installation instanceID w = (installation.State, w) := by
  simp [transitionInstallation, h1, h2, h3, h4, h5]

/-- C16 at a concrete store: an installation in state Stable is left alone. -/
theorem transitionInstallation_unexpected_state_witness :
    transitionInstallation memSupervisor failedVariant ⟨"i1", InstallationStateStable, ""⟩
        "instance" ⟨memMixedChildren, []⟩
      = (InstallationStateStable, ⟨memMixedChildren, []⟩) :=
  transitionInstallation_unexpected_state memSupervisor failedVariant
    ⟨"i1", InstallationStateStable, ""⟩ "instance" ⟨memMixedChildren, []⟩
    (by decide) (by decide) (by decide) (by decide) (by decide)

/-- C15: if `transitionInstallation` returns Stable, CreationFailed or UpgradeFailed for an
installation, then `transitionInstallation` applied to that installation with its state
set to the returned value returns that same value, against the same snapshot as against
any other: it makes no call at all. -/
theorem transitionInstallation_replay (s : InstallationSupervisor σ) (f : String → String)
    (installation : Installation) (instanceID : String) (w w2 : World σ)
    (hreached : (transitionInstallation s f installation instanceID w).1
        = InstallationStateStable
      ∨ (transitionInstallation s f installation instanceID w).1
        = InstallationStateCreationFailed
      ∨ (transitionInstallation s f installation instanceID w).1
        = InstallationStateUpgradeFailed) :
    transitionInstallation s f
        { installation with
          State := (transitionInstallation s f installation instanceID w).1 } instanceID w2
      = ((transitionInstallation s f installation instanceID w).1, w2) := by
  rcases hreached with h | h | h <;> rw [h] <;>
    exact transitionInstallation_unexpected_state s f _ instanceID w2
      (by dsimp only; decide) (by dsimp only; decide) (by dsimp only; decide)
      (by dsimp only; decide) (by dsimp only; decide)

/-- C15 at a concrete store: the create transition reaches CreationFailed, and the replay
on the failed installation returns CreationFailed. -/
theorem transitionInstallation_replay_witness :
    (transitionInstallation memSupervisor failedVariant
        ⟨"i1", InstallationStateCreationRequested, ""⟩ "instance"
        ⟨memMixedChildren, []⟩).1 = InstallationStateCreationFailed
    ∧ transitionInstallation memSupervisor failedVariant
        { (⟨"i1", InstallationStateCreationRequested, ""⟩ : Installation) with
          State := (transitionInstallation memSupervisor failedVariant
            ⟨"i1", InstallationStateCreationRequested, ""⟩ "instance"
            ⟨memMixedChildren, []⟩).1 } "instance" ⟨memMixedChildren, []⟩
      = ((transitionInstallation memSupervisor failedVariant
            ⟨"i1", InstallationStateCreationRequested, ""⟩ "instance"
            ⟨memMixedChildren, []⟩).1, ⟨memMixedChildren, []⟩) :=
  ⟨by decide,
   transitionInstallation_replay memSupervisor failedVariant
    ⟨"i1", InstallationStateCreationRequested, ""⟩ "instance" ⟨memMixedChildren, []⟩
    ⟨memMixedChildren, []⟩ (Or.inr (Or.inl (by decide)))⟩

/-! ### Create: idempotence once a child exists -/

/-- The counters of the aggregation loop depend on the states of the children only. -/
theorem countStates_congr (cis cis2 : List ClusterInstallation)
    (h : cis2.map (fun ci => ci.State) = cis.map (fun ci => ci.State)) :
    countStates cis2 = countStates cis ∧ cis2.length = cis.length := by
  have hlen : cis2.length = cis.length := by
    simpa using congrArg List.length h
  have key : ∀ (state : String) (l : List ClusterInstallation),
      l.countP (fun ci => ci.State = state)
        = (l.map (fun ci => ci.State)).countP (fun x => x = state) := by
    intro state l
    rw [List.countP_map]
    rfl
  refine ⟨?_, hlen⟩
  unfold countStates
  rw [countStates_foldl, countStates_foldl]
  simp only [key, h]

/-- C14: whenever the store returns at least one cluster installation for the installation,
`createInstallation` makes the listing of the children its only call (no cluster is
queried, no cluster lock is taken, no cluster installation is created); and a second
invocation right after the first, against children in the same states, does the same and
returns the same state. -/
theorem createInstallation_idempotent (s : InstallationSupervisor σ)
    (installation : Installation) (instanceID : String) (w : World σ)
    (cis cis2 : List ClusterInstallation) (st1 st2 : σ)
    (hget : s.store.GetClusterInstallations
      { PerPage := AllPerPage, InstallationID := installation.ID, ClusterID := "", IDs := [],
        IncludeDeleted := false } w.st = ((cis, none), st1))
    (hne : cis ≠ [])
    (hget2 : s.store.GetClusterInstallations
      { PerPage := AllPerPage, InstallationID := installation.ID, ClusterID := "", IDs := [],
        IncludeDeleted := false } st1 = ((cis2, none), st2))
    (hsame : cis2.map (fun ci => ci.State) = cis.map (fun ci => ci.State)) :
    newEvents w (createInstallation s installation instanceID w).2
      = [Event.GetClusterInstallations
          { PerPage := AllPerPage, InstallationID := installation.ID, ClusterID := "",
            IDs := [], IncludeDeleted := false } cis none]
    ∧ newEvents (createInstallation s installation instanceID w).2
        (createInstallation s installation instanceID
          (createInstallation s installation instanceID w).2).2
      = [Event.GetClusterInstallations
          { PerPage := AllPerPage, InstallationID := installation.ID, ClusterID := "",
            IDs := [], IncludeDeleted := false } cis2 none]
    ∧ (createInstallation s installation instanceID
        (createInstallation s installation instanceID w).2).1
      = (createInstallation s installation instanceID w).1 := by
  have hne2 : cis2 ≠ [] := by
    intro h0
    rw [h0] at hsame
    exact hne (List.map_eq_nil_iff.mp hsame.symm)
  have e1 := createInstallation_of_children s installation instanceID w cis st1 hget hne
  have e2 := createInstallation_of_children s installation instanceID
    (createInstallation s installation instanceID w).2 cis2 st2
    (by rw [e1]; exact hget2) hne2
  obtain ⟨hc, hl⟩ := countStates_congr cis cis2 hsame
  refine ⟨?_, ?_, ?_⟩
  · rw [e1]
    simp [newEvents, World.record]
  · rw [e2]
    simp [newEvents, World.record]
  · rw [e2, e1, hc, hl]

/-- C14 at a concrete store: two invocations on a stable child and a failed child. -/
theorem createInstallation_idempotent_witness :
    (createInstallation memSupervisor ⟨"i1", InstallationStateCreationRequested, ""⟩
        "instance"
        (createInstallation memSupervisor ⟨"i1", InstallationStateCreationRequested, ""⟩
          "instance" ⟨memMixedChildren, []⟩).2).1
      = (createInstallation memSupervisor ⟨"i1", InstallationStateCreationRequested, ""⟩
          "instance" ⟨memMixedChildren, []⟩).1 :=
  (createInstallation_idempotent memSupervisor
    ⟨"i1", InstallationStateCreationRequested, ""⟩ "instance" ⟨memMixedChildren, []⟩
    memMixedChildren.clusterInstallations memMixedChildren.clusterInstallations
    memMixedChildren memMixedChildren rfl (by decide) rfl rfl).2.2

/-! ### Create: which clusters are accepted -/

theorem mem_createCalls (evs : List Event) (ci : ClusterInstallation) (err : error) :
    (ci, err) ∈ createCalls evs ↔ Event.CreateClusterInstallation ci err ∈ evs := by
  unfold createCalls
  rw [List.mem_filterMap]
  constructor
  · rintro ⟨e, he, hm⟩
    cases e <;> simp at hm
    obtain ⟨rfl, rfl⟩ := hm
    exact he
  · intro h
    exact ⟨_, h, rfl⟩

/-- The calls of a skipped cluster: the lock attempt alone, or the lock and the unlock, or
the lock, a listing that answers at least one cluster installation, and the unlock. -/
theorem Skipped.single {instanceID : String} {cluster : Cluster} {evs : List Event}
    (h : Skipped instanceID [cluster] evs) :
    (∃ locked err, ¬ (locked = true ∧ err = none)
        ∧ evs = [Event.LockCluster cluster.ID instanceID locked err])
    ∨ (∃ unlocked uerr, cluster.State ≠ ClusterStateStable
        ∧ evs = [Event.LockCluster cluster.ID instanceID true none,
            Event.UnlockCluster cluster.ID instanceID false unlocked uerr])
    ∨ (∃ existing err unlocked uerr, cluster.State = ClusterStateStable ∧ existing ≠ []
        ∧ evs = [Event.LockCluster cluster.ID instanceID true none,
            Event.GetClusterInstallations
              { PerPage := AllPerPage, InstallationID := "", ClusterID := cluster.ID,
                IDs := [], IncludeDeleted := false } existing err,
            Event.UnlockCluster cluster.ID instanceID false unlocked uerr]) := by
  cases h with
  | notLockable _ locked err _ evs hl rest =>
    cases rest
    exact Or.inl ⟨locked, err, hl, rfl⟩
  | notStable _ unlocked uerr _ evs hs rest =>
    cases rest
    exact Or.inr (Or.inl ⟨unlocked, uerr, hs, rfl⟩)
  | occupied _ existing err unlocked uerr _ evs hst hne rest =>
    cases rest
    exact Or.inr (Or.inr ⟨existing, err, unlocked, uerr, hst, hne, rfl⟩)

/-- C11, counterexample: the only cluster installation of cluster `c1` is in state Deleted;
the store, asked for the cluster installations of `c1` without the deleted ones, answers
the empty list, and `createClusterInstallation` creates a cluster installation on `c1`. -/
theorem createClusterInstallation_accepts_deleted_only :
    (createClusterInstallation memSupervisor ⟨"c1", ClusterStateStable⟩
        ⟨"i1", InstallationStateCreationRequested, ""⟩ "instance" ⟨memDeletedOnly, []⟩).1
      = some ⟨"", "c1", "i1", "n1", ClusterInstallationStateCreationRequested⟩
    ∧ (createClusterInstallation memSupervisor ⟨"c1", ClusterStateStable⟩
        ⟨"i1", InstallationStateCreationRequested, ""⟩ "instance" ⟨memDeletedOnly, []⟩).2.trace
      = [Event.LockCluster "c1" "instance" true none,
         Event.GetClusterInstallations
          { PerPage := AllPerPage, InstallationID := "", ClusterID := "c1", IDs := [],
            IncludeDeleted := false } [] none,
         Event.NewID "n1",
         Event.CreateClusterInstallation
          ⟨"", "c1", "i1", "n1", ClusterInstallationStateCreationRequested⟩ none,
         Event.UnlockCluster "c1" "instance" false true none]
    ∧ (createClusterInstallation memSupervisor ⟨"c1", ClusterStateStable⟩
        ⟨"i1", InstallationStateCreationRequested, ""⟩ "instance"
        ⟨memDeletedOnly, []⟩).2.st.clusterInstallations
      = [⟨"ci0", "c1", "i0", "ns0", ClusterInstallationStateDeleted⟩,
         ⟨"n1", "c1", "i1", "n1", ClusterInstallationStateCreationRequested⟩] := by
  refine ⟨by decide, by decide, by decide⟩

/-- C11, amended: `createClusterInstallation` creates a cluster installation on a cluster
only if the store answered the listing of that cluster's cluster installations with the
empty list; the listing does not ask for the deleted ones; and when the listing answers
at least one cluster installation, in whatever state, a failed one included, the cluster
is rejected: `nil` is returned and nothing is created. -/
theorem createClusterInstallation_single_tenancy_check (s : InstallationSupervisor σ)
    (cluster : Cluster) (installation : Installation) (instanceID : String) (w : World σ) :
    (∀ ci err, Event.CreateClusterInstallation ci err
        ∈ newEvents w (createClusterInstallation s cluster installation instanceID w).2 →
      ci.ClusterID = cluster.ID
      ∧ ∃ lerr, Event.GetClusterInstallations
          { PerPage := AllPerPage, InstallationID := "", ClusterID := cluster.ID, IDs := [],
            IncludeDeleted := false } [] lerr
          ∈ newEvents w (createClusterInstallation s cluster installation instanceID w).2)
    ∧ (∀ filter existing lerr, Event.GetClusterInstallations filter existing lerr
        ∈ newEvents w (createClusterInstallation s cluster installation instanceID w).2 →
      filter = { PerPage := AllPerPage, InstallationID := "", ClusterID := cluster.ID,
                 IDs := [], IncludeDeleted := false }
      ∧ (existing ≠ [] →
          (createClusterInstallation s cluster installation instanceID w).1 = none
          ∧ ∀ ci err, Event.CreateClusterInstallation ci err
              ∉ newEvents w
                (createClusterInstallation s cluster installation instanceID w).2)) := by
  obtain ⟨evs, htr, hcase⟩ :=
    createClusterInstallation_cases s cluster installation instanceID w
  rw [newEvents_of_trace _ _ _ htr]
  rcases hcase with ⟨hnone, hskip⟩ | ⟨hnone, lerr, n, msg, unlocked, uerr, hevs⟩
    | ⟨hst, lerr, n, unlocked, uerr, hsome, hevs⟩
  · rcases hskip.single with ⟨locked, err, -, hevs⟩ | ⟨unlocked, uerr, -, hevs⟩
      | ⟨existing, err, unlocked, uerr, -, hne, hevs⟩ <;> rw [hevs]
    · simp
    · simp
    · refine ⟨by simp, ?_⟩
      intro filter existing2 lerr hmem
      simp only [List.mem_cons, List.mem_singleton, reduceCtorEq, false_or, or_false,
        Event.GetClusterInstallations.injEq, List.not_mem_nil] at hmem
      obtain ⟨rfl, rfl, rfl⟩ := hmem
      exact ⟨rfl, fun _ => ⟨hnone, by simp⟩⟩
  · rw [hevs]
    refine ⟨?_, ?_⟩
    · intro ci err hmem
      simp only [List.mem_cons, List.mem_singleton, reduceCtorEq, false_or, or_false,
        Event.CreateClusterInstallation.injEq, List.not_mem_nil] at hmem
      obtain ⟨rfl, rfl⟩ := hmem
      exact ⟨rfl, lerr, by simp⟩
    · intro filter existing2 lerr2 hmem
      simp only [List.mem_cons, List.mem_singleton, reduceCtorEq, false_or, or_false,
        Event.GetClusterInstallations.injEq, List.not_mem_nil] at hmem
      obtain ⟨rfl, rfl, rfl⟩ := hmem
      exact ⟨rfl, fun h => absurd rfl h⟩
  · rw [hevs]
    refine ⟨?_, ?_⟩
    · intro ci err hmem
      simp only [List.mem_cons, List.mem_singleton, reduceCtorEq, false_or, or_false,
        Event.CreateClusterInstallation.injEq, List.not_mem_nil] at hmem
      obtain ⟨rfl, rfl⟩ := hmem
      exact ⟨rfl, lerr, by simp⟩
    · intro filter existing2 lerr2 hmem
      simp only [List.mem_cons, List.mem_singleton, reduceCtorEq, false_or, or_false,
        Event.GetClusterInstallations.injEq, List.not_mem_nil] at hmem
      obtain ⟨rfl, rfl, rfl⟩ := hmem
      exact ⟨rfl, fun h => absurd rfl h⟩

/-- C11, amended, at a concrete store: cluster `c2` hosts a failed cluster installation and
is rejected. -/
theorem createClusterInstallation_single_tenancy_check_witness :
    (createClusterInstallation memSupervisor ⟨"c2", ClusterStateStable⟩
        ⟨"i1", InstallationStateCreationRequested, ""⟩ "instance"
        ⟨memNoEligibleCluster, []⟩).1 = none :=
  (((createClusterInstallation_single_tenancy_check memSupervisor ⟨"c2", ClusterStateStable⟩
      ⟨"i1", InstallationStateCreationRequested, ""⟩ "instance"
      ⟨memNoEligibleCluster, []⟩).2
    { PerPage := AllPerPage, InstallationID := "", ClusterID := "c2", IDs := [],
      IncludeDeleted := false }
    [⟨"ci0", "c2", "i0", "ns0", ClusterInstallationStateCreationFailed⟩] none
    (by decide)).2 (by decide)).1

/-- When the cluster is locked and Stable and the listing of its cluster installations
fails with no list, `createClusterInstallation` does not look at the error (lines
211-215): it goes on to the creation. -/
theorem createClusterInstallation_ignores_listing_error (s : InstallationSupervisor σ)
    (cluster : Cluster) (installation : Installation) (instanceID : String) (w : World σ)
    (st1 st2 st3 : σ) (msg n : String)
    (hl : s.store.LockCluster cluster.ID instanceID w.st = ((true, none), st1))
    (hst : cluster.State = ClusterStateStable)
    (hg : s.store.GetClusterInstallations
      { PerPage := AllPerPage, InstallationID := "", ClusterID := cluster.ID, IDs := [],
        IncludeDeleted := false } st1 = (([], some msg), st2))
    (hn : s.NewID st2 = (n, st3)) :
    ∃ err, Event.CreateClusterInstallation
        ⟨"", cluster.ID, installation.ID, n, ClusterInstallationStateCreationRequested⟩ err
      ∈ newEvents w (createClusterInstallation s cluster installation instanceID w).2 := by
  rcases hc : s.store.CreateClusterInstallation
    ⟨"", cluster.ID, installation.ID, n, ClusterInstallationStateCreationRequested⟩ st3
    with ⟨cerr, st4⟩
  refine ⟨cerr, ?_⟩
  cases cerr <;>
    simp [createClusterInstallation, clusterLockTryLock, clusterLockUnlock,
      installationStore.callLockCluster, installationStore.callUnlockCluster,
      installationStore.callGetClusterInstallations, hl, hst, hg, World.record,
      InstallationSupervisor.callNewID, hn, installationStore.callCreateClusterInstallation,
      hc, newEvents]

/-- C12, the code at the failing input: cluster `c1` hosts a stable cluster installation of
installation `i0`, so the store satisfies single tenancy; the listing of the cluster
installations of `c1` fails, `createInstallation` for installation `i1` ignores the error
and creates a second cluster installation on `c1`: single tenancy is lost. -/
theorem createInstallation_breaks_single_tenancy :
    singleTenancy memOccupiedListingFails
    ∧ (createInstallation memSupervisor ⟨"i1", InstallationStateCreationRequested, ""⟩
        "instance" ⟨memOccupiedListingFails, []⟩).2.trace
      = [Event.GetClusterInstallations
          { PerPage := AllPerPage, InstallationID := "i1", ClusterID := "", IDs := [],
            IncludeDeleted := false } [] none,
         Event.GetClusters { PerPage := AllPerPage, IncludeDeleted := false }
          [⟨"c1", ClusterStateStable⟩] none,
         Event.LockCluster "c1" "instance" true none,
         Event.GetClusterInstallations
          { PerPage := AllPerPage, InstallationID := "", ClusterID := "c1", IDs := [],
            IncludeDeleted := false } [] (some "GetClusterInstallations"),
         Event.NewID "n1",
         Event.CreateClusterInstallation
          ⟨"", "c1", "i1", "n1", ClusterInstallationStateCreationRequested⟩ none,
         Event.UnlockCluster "c1" "instance" false true none]
    ∧ (createInstallation memSupervisor ⟨"i1", InstallationStateCreationRequested, ""⟩
        "instance" ⟨memOccupiedListingFails, []⟩).2.st.clusterInstallations
      = [⟨"ci0", "c1", "i0", "ns0", ClusterInstallationStateStable⟩,
         ⟨"n1", "c1", "i1", "n1", ClusterInstallationStateCreationRequested⟩]
    ∧ ¬ singleTenancy
        (createInstallation memSupervisor ⟨"i1", InstallationStateCreationRequested, ""⟩
          "instance" ⟨memOccupiedListingFails, []⟩).2.st := by
  refine ⟨by decide, by decide, by decide, by decide⟩

/-- A `CreateClusterInstallation` call is made only on a Stable cluster. -/
theorem createClusterInstallation_create_stable (s : InstallationSupervisor σ)
    (cluster : Cluster) (installation : Installation) (instanceID : String) (w : World σ)
    (ci : ClusterInstallation) (err : error)
    (hmem : Event.CreateClusterInstallation ci err
      ∈ newEvents w (createClusterInstallation s cluster installation instanceID w).2) :
    cluster.State = ClusterStateStable := by
  by_contra hns
  rcases hl : s.store.LockCluster cluster.ID instanceID w.st with ⟨⟨locked, lerr⟩, st1⟩
  cases locked <;> cases lerr <;>
    simp [createClusterInstallation, clusterLockTryLock, clusterLockUnlock,
      installationStore.callLockCluster, installationStore.callUnlockCluster, hl, hns,
      newEvents, World.record] at hmem

/-- Every `CreateClusterInstallation` call of the loop of `createInstallation` is made on a
cluster of the list that passed the checks of `createClusterInstallation`. -/
theorem createInstallationLoop_create_eligible (s : InstallationSupervisor σ)
    (installation : Installation) (instanceID : String) (clusters : List Cluster)
    (w : World σ) :
    ∃ evs, (createInstallationLoop s installation instanceID clusters w).2.trace
        = w.trace ++ evs
      ∧ ∀ ci err, Event.CreateClusterInstallation ci err ∈ evs →
          ∃ cluster ∈ clusters, passesChecks instanceID evs cluster
            ∧ ci.ClusterID = cluster.ID := by
  induction clusters generalizing w with
  | nil => exact ⟨[], by simp [createInstallationLoop], by simp⟩
  | cons cluster clusters ih =>
    obtain ⟨evs1, htr1, hcase⟩ :=
      createClusterInstallation_cases s cluster installation instanceID w
    obtain ⟨evs2, htr2, hel2⟩ :=
      ih (createClusterInstallation s cluster installation instanceID w).2
    have hmono : ∀ c, passesChecks instanceID evs2 c →
        passesChecks instanceID (evs1 ++ evs2) c := by
      rintro c ⟨h1, h2, err, h3⟩
      exact ⟨List.mem_append_right _ h1, h2, err, List.mem_append_right _ h3⟩
    have hrest : ∀ ci err, Event.CreateClusterInstallation ci err ∈ evs2 →
        ∃ c ∈ cluster :: clusters, passesChecks instanceID (evs1 ++ evs2) c
          ∧ ci.ClusterID = c.ID := by
      intro ci err hmem
      obtain ⟨c, hc, hobs, hid⟩ := hel2 ci err hmem
      exact ⟨c, List.mem_cons_of_mem _ hc, hmono c hobs, hid⟩
    rcases hcase with ⟨hnone, hskip⟩ | ⟨hnone, lerr, n, msg, unlocked, uerr, hevs⟩
      | ⟨hst, lerr, n, unlocked, uerr, hsome, hevs⟩
    · have hstep : createInstallationLoop s installation instanceID (cluster :: clusters) w
          = createInstallationLoop s installation instanceID clusters
              (createClusterInstallation s cluster installation instanceID w).2 := by
        simp [createInstallationLoop, hnone]
      refine ⟨evs1 ++ evs2, by rw [hstep, htr2, htr1, List.append_assoc], ?_⟩
      intro ci err hmem
      rcases List.mem_append.mp hmem with h | h
      · have := (mem_createCalls evs1 ci err).mpr h
        rw [hskip.createCalls_eq_nil] at this
        simp at this
      · exact hrest ci err h
    · have hstep : createInstallationLoop s installation instanceID (cluster :: clusters) w
          = createInstallationLoop s installation instanceID clusters
              (createClusterInstallation s cluster installation instanceID w).2 := by
        simp [createInstallationLoop, hnone]
      refine ⟨evs1 ++ evs2, by rw [hstep, htr2, htr1, List.append_assoc], ?_⟩
      intro ci err hmem
      rcases List.mem_append.mp hmem with h | h
      · refine ⟨cluster, List.mem_cons_self _ _, ⟨?_, ?_, lerr, ?_⟩, ?_⟩
        · rw [hevs]; simp
        · exact createClusterInstallation_create_stable s cluster installation instanceID w
            _ _ (by rw [newEvents_of_trace _ _ _ htr1]; exact h)
        · rw [hevs]; simp
        · rw [hevs] at h
          simp only [List.mem_cons, List.mem_singleton, reduceCtorEq, false_or, or_false,
            Event.CreateClusterInstallation.injEq, List.not_mem_nil] at h
          rw [h.1]
      · exact hrest ci err h
    · have hstep : createInstallationLoop s installation instanceID (cluster :: clusters) w
          = (InstallationStateCreationRequested,
              (createClusterInstallation s cluster installation instanceID w).2) := by
        simp [createInstallationLoop, hsome]
      refine ⟨evs1, by rw [hstep, htr1], ?_⟩
      intro ci err hmem
      refine ⟨cluster, List.mem_cons_self _ _, ⟨?_, hst, lerr, ?_⟩, ?_⟩
      · rw [hevs]; simp
      · rw [hevs]; simp
      · rw [hevs] at hmem
        simp only [List.mem_cons, List.mem_singleton, reduceCtorEq, false_or, or_false,
          Event.CreateClusterInstallation.injEq, List.not_mem_nil] at hmem
        rw [hmem.1]

/-- What holds of the scan when no listing fails: for an installation in CreationRequested
without cluster installations, if no listing of cluster installations fails and no
cluster returned by the store is found lockable, Stable and free of cluster installations,
`createInstallation` returns the installation's current state, CreationRequested, and
makes no `CreateClusterInstallation` call: every cluster of the list is passed over. -/
theorem createInstallation_no_eligible_cluster (s : InstallationSupervisor σ)
    (installation : Installation) (instanceID : String) (w : World σ)
    (clusters : List Cluster) (st1 st2 : σ)
    (hstate : installation.State = InstallationStateCreationRequested)
    (h1 : s.store.GetClusterInstallations
      { PerPage := AllPerPage, InstallationID := installation.ID, ClusterID := "",
        IDs := [], IncludeDeleted := false } w.st = (([], none), st1))
    (h2 : s.store.GetClusters { PerPage := AllPerPage, IncludeDeleted := false } st1
      = ((clusters, none), st2))
    (hlist : ∀ e ∈ newEvents w (createInstallation s installation instanceID w).2,
      e.listingFailed = false)
    (hnone : ∀ cluster ∈ clusters, ¬ observedEligible instanceID
      (newEvents w (createInstallation s installation instanceID w).2) cluster) :
    (createInstallation s installation instanceID w).1 = installation.State
    ∧ (createInstallation s installation instanceID w).1 = InstallationStateCreationRequested
    ∧ (∀ ci err, Event.CreateClusterInstallation ci err
        ∉ newEvents w (createInstallation s installation instanceID w).2)
    ∧ ∃ segs : List Event,
        Skipped instanceID clusters segs
        ∧ newEvents w (createInstallation s installation instanceID w).2
          = Event.GetClusterInstallations
              { PerPage := AllPerPage, InstallationID := installation.ID, ClusterID := "",
                IDs := [], IncludeDeleted := false } [] none
            :: Event.GetClusters { PerPage := AllPerPage, IncludeDeleted := false }
                clusters none
            :: segs := by
  have heq := createInstallation_scan s installation instanceID w clusters st1 st2 h1 h2
  obtain ⟨evs, htr, -, hfit⟩ := createInstallationLoop_spec s installation instanceID
    clusters ⟨st2, w.trace ++
      [Event.GetClusterInstallations
        { PerPage := AllPerPage, InstallationID := installation.ID, ClusterID := "",
          IDs := [], IncludeDeleted := false } [] none,
       Event.GetClusters { PerPage := AllPerPage, IncludeDeleted := false }
        clusters none]⟩
  obtain ⟨evs2, htr2, hel⟩ := createInstallationLoop_create_eligible s installation
    instanceID clusters ⟨st2, w.trace ++
      [Event.GetClusterInstallations
        { PerPage := AllPerPage, InstallationID := installation.ID, ClusterID := "",
          IDs := [], IncludeDeleted := false } [] none,
       Event.GetClusters { PerPage := AllPerPage, IncludeDeleted := false }
        clusters none]⟩
  have hev : evs2 = evs := List.append_cancel_left (htr2.symm.trans htr)
  subst hev
  have hE : newEvents w (createInstallation s installation instanceID w).2
      = Event.GetClusterInstallations
          { PerPage := AllPerPage, InstallationID := installation.ID, ClusterID := "",
            IDs := [], IncludeDeleted := false } [] none
        :: Event.GetClusters { PerPage := AllPerPage, IncludeDeleted := false }
            clusters none
        :: evs2 := by
    rw [heq]
    unfold newEvents
    rw [htr]
    simp
  rw [hE] at hnone hlist
  have hnocreate : ∀ ci err, Event.CreateClusterInstallation ci err ∉ evs2 := by
    intro ci err hmem
    obtain ⟨c, hc, ⟨hl, hs, lerr, hg⟩, -⟩ := hel ci err hmem
    have hfail := hlist _ (List.mem_cons_of_mem _ (List.mem_cons_of_mem _ hg))
    cases lerr with
    | some msg => simp [Event.listingFailed] at hfail
    | none =>
      exact hnone c hc ⟨List.mem_cons_of_mem _ (List.mem_cons_of_mem _ hl), hs,
        List.mem_cons_of_mem _ (List.mem_cons_of_mem _ hg)⟩
  have hcalls : createCalls evs2 = [] := by
    apply List.eq_nil_iff_forall_not_mem.mpr
    rintro ⟨ci, err⟩ hmem
    exact hnocreate ci err ((mem_createCalls evs2 ci err).mp hmem)
  rcases hfit (by rw [hcalls]; simp) with ⟨hres, hsk⟩
    | ⟨-, pre, cluster, post, segs, lerr, n, unlocked, uerr, -, -, -, hevs⟩
  · refine ⟨by rw [heq, hres], by rw [heq, hres, hstate], ?_, evs2, hsk, hE⟩
    intro ci err hmem
    rw [hE] at hmem
    simp only [List.mem_cons, reduceCtorEq, false_or] at hmem
    exact hnocreate ci err hmem
  · exfalso
    refine hnocreate ⟨"", cluster.ID, installation.ID, n,
      ClusterInstallationStateCreationRequested⟩ none ?_
    rw [hevs]
    simp

/-- The scan at a concrete store: `c0` is locked by another owner, `c1` is not stable and
`c2` hosts a failed cluster installation; nothing is created. -/
theorem createInstallation_no_eligible_cluster_witness :
    (createInstallation memSupervisor ⟨"i1", InstallationStateCreationRequested, ""⟩
        "instance" ⟨memNoEligibleCluster, []⟩).1 = InstallationStateCreationRequested
    ∧ (createInstallation memSupervisor ⟨"i1", InstallationStateCreationRequested, ""⟩
        "instance" ⟨memNoEligibleCluster, []⟩).2.st.clusterInstallations
      = memNoEligibleCluster.clusterInstallations :=
  ⟨(createInstallation_no_eligible_cluster memSupervisor
      ⟨"i1", InstallationStateCreationRequested, ""⟩ "instance" ⟨memNoEligibleCluster, []⟩
      memNoEligibleCluster.clusters memNoEligibleCluster memNoEligibleCluster rfl rfl rfl
      (by decide) (by decide)).2.1,
   by decide⟩

/-- C13, the code at the failing input: the only cluster, `c1`, hosts a stable cluster
installation, so no cluster returned by the store is free of cluster installations; the
listing of the cluster installations of `c1` fails, `createInstallation` takes `c1` for
free and makes a `CreateClusterInstallation` call on it. -/
theorem createInstallation_creates_without_free_cluster :
    (∀ cluster ∈ memOccupiedListingFails.clusters,
      ∃ ci ∈ memOccupiedListingFails.clusterInstallations,
        ci.ClusterID = cluster.ID ∧ ci.State ≠ ClusterInstallationStateDeleted)
    ∧ (createInstallation memSupervisor ⟨"i1", InstallationStateCreationRequested, ""⟩
        "instance" ⟨memOccupiedListingFails, []⟩).1 = InstallationStateCreationRequested
    ∧ createCalls (newEvents ⟨memOccupiedListingFails, []⟩
        (createInstallation memSupervisor ⟨"i1", InstallationStateCreationRequested, ""⟩
          "instance" ⟨memOccupiedListingFails, []⟩).2)
      = [(⟨"", "c1", "i1", "n1", ClusterInstallationStateCreationRequested⟩, none)] := by
  refine ⟨by decide, by decide, by decide⟩

/-! ### Delete: the calls of a pass -/

theorem eligibleForDeletion_deletable (installation : Installation)
    (ci : ClusterInstallation) (h : eligibleForDeletion installation ci) :
    deletable ci.State := by
  rcases h with h | h | h | ⟨h, -⟩
  · exact Or.inl h
  · exact Or.inr (Or.inl h)
  · exact Or.inr (Or.inr (Or.inl h))
  · exact Or.inr (Or.inr (Or.inr (Or.inr (Or.inl h))))

/-- A child in one of the six states that is not eligible is skipped by the loop of
`deleteInstallation`: the loop goes on with the rest of the list, with other counters. -/
theorem deleteInstallationLoop_cons_skipped (s : InstallationSupervisor σ)
    (installation : Installation) (ci : ClusterInstallation)
    (cis : List ClusterInstallation) (counts : DeleteCounts) (w : World σ)
    (hd : deletable ci.State) (hne : ¬ eligibleForDeletion installation ci) :
    ∃ counts2, deleteInstallationLoop s installation (ci :: cis) counts w
      = deleteInstallationLoop s installation cis counts2 w := by
  rcases hd with h | h | h | h | h | h
  · exact absurd (Or.inl h) hne
  · exact absurd (Or.inr (Or.inl h)) hne
  · exact absurd (Or.inr (Or.inr (Or.inl h))) hne
  · exact ⟨_, deleteInstallationLoop_cons_deleting s installation ci cis counts w h⟩
  · by_cases hin : installation.State = InstallationStateDeletionInProgress
    · exact ⟨_, deleteInstallationLoop_cons_failed s installation ci cis counts w h hin⟩
    · exact absurd (Or.inr (Or.inr (Or.inr ⟨h, hin⟩))) hne
  · exact ⟨_, deleteInstallationLoop_cons_deleted s installation ci cis counts w h⟩

/-- The three kinds of run of the loop of `deleteInstallation`: it runs to its end and has
persisted every eligible child in state DeletionRequested; or it stops at the first child
in an unexpected state, with DeletionFailed; or it stops at the first child that cannot be
persisted, with the state of the installation. -/
theorem deleteInstallationLoop_run (s : InstallationSupervisor σ)
    (installation : Installation) (cis : List ClusterInstallation) (counts : DeleteCounts)
    (w : World σ) :
    ((∀ ci ∈ cis, deletable ci.State)
      ∧ (∃ c, (deleteInstallationLoop s installation cis counts w).1 = Except.ok c)
      ∧ (deleteInstallationLoop s installation cis counts w).2.trace
        = w.trace ++ deletionRequests (cis.filter (eligibleForDeletion installation)))
    ∨ (∃ pre ci post, cis = pre ++ ci :: post
        ∧ (∀ x ∈ pre, deletable x.State) ∧ ¬ deletable ci.State
        ∧ (deleteInstallationLoop s installation cis counts w).1
          = Except.error InstallationStateDeletionFailed
        ∧ (deleteInstallationLoop s installation cis counts w).2.trace
          = w.trace ++ deletionRequests (pre.filter (eligibleForDeletion installation)))
    ∨ (∃ pre ci post msg, cis = pre ++ ci :: post
        ∧ (∀ x ∈ pre, deletable x.State) ∧ eligibleForDeletion installation ci
        ∧ (deleteInstallationLoop s installation cis counts w).1
          = Except.error installation.State
        ∧ (deleteInstallationLoop s installation cis counts w).2.trace
          = w.trace ++ (deletionRequests (pre.filter (eligibleForDeletion installation))
              ++ [Event.UpdateClusterInstallation
                    { ci with State := ClusterInstallationStateDeletionRequested }
                    (some msg)])) := by
  induction cis generalizing counts w with
  | nil =>
    exact Or.inl ⟨by simp, ⟨counts, rfl⟩, by simp [deleteInstallationLoop, deletionRequests]⟩
  | cons ci cis ih =>
    by_cases hd : deletable ci.State
    · by_cases hel : eligibleForDeletion installation ci
      · have hstep := deleteInstallationLoop_cons_eligible s installation ci cis counts w hel
        rcases hu : s.store.UpdateClusterInstallation
          { ci with State := ClusterInstallationStateDeletionRequested } w.st with ⟨err, st1⟩
        cases err with
        | some msg =>
          refine Or.inr (Or.inr ⟨[], ci, cis, msg, rfl, by simp, hel, ?_, ?_⟩)
          · rw [hstep]
            simp [installationStore.callUpdateClusterInstallation, hu]
          · rw [hstep]
            simp [installationStore.callUpdateClusterInstallation, hu, World.record,
              deletionRequests]
        | none =>
          have hstep2 : deleteInstallationLoop s installation (ci :: cis) counts w
              = deleteInstallationLoop s installation cis
                  { counts with
                    deletingClusterInstallations := counts.deletingClusterInstallations + 1 }
                  ⟨st1, w.trace ++ [Event.UpdateClusterInstallation
                    { ci with State := ClusterInstallationStateDeletionRequested } none]⟩ := by
            rw [hstep]
            simp [installationStore.callUpdateClusterInstallation, hu, World.record]
          rw [hstep2]
          rcases ih _ _ with ⟨hall, hok, htr⟩ | ⟨pre, c, post, hcis, hpre, hc, hres, htr⟩
            | ⟨pre, c, post, msg, hcis, hpre, hc, hres, htr⟩
          · refine Or.inl ⟨?_, hok, ?_⟩
            · intro x hx
              rcases List.mem_cons.mp hx with rfl | hx
              · exact hd
              · exact hall x hx
            · rw [htr, List.filter_cons_of_pos (by simpa using hel)]
              simp [deletionRequests]
          · refine Or.inr (Or.inl ⟨ci :: pre, c, post, by rw [hcis]; rfl, ?_, hc, hres, ?_⟩)
            · intro x hx
              rcases List.mem_cons.mp hx with rfl | hx
              · exact hd
              · exact hpre x hx
            · rw [htr, List.filter_cons_of_pos (by simpa using hel)]
              simp [deletionRequests]
          · refine Or.inr (Or.inr ⟨ci :: pre, c, post, msg, by rw [hcis]; rfl, ?_, hc, hres,
              ?_⟩)
            · intro x hx
              rcases List.mem_cons.mp hx with rfl | hx
              · exact hd
              · exact hpre x hx
            · rw [htr, List.filter_cons_of_pos (by simpa using hel)]
              simp [deletionRequests]
      · obtain ⟨counts2, hstep⟩ :=
          deleteInstallationLoop_cons_skipped s installation ci cis counts w hd hel
        rw [hstep]
        rcases ih counts2 w with ⟨hall, hok, htr⟩ | ⟨pre, c, post, hcis, hpre, hc, hres, htr⟩
          | ⟨pre, c, post, msg, hcis, hpre, hc, hres, htr⟩
        · refine Or.inl ⟨?_, hok, ?_⟩
          · intro x hx
            rcases List.mem_cons.mp hx with rfl | hx
            · exact hd
            · exact hall x hx
          · rw [htr, List.filter_cons_of_neg (by simpa using hel)]
        · refine Or.inr (Or.inl ⟨ci :: pre, c, post, by rw [hcis]; rfl, ?_, hc, hres, ?_⟩)
          · intro x hx
            rcases List.mem_cons.mp hx with rfl | hx
            · exact hd
            · exact hpre x hx
          · rw [htr, List.filter_cons_of_neg (by simpa using hel)]
        · refine Or.inr (Or.inr ⟨ci :: pre, c, post, msg, by rw [hcis]; rfl, ?_, hc, hres,
            ?_⟩)
          · intro x hx
            rcases List.mem_cons.mp hx with rfl | hx
            · exact hd
            · exact hpre x hx
          · rw [htr, List.filter_cons_of_neg (by simpa using hel)]
    · have hres := deleteInstallationLoop_cons_other s installation ci cis counts w hd
      refine Or.inr (Or.inl ⟨[], ci, cis, rfl, by simp, hd, by rw [hres], ?_⟩)
      rw [hres]
      simp [deletionRequests]

/-- The kinds of run of the end of `deleteInstallation`: the pass runs to its end, and
then either no other call is made or the installation record is deleted; or the pass
stops at a child in an unexpected state; or it stops at a child that cannot be
persisted. -/
theorem deleteInstallationFinish_run (s : InstallationSupervisor σ)
    (installation : Installation) (cis : List ClusterInstallation) (w : World σ) :
    ((∀ ci ∈ cis, deletable ci.State)
      ∧ ((deleteInstallationFinish s installation cis w).2.trace
          = w.trace ++ deletionRequests (cis.filter (eligibleForDeletion installation))
        ∨ ∃ xerr, (deleteInstallationFinish s installation cis w).2.trace
            = w.trace ++ (deletionRequests (cis.filter (eligibleForDeletion installation))
                ++ [Event.DeleteInstallation installation.ID xerr])
          ∧ (deleteInstallationFinish s installation cis w).1
            = if xerr ≠ none then installation.State else InstallationStateDeleted))
    ∨ (∃ pre ci post, cis = pre ++ ci :: post
        ∧ (∀ x ∈ pre, deletable x.State) ∧ ¬ deletable ci.State
        ∧ (deleteInstallationFinish s installation cis w).1 = InstallationStateDeletionFailed
        ∧ (deleteInstallationFinish s installation cis w).2.trace
          = w.trace ++ deletionRequests (pre.filter (eligibleForDeletion installation)))
    ∨ (∃ pre ci post msg, cis = pre ++ ci :: post
        ∧ (∀ x ∈ pre, deletable x.State) ∧ eligibleForDeletion installation ci
        ∧ (deleteInstallationFinish s installation cis w).1 = installation.State
        ∧ (deleteInstallationFinish s installation cis w).2.trace
          = w.trace ++ (deletionRequests (pre.filter (eligibleForDeletion installation))
              ++ [Event.UpdateClusterInstallation
                    { ci with State := ClusterInstallationStateDeletionRequested }
                    (some msg)])) := by
  rcases deleteInstallationLoop_run s installation cis ⟨0, 0, 0⟩ w with
    ⟨hall, ⟨c, hok⟩, htr⟩ | ⟨pre, ci, post, hcis, hpre, hc, hres, htr⟩
    | ⟨pre, ci, post, msg, hcis, hpre, hc, hres, htr⟩
  · refine Or.inl ⟨hall, ?_⟩
    by_cases hf : c.failedClusterInstallations > 0
    · left
      simp only [deleteInstallationFinish, hok, hf, if_true]
      exact htr
    · by_cases hd : c.deletedClusterInstallations < cis.length
      · left
        simp only [deleteInstallationFinish, hok, hf, hd, if_true, if_false]
        exact htr
      · right
        refine ⟨(s.store.DeleteInstallation installation.ID
          (deleteInstallationLoop s installation cis ⟨0, 0, 0⟩ w).2.st).1, ?_, ?_⟩
        · simp only [deleteInstallationFinish, hok, hf, hd, if_false,
            installationStore.callDeleteInstallation]
          split <;> simp [World.record, htr]
        · simp only [deleteInstallationFinish, hok, hf, hd, if_false,
            installationStore.callDeleteInstallation]
          split <;> rfl
  · refine Or.inr (Or.inl ⟨pre, ci, post, hcis, hpre, hc, ?_, ?_⟩)
    · simp [deleteInstallationFinish, hres]
    · simp only [deleteInstallationFinish, hres]
      exact htr
  · refine Or.inr (Or.inr ⟨pre, ci, post, msg, hcis, hpre, hc, ?_, ?_⟩)
    · simp [deleteInstallationFinish, hres]
    · simp only [deleteInstallationFinish, hres]
      exact htr

/-- The kinds of run of `deleteInstallation`: the first listing fails; or the batch lock is
not acquired; or the re-read under the lock fails; or the pass runs, on the empty first
listing or on the re-read snapshot between the lock and the unlock.  In the first three
the state of the installation is returned. -/
theorem deleteInstallation_run (s : InstallationSupervisor σ)
    (installation : Installation) (instanceID : String) (w : World σ) :
    ((deleteInstallation s installation instanceID w).1 = installation.State
      ∧ ((∃ first msg, newEvents w (deleteInstallation s installation instanceID w).2
            = [Event.GetClusterInstallations
                { PerPage := AllPerPage, InstallationID := installation.ID, ClusterID := "",
                  IDs := [], IncludeDeleted := true } first (some msg)])
        ∨ (∃ first locked lerr, ¬ (locked = true ∧ lerr = none)
            ∧ newEvents w (deleteInstallation s installation instanceID w).2
              = [Event.GetClusterInstallations
                  { PerPage := AllPerPage, InstallationID := installation.ID,
                    ClusterID := "", IDs := [], IncludeDeleted := true } first none,
                 Event.LockClusterInstallations (first.map (fun ci => ci.ID)) instanceID
                  locked lerr])
        ∨ (∃ first snapshot msg unlocked uerr,
            newEvents w (deleteInstallation s installation instanceID w).2
              = [Event.GetClusterInstallations
                  { PerPage := AllPerPage, InstallationID := installation.ID,
                    ClusterID := "", IDs := [], IncludeDeleted := true } first none,
                 Event.LockClusterInstallations (first.map (fun ci => ci.ID)) instanceID
                  true none,
                 Event.GetClusterInstallations
                  { PerPage := AllPerPage, InstallationID := "", ClusterID := "",
                    IDs := first.map (fun ci => ci.ID), IncludeDeleted := true }
                  snapshot (some msg),
                 Event.UnlockClusterInstallations (first.map (fun ci => ci.ID)) instanceID
                  false unlocked uerr])))
    ∨ ∃ (first snapshot : List ClusterInstallation) (w0 : World σ) (pre post : List Event),
        newEvents w (deleteInstallation s installation instanceID w).2
          = pre ++ newEvents w0 (deleteInstallationFinish s installation snapshot w0).2 ++ post
        ∧ (deleteInstallation s installation instanceID w).1
          = (deleteInstallationFinish s installation snapshot w0).1
        ∧ ((first = [] ∧ snapshot = []
            ∧ pre = [Event.GetClusterInstallations
                { PerPage := AllPerPage, InstallationID := installation.ID, ClusterID := "",
                  IDs := [], IncludeDeleted := true } [] none]
            ∧ post = [])
          ∨ (first ≠ []
            ∧ pre = [Event.GetClusterInstallations
                { PerPage := AllPerPage, InstallationID := installation.ID, ClusterID := "",
                  IDs := [], IncludeDeleted := true } first none,
               Event.LockClusterInstallations (first.map (fun ci => ci.ID)) instanceID
                true none,
               Event.GetClusterInstallations
                { PerPage := AllPerPage, InstallationID := "", ClusterID := "",
                  IDs := first.map (fun ci => ci.ID), IncludeDeleted := true }
                snapshot none]
            ∧ ∃ unlocked uerr,
                post = [Event.UnlockClusterInstallations (first.map (fun ci => ci.ID))
                  instanceID false unlocked uerr])) := by
  rcases h1 : s.store.GetClusterInstallations
    { PerPage := AllPerPage, InstallationID := installation.ID, ClusterID := "",
      IDs := [], IncludeDeleted := true } w.st with ⟨⟨first, err⟩, st1⟩
  cases err with
  | some msg =>
    left
    refine ⟨?_, Or.inl ⟨first, msg, ?_⟩⟩ <;>
      simp [deleteInstallation, installationStore.callGetClusterInstallations, h1, newEvents,
        World.record]
  | none =>
    cases first with
    | nil =>
      right
      obtain ⟨evs, htr, -⟩ := deleteInstallationFinish_spec s installation []
        (w.record st1 (Event.GetClusterInstallations
          { PerPage := AllPerPage, InstallationID := installation.ID, ClusterID := "",
            IDs := [], IncludeDeleted := true } [] none))
      have heq : deleteInstallation s installation instanceID w
          = deleteInstallationFinish s installation []
              (w.record st1 (Event.GetClusterInstallations
                { PerPage := AllPerPage, InstallationID := installation.ID, ClusterID := "",
                  IDs := [], IncludeDeleted := true } [] none)) := by
        simp [deleteInstallation, installationStore.callGetClusterInstallations, h1]
      refine ⟨[], [], _, [Event.GetClusterInstallations
          { PerPage := AllPerPage, InstallationID := installation.ID, ClusterID := "",
            IDs := [], IncludeDeleted := true } [] none], [], ?_, by rw [heq],
        Or.inl ⟨rfl, rfl, rfl, rfl⟩⟩
      rw [heq, newEvents_of_trace _ _ _ htr]
      unfold newEvents
      rw [htr]
      simp [World.record]
    | cons c0 rest =>
      rcases hl : s.store.LockClusterInstallations ((c0 :: rest).map (fun ci => ci.ID))
        instanceID st1 with ⟨⟨locked, lerr⟩, st2⟩
      by_cases hacq : locked = true ∧ lerr = none
      · obtain ⟨rfl, rfl⟩ := hacq
        rcases h2 : s.store.GetClusterInstallations
          { PerPage := AllPerPage, InstallationID := "", ClusterID := "",
            IDs := (c0 :: rest).map (fun ci => ci.ID), IncludeDeleted := true } st2
          with ⟨⟨snapshot, err2⟩, st3⟩
        cases err2 with
        | some msg =>
          left
          rcases hu : s.store.UnlockClusterInstallations
            ((c0 :: rest).map (fun ci => ci.ID)) instanceID false st3
            with ⟨⟨unlocked, uerr⟩, st4⟩
          refine ⟨?_, Or.inr (Or.inr ⟨c0 :: rest, snapshot, msg, unlocked, uerr, ?_⟩)⟩
          · simp only [deleteInstallation, installationStore.callGetClusterInstallations, h1,
              clusterInstallationLocksTryLock, installationStore.callLockClusterInstallations,
              hl, World.record_st, h2]
            simp
          · simp only [deleteInstallation, installationStore.callGetClusterInstallations, h1,
              clusterInstallationLocksTryLock, installationStore.callLockClusterInstallations,
              hl, World.record_st, h2, clusterInstallationLocksUnlock,
              installationStore.callUnlockClusterInstallations]
            simp only [ne_eq, reduceCtorEq, not_false_eq_true, if_true, not_true_eq_false,
              if_false, List.length_cons, gt_iff_lt, Nat.zero_lt_succ, Bool.true_eq_false,
              World.record_st, hu]
            simp [newEvents, World.record]
        | none =>
          right
          obtain ⟨w0, hw0⟩ : ∃ w0 : World σ, w0 = ⟨st3, w.trace ++
              [Event.GetClusterInstallations
                { PerPage := AllPerPage, InstallationID := installation.ID, ClusterID := "",
                  IDs := [], IncludeDeleted := true } (c0 :: rest) none,
              Event.LockClusterInstallations ((c0 :: rest).map (fun ci => ci.ID)) instanceID
                true none,
              Event.GetClusterInstallations
                { PerPage := AllPerPage, InstallationID := "", ClusterID := "",
                  IDs := (c0 :: rest).map (fun ci => ci.ID), IncludeDeleted := true }
                snapshot none]⟩ := ⟨_, rfl⟩
          obtain ⟨evs, htr, -⟩ := deleteInstallationFinish_spec s installation snapshot w0
          have heq : deleteInstallation s installation instanceID w
              = ((deleteInstallationFinish s installation snapshot w0).1,
                 clusterInstallationLocksUnlock s.store ((c0 :: rest).map (fun ci => ci.ID))
                  instanceID (deleteInstallationFinish s installation snapshot w0).2) := by
            rw [hw0]
            simp only [deleteInstallation, installationStore.callGetClusterInstallations, h1,
              clusterInstallationLocksTryLock, installationStore.callLockClusterInstallations,
              hl, World.record_st, h2, World.record]
            simp
          refine ⟨c0 :: rest, snapshot, w0, _, _, ?_, by rw [heq],
            Or.inr ⟨by simp, rfl,
              (s.store.UnlockClusterInstallations ((c0 :: rest).map (fun ci => ci.ID))
                instanceID false
                (deleteInstallationFinish s installation snapshot w0).2.st).1.1,
              (s.store.UnlockClusterInstallations ((c0 :: rest).map (fun ci => ci.ID))
                instanceID false
                (deleteInstallationFinish s installation snapshot w0).2.st).1.2, rfl⟩⟩
          rw [heq, newEvents_of_trace _ _ _ htr]
          simp only [newEvents, clusterInstallationLocksUnlock,
            installationStore.callUnlockClusterInstallations, World.record, htr]
          subst hw0
          simp
      · left
        have hl2 : (if lerr ≠ none then false else locked) = false := by
          cases lerr <;> cases locked <;> simp_all
        have heq : deleteInstallation s installation instanceID w
            = (installation.State,
                (w.record st1 (Event.GetClusterInstallations
                  { PerPage := AllPerPage, InstallationID := installation.ID,
                    ClusterID := "", IDs := [], IncludeDeleted := true } (c0 :: rest)
                    none)).record st2
                  (Event.LockClusterInstallations ((c0 :: rest).map (fun ci => ci.ID))
                    instanceID locked lerr)) := by
          simp only [deleteInstallation, installationStore.callGetClusterInstallations, h1,
            clusterInstallationLocksTryLock, installationStore.callLockClusterInstallations,
            hl, World.record_st, hl2]
          simp
        rw [heq]
        exact ⟨rfl, Or.inr (Or.inl ⟨c0 :: rest, locked, lerr, hacq,
          by simp [newEvents, World.record]⟩)⟩

theorem updateCalls_append (l1 l2 : List Event) :
    updateCalls (l1 ++ l2) = updateCalls l1 ++ updateCalls l2 := by
  simp [updateCalls, List.filterMap_append]

theorem updateCalls_deletionRequests (cis : List ClusterInstallation) :
    updateCalls (deletionRequests cis)
      = cis.map (fun ci =>
          ({ ci with State := ClusterInstallationStateDeletionRequested }, none)) := by
  induction cis with
  | nil => rfl
  | cons ci cis ih =>
    simp only [deletionRequests, updateCalls, List.map_cons, List.filterMap_cons] at ih ⊢
    rw [ih]

theorem snapshotOf_deletionRequests (l : List Event) (cis : List ClusterInstallation) :
    snapshotOf (l ++ deletionRequests cis) = snapshotOf l := by
  apply snapshotOf_append_quiet
  intro filter answer err hmem
  simp [deletionRequests] at hmem

theorem abortsDeletion_deletionRequests (cis : List ClusterInstallation) :
    ∀ e ∈ deletionRequests cis, e.abortsDeletion = false := by
  intro e he
  simp only [deletionRequests, List.mem_map] at he
  obtain ⟨ci, -, rfl⟩ := he
  rfl

theorem deleteInstallation_mem_deletionRequests (cis : List ClusterInstallation) (id : String)
    (err : error) : Event.DeleteInstallation id err ∉ deletionRequests cis := by
  simp [deletionRequests]

/-- The first element of a list that violates a predicate is determined by the list. -/
theorem first_violation_unique {α : Type} (P : α → Prop) :
    ∀ (p p2 : List α) (c c2 : α) (q q2 : List α), p ++ c :: q = p2 ++ c2 :: q2 →
      (∀ x ∈ p, P x) → ¬ P c → (∀ x ∈ p2, P x) → ¬ P c2 → p = p2 ∧ c = c2 ∧ q = q2
  | [], [], c, c2, q, q2, h, _, _, _, _ => by
    simp only [List.nil_append, List.cons.injEq] at h
    exact ⟨rfl, h.1, h.2⟩
  | [], y :: p2, c, c2, q, q2, h, _, hc, hp2, _ => by
    simp only [List.nil_append, List.cons_append, List.cons.injEq] at h
    exact absurd (h.1 ▸ hp2 y (List.mem_cons_self _ _)) hc
  | x :: p, [], c, c2, q, q2, h, hp, _, _, hc2 => by
    simp only [List.nil_append, List.cons_append, List.cons.injEq] at h
    exact absurd (h.1 ▸ hp x (List.mem_cons_self _ _)) hc2
  | x :: p, y :: p2, c, c2, q, q2, h, hp, hc, hp2, hc2 => by
    simp only [List.cons_append, List.cons.injEq] at h
    obtain ⟨h1, h2, h3⟩ := first_violation_unique P p p2 c c2 q q2 h.2
      (fun z hz => hp z (List.mem_cons_of_mem _ hz)) hc
      (fun z hz => hp2 z (List.mem_cons_of_mem _ hz)) hc2
    exact ⟨by rw [h.1, h1], h2, h3⟩

/-- What the calls around the pass of `deleteInstallation` are: the calls before it
produce the snapshot, and neither they nor the unlock after it persist a child, delete
the installation record, or fail. -/
theorem deleteInstallation_frame (installation : Installation) (instanceID : String)
    (first snapshot : List ClusterInstallation) (pre post : List Event)
    (h : (first = [] ∧ snapshot = []
            ∧ pre = [Event.GetClusterInstallations
                { PerPage := AllPerPage, InstallationID := installation.ID, ClusterID := "",
                  IDs := [], IncludeDeleted := true } [] none]
            ∧ post = [])
          ∨ (first ≠ []
            ∧ pre = [Event.GetClusterInstallations
                { PerPage := AllPerPage, InstallationID := installation.ID, ClusterID := "",
                  IDs := [], IncludeDeleted := true } first none,
               Event.LockClusterInstallations (first.map (fun ci => ci.ID)) instanceID
                true none,
               Event.GetClusterInstallations
                { PerPage := AllPerPage, InstallationID := "", ClusterID := "",
                  IDs := first.map (fun ci => ci.ID), IncludeDeleted := true }
                snapshot none]
            ∧ ∃ unlocked uerr,
                post = [Event.UnlockClusterInstallations (first.map (fun ci => ci.ID))
                  instanceID false unlocked uerr])) :
    snapshotOf pre = snapshot
    ∧ (∀ filter cis err, Event.GetClusterInstallations filter cis err ∉ post)
    ∧ updateCalls pre = [] ∧ updateCalls post = []
    ∧ (∀ id err, Event.DeleteInstallation id err ∉ pre)
    ∧ (∀ id err, Event.DeleteInstallation id err ∉ post)
    ∧ (∀ e ∈ pre, e.abortsDeletion = false)
    ∧ (∀ e ∈ post, e.abortsDeletion = false) := by
  rcases h with ⟨rfl, rfl, rfl, rfl⟩ | ⟨-, rfl, unlocked, uerr, rfl⟩ <;>
    simp [snapshotOf, updateCalls, Event.abortsDeletion, Event.abortsPass]

theorem filter_eligible_of_deleted (installation : Installation)
    (cis : List ClusterInstallation)
    (h : ∀ ci ∈ cis, ci.State = ClusterInstallationStateDeleted) :
    cis.filter (eligibleForDeletion installation) = [] := by
  apply List.filter_eq_nil_iff.mpr
  intro ci hci
  have hs := h ci hci
  simp only [decide_eq_true_eq]
  rintro (h1 | h1 | h1 | ⟨h1, -⟩) <;> rw [hs] at h1 <;> exact absurd h1 (by decide)

/-- C3: for an installation in DeletionRequested or DeletionInProgress (the states for
which `deleteInstallation` is dispatched), `deleteInstallation` calls
`store.DeleteInstallation` (for the installation) only when every child of the locked
snapshot is in state Deleted, and so no child was counted as a hard failure.  A run with
such a call is one of two: with zero children, the listing of the children answers the
empty list and the call follows; otherwise the children are listed, their batch lock is
acquired, the re-read under the lock answers children that are all Deleted, the call
follows and the lock is released.  And `deleteInstallation` returns Deleted exactly when
that call is made and succeeds. -/
theorem deleteInstallation_deletes_record (s : InstallationSupervisor σ)
    (installation : Installation) (instanceID : String) (w : World σ)
    (hstate : installation.State = InstallationStateDeletionRequested
      ∨ installation.State = InstallationStateDeletionInProgress) :
    (∀ id err, Event.DeleteInstallation id err
        ∈ newEvents w (deleteInstallation s installation instanceID w).2 →
      id = installation.ID
      ∧ (∀ ci ∈ snapshotOf (newEvents w (deleteInstallation s installation instanceID w).2),
          ci.State = ClusterInstallationStateDeleted)
      ∧ ¬ (installation.State = InstallationStateDeletionInProgress
          ∧ ∃ ci ∈ snapshotOf
              (newEvents w (deleteInstallation s installation instanceID w).2),
              ci.State = ClusterInstallationStateDeletionFailed)
      ∧ (newEvents w (deleteInstallation s installation instanceID w).2
          = [Event.GetClusterInstallations
              { PerPage := AllPerPage, InstallationID := installation.ID, ClusterID := "",
                IDs := [], IncludeDeleted := true } [] none,
             Event.DeleteInstallation installation.ID err]
        ∨ ∃ (first snapshot : List ClusterInstallation) (unlocked : Bool) (uerr : error),
            first ≠ []
            ∧ (∀ ci ∈ snapshot, ci.State = ClusterInstallationStateDeleted)
            ∧ newEvents w (deleteInstallation s installation instanceID w).2
              = [Event.GetClusterInstallations
                  { PerPage := AllPerPage, InstallationID := installation.ID,
                    ClusterID := "", IDs := [], IncludeDeleted := true } first none,
                 Event.LockClusterInstallations (first.map (fun ci => ci.ID)) instanceID
                  true none,
                 Event.GetClusterInstallations
                  { PerPage := AllPerPage, InstallationID := "", ClusterID := "",
                    IDs := first.map (fun ci => ci.ID), IncludeDeleted := true }
                  snapshot none,
                 Event.DeleteInstallation installation.ID err,
                 Event.UnlockClusterInstallations (first.map (fun ci => ci.ID)) instanceID
                  false unlocked uerr]))
    ∧ ((deleteInstallation s installation instanceID w).1 = InstallationStateDeleted
        ↔ ∃ id, Event.DeleteInstallation id none
            ∈ newEvents w (deleteInstallation s installation instanceID w).2) := by
  obtain ⟨hcall, hiff⟩ := deleteInstallation_delete_call s installation instanceID w hstate
  refine ⟨fun id err hmem => ?_, hiff⟩
  obtain ⟨hid, hall, hnf⟩ := hcall id err hmem
  refine ⟨hid, hall, hnf, ?_⟩
  rcases deleteInstallation_run s installation instanceID w with
    ⟨-, ⟨first, msg, hE⟩ | ⟨first, locked, lerr, hna, hE⟩
      | ⟨first, snapshot, msg, unlocked, uerr, hE⟩⟩
    | ⟨first, snapshot, w0, pre, post, hE, -, hshape⟩
  · rw [hE] at hmem
    simp at hmem
  · rw [hE] at hmem
    simp at hmem
  · rw [hE] at hmem
    simp at hmem
  · obtain ⟨hsnap, hq, -, -, hd1, hd2, -, -⟩ :=
      deleteInstallation_frame installation instanceID first snapshot pre post hshape
    rcases deleteInstallationFinish_run s installation snapshot w0 with
      ⟨-, htr | ⟨xerr, htr, -⟩⟩ | ⟨p, c, q, -, -, -, -, htr⟩
      | ⟨p, c, q, msg, -, -, -, -, htr⟩
    · rw [newEvents_of_trace _ _ _ htr] at hE
      rw [hE] at hmem
      rcases List.mem_append.mp hmem with h | h
      · rcases List.mem_append.mp h with h | h
        · exact absurd h (hd1 id err)
        · exact absurd h (deleteInstallation_mem_deletionRequests _ id err)
      · exact absurd h (hd2 id err)
    · rw [newEvents_of_trace _ _ _ htr] at hE
      have hS : snapshotOf (newEvents w (deleteInstallation s installation instanceID w).2)
          = snapshot := by
        rw [hE, snapshotOf_append_quiet _ _ hq, ← List.append_assoc,
          snapshotOf_append_quiet _ [Event.DeleteInstallation installation.ID xerr]
            (by simp), snapshotOf_deletionRequests, hsnap]
      rw [hS] at hall
      have hreq : deletionRequests (snapshot.filter (eligibleForDeletion installation))
          = [] := by
        rw [filter_eligible_of_deleted installation snapshot hall]
        rfl
      rw [hreq, List.nil_append] at hE
      have herr : err = xerr := by
        rw [hE] at hmem
        rcases List.mem_append.mp hmem with h | h
        · rcases List.mem_append.mp h with h | h
          · exact absurd h (hd1 id err)
          · simp only [List.mem_singleton, Event.DeleteInstallation.injEq] at h
            exact h.2
        · exact absurd h (hd2 id err)
      subst herr
      rcases hshape with ⟨-, -, rfl, rfl⟩ | ⟨hne, rfl, unlocked, uerr, rfl⟩
      · left
        rw [hE]
        rfl
      · right
        exact ⟨first, snapshot, unlocked, uerr, hne, hall, by rw [hE]; rfl⟩
    · rw [newEvents_of_trace _ _ _ htr] at hE
      rw [hE] at hmem
      rcases List.mem_append.mp hmem with h | h
      · rcases List.mem_append.mp h with h | h
        · exact absurd h (hd1 id err)
        · exact absurd h (deleteInstallation_mem_deletionRequests _ id err)
      · exact absurd h (hd2 id err)
    · rw [newEvents_of_trace _ _ _ htr] at hE
      rw [hE] at hmem
      rcases List.mem_append.mp hmem with h | h
      · rcases List.mem_append.mp h with h | h
        · exact absurd h (hd1 id err)
        · rcases List.mem_append.mp h with h | h
          · exact absurd h (deleteInstallation_mem_deletionRequests _ id err)
          · simp at h
      · exact absurd h (hd2 id err)

/-- C3 at concrete stores: with two children, both Deleted, the children are listed,
locked and re-read, the record of the installation is deleted and Deleted is returned;
with four children of which one is Deleted, no `DeleteInstallation` call is made. -/
theorem deleteInstallation_deletes_record_witness :
    (deleteInstallation memSupervisor ⟨"i1", InstallationStateDeletionInProgress, ""⟩
        "instance" ⟨memAllDeleted, []⟩).1 = InstallationStateDeleted
    ∧ snapshotOf (newEvents ⟨memAllDeleted, []⟩
        (deleteInstallation memSupervisor ⟨"i1", InstallationStateDeletionInProgress, ""⟩
          "instance" ⟨memAllDeleted, []⟩).2)
      = [⟨"ci1", "c1", "i1", "ns1", ClusterInstallationStateDeleted⟩,
         ⟨"ci2", "c2", "i1", "ns2", ClusterInstallationStateDeleted⟩]
    ∧ ∀ id err, Event.DeleteInstallation id err
        ∉ newEvents ⟨memDeleteMixed, []⟩
          (deleteInstallation memSupervisor ⟨"i1", InstallationStateDeletionRequested, ""⟩
            "instance" ⟨memDeleteMixed, []⟩).2 :=
  ⟨(deleteInstallation_deletes_record memSupervisor
      ⟨"i1", InstallationStateDeletionInProgress, ""⟩ "instance" ⟨memAllDeleted, []⟩
      (Or.inr rfl)).2.mpr ⟨"i1", by decide⟩,
   by decide,
   fun id err hmem => absurd
    ((deleteInstallation_deletes_record memSupervisor
      ⟨"i1", InstallationStateDeletionRequested, ""⟩ "instance" ⟨memDeleteMixed, []⟩
      (Or.inl rfl)).1 id err hmem).2.1
    (by decide)⟩

/-- C17: on a pass of `deleteInstallation` that is not aborted (no listing of the
children fails, the batch lock is acquired when it is asked for, no persistence fails,
and every child of the snapshot is in one of the six known states), the
`UpdateClusterInstallation` calls of the run are exactly one call, with state
DeletionRequested, for each child of the snapshot that is in CreationRequested,
CreationFailed or Stable, or in DeletionFailed while the installation is not
DeletionInProgress, in snapshot order; the other children (DeletionRequested, Deleted,
DeletionFailed under a DeletionInProgress installation) are not written. -/
theorem deleteInstallation_requests_deletion (s : InstallationSupervisor σ)
    (installation : Installation) (instanceID : String) (w : World σ)
    (hpass : ∀ e ∈ newEvents w (deleteInstallation s installation instanceID w).2,
      e.abortsPass = false)
    (hsix : ∀ ci ∈ snapshotOf (newEvents w (deleteInstallation s installation instanceID w).2),
      deletable ci.State) :
    updateCalls (newEvents w (deleteInstallation s installation instanceID w).2)
      = ((snapshotOf (newEvents w (deleteInstallation s installation instanceID w).2)).filter
          (eligibleForDeletion installation)).map
          (fun ci => ({ ci with State := ClusterInstallationStateDeletionRequested }, none)) := by
  rcases deleteInstallation_run s installation instanceID w with
    ⟨-, ⟨first, msg, hE⟩ | ⟨first, locked, lerr, hna, hE⟩
      | ⟨first, snapshot, msg, unlocked, uerr, hE⟩⟩
    | ⟨first, snapshot, w0, pre, post, hE, -, hshape⟩
  · have h := hpass _ (by rw [hE]; exact List.mem_singleton.mpr rfl)
    simp [Event.abortsPass] at h
  · have h := hpass (Event.LockClusterInstallations (first.map (fun ci => ci.ID)) instanceID
      locked lerr) (by rw [hE]; simp)
    cases locked <;> cases lerr <;> simp_all [Event.abortsPass]
  · have h := hpass _ (by
      rw [hE]
      exact List.mem_cons_of_mem _ (List.mem_cons_of_mem _ (List.mem_cons_self _ _)))
    simp [Event.abortsPass] at h
  · obtain ⟨hsnap, hq, hu1, hu2, -, -, -, -⟩ :=
      deleteInstallation_frame installation instanceID first snapshot pre post hshape
    rcases deleteInstallationFinish_run s installation snapshot w0 with
      ⟨-, htr | ⟨xerr, htr, -⟩⟩ | ⟨p, c, q, hsplit, -, hc, -, htr⟩
      | ⟨p, c, q, msg, hsplit, -, -, -, htr⟩
    · rw [newEvents_of_trace _ _ _ htr] at hE
      have hS : snapshotOf (newEvents w (deleteInstallation s installation instanceID w).2)
          = snapshot := by
        rw [hE, snapshotOf_append_quiet _ _ hq, snapshotOf_deletionRequests, hsnap]
      rw [hS, hE, updateCalls_append, updateCalls_append, hu1, hu2,
        updateCalls_deletionRequests]
      simp
    · rw [newEvents_of_trace _ _ _ htr] at hE
      have hS : snapshotOf (newEvents w (deleteInstallation s installation instanceID w).2)
          = snapshot := by
        rw [hE, snapshotOf_append_quiet _ _ hq, ← List.append_assoc,
          snapshotOf_append_quiet _ [Event.DeleteInstallation installation.ID xerr]
            (by simp), snapshotOf_deletionRequests, hsnap]
      rw [hS, hE, updateCalls_append, updateCalls_append, updateCalls_append, hu1, hu2,
        updateCalls_deletionRequests]
      simp [updateCalls]
    · rw [newEvents_of_trace _ _ _ htr] at hE
      have hS : snapshotOf (newEvents w (deleteInstallation s installation instanceID w).2)
          = snapshot := by
        rw [hE, snapshotOf_append_quiet _ _ hq, snapshotOf_deletionRequests, hsnap]
      rw [hS, hsplit] at hsix
      exact absurd (hsix c (by simp)) hc
    · rw [newEvents_of_trace _ _ _ htr] at hE
      have h := hpass (Event.UpdateClusterInstallation
        { c with State := ClusterInstallationStateDeletionRequested } (some msg))
        (by rw [hE]; simp)
      simp [Event.abortsPass] at h

/-- C17 at a concrete store: of a stable child, a child whose deletion is requested, a
child whose deletion failed and a deleted child of a DeletionRequested installation, the
first and the third are persisted, once each, in state DeletionRequested. -/
theorem deleteInstallation_requests_deletion_witness :
    updateCalls (newEvents ⟨memDeleteMixed, []⟩
        (deleteInstallation memSupervisor ⟨"i1", InstallationStateDeletionRequested, ""⟩
          "instance" ⟨memDeleteMixed, []⟩).2)
      = [(⟨"ci1", "c1", "i1", "ns1", ClusterInstallationStateDeletionRequested⟩, none),
         (⟨"ci3", "c3", "i1", "ns3", ClusterInstallationStateDeletionRequested⟩, none)] :=
  (deleteInstallation_requests_deletion memSupervisor
    ⟨"i1", InstallationStateDeletionRequested, ""⟩ "instance" ⟨memDeleteMixed, []⟩
    (by decide) (by decide)).trans (by decide)

/-- C18: when the pass of `deleteInstallation` is not aborted by a failing call and,
scanning the snapshot in order, reaches a child whose state is none of CreationRequested,
CreationFailed, Stable, DeletionRequested, DeletionFailed, Deleted (the children before
it are all in one of these six states), `deleteInstallation` returns DeletionFailed, the
children it persisted are only the eligible ones before that position, and it makes no
`DeleteInstallation` call. -/
theorem deleteInstallation_unexpected_child (s : InstallationSupervisor σ)
    (installation : Installation) (instanceID : String) (w : World σ)
    (before : List ClusterInstallation) (child : ClusterInstallation)
    (after : List ClusterInstallation)
    (hpass : ∀ e ∈ newEvents w (deleteInstallation s installation instanceID w).2,
      e.abortsPass = false)
    (hsplit : snapshotOf (newEvents w (deleteInstallation s installation instanceID w).2)
      = before ++ child :: after)
    (hbefore : ∀ ci ∈ before, deletable ci.State)
    (hchild : ¬ deletable child.State) :
    (deleteInstallation s installation instanceID w).1 = InstallationStateDeletionFailed
    ∧ updateCalls (newEvents w (deleteInstallation s installation instanceID w).2)
      = (before.filter (eligibleForDeletion installation)).map
          (fun ci => ({ ci with State := ClusterInstallationStateDeletionRequested }, none))
    ∧ ∀ id err, Event.DeleteInstallation id err
        ∉ newEvents w (deleteInstallation s installation instanceID w).2 := by
  rcases deleteInstallation_run s installation instanceID w with
    ⟨-, ⟨first, msg, hE⟩ | ⟨first, locked, lerr, hna, hE⟩
      | ⟨first, snapshot, msg, unlocked, uerr, hE⟩⟩
    | ⟨first, snapshot, w0, pre, post, hE, hres, hshape⟩
  · have h := hpass _ (by rw [hE]; exact List.mem_singleton.mpr rfl)
    simp [Event.abortsPass] at h
  · have h := hpass (Event.LockClusterInstallations (first.map (fun ci => ci.ID)) instanceID
      locked lerr) (by rw [hE]; simp)
    cases locked <;> cases lerr <;> simp_all [Event.abortsPass]
  · have h := hpass _ (by
      rw [hE]
      exact List.mem_cons_of_mem _ (List.mem_cons_of_mem _ (List.mem_cons_self _ _)))
    simp [Event.abortsPass] at h
  · obtain ⟨hsnap, hq, hu1, hu2, hd1, hd2, -, -⟩ :=
      deleteInstallation_frame installation instanceID first snapshot pre post hshape
    rcases deleteInstallationFinish_run s installation snapshot w0 with
      ⟨hall, htr | ⟨xerr, htr, -⟩⟩ | ⟨p, c, q, hsnapshot, hp, hc, hr, htr⟩
      | ⟨p, c, q, msg, hsnapshot, -, -, -, htr⟩
    · rw [newEvents_of_trace _ _ _ htr] at hE
      have hS : snapshotOf (newEvents w (deleteInstallation s installation instanceID w).2)
          = snapshot := by
        rw [hE, snapshotOf_append_quiet _ _ hq, snapshotOf_deletionRequests, hsnap]
      rw [hS] at hsplit
      exact absurd (hall child (by rw [hsplit]; simp)) hchild
    · rw [newEvents_of_trace _ _ _ htr] at hE
      have hS : snapshotOf (newEvents w (deleteInstallation s installation instanceID w).2)
          = snapshot := by
        rw [hE, snapshotOf_append_quiet _ _ hq, ← List.append_assoc,
          snapshotOf_append_quiet _ [Event.DeleteInstallation installation.ID xerr]
            (by simp), snapshotOf_deletionRequests, hsnap]
      rw [hS] at hsplit
      exact absurd (hall child (by rw [hsplit]; simp)) hchild
    · rw [newEvents_of_trace _ _ _ htr] at hE
      have hS : snapshotOf (newEvents w (deleteInstallation s installation instanceID w).2)
          = snapshot := by
        rw [hE, snapshotOf_append_quiet _ _ hq, snapshotOf_deletionRequests, hsnap]
      rw [hS, hsnapshot] at hsplit
      obtain ⟨rfl, -, -⟩ := first_violation_unique (fun ci => deletable ci.State)
        p before c child q after hsplit hp hc hbefore hchild
      refine ⟨by rw [hres, hr], ?_, ?_⟩
      · rw [hE, updateCalls_append, updateCalls_append, hu1, hu2,
          updateCalls_deletionRequests]
        simp
      · intro id err hmem
        rw [hE] at hmem
        rcases List.mem_append.mp hmem with h | h
        · rcases List.mem_append.mp h with h | h
          · exact hd1 id err h
          · exact deleteInstallation_mem_deletionRequests _ id err h
        · exact hd2 id err h
    · rw [newEvents_of_trace _ _ _ htr] at hE
      have h := hpass (Event.UpdateClusterInstallation
        { c with State := ClusterInstallationStateDeletionRequested } (some msg))
        (by rw [hE]; simp)
      simp [Event.abortsPass] at h

/-- C18 at a concrete store: with a stable child, then a child in Reconciling, then a
stable child, `deleteInstallation` returns DeletionFailed, having persisted the first
child only. -/
theorem deleteInstallation_unexpected_child_witness :
    (deleteInstallation memSupervisor ⟨"i1", InstallationStateDeletionRequested, ""⟩
        "instance" ⟨memDeleteReconciling, []⟩).1 = InstallationStateDeletionFailed
    ∧ updateCalls (newEvents ⟨memDeleteReconciling, []⟩
        (deleteInstallation memSupervisor ⟨"i1", InstallationStateDeletionRequested, ""⟩
          "instance" ⟨memDeleteReconciling, []⟩).2)
      = [(⟨"ci1", "c1", "i1", "ns1", ClusterInstallationStateDeletionRequested⟩, none)] :=
  have h := deleteInstallation_unexpected_child memSupervisor
    ⟨"i1", InstallationStateDeletionRequested, ""⟩ "instance" ⟨memDeleteReconciling, []⟩
    [⟨"ci1", "c1", "i1", "ns1", ClusterInstallationStateStable⟩]
    ⟨"ci2", "c2", "i1", "ns2", ClusterInstallationStateReconciling⟩
    [⟨"ci3", "c3", "i1", "ns3", ClusterInstallationStateStable⟩]
    (by decide) (by decide) (by decide) (by decide)
  ⟨h.1, h.2.1.trans (by decide)⟩

/-- C19: if the batch lock is not acquired or a store call of `deleteInstallation` fails
(the listing of the children, their re-read under the lock, the persistence of a child,
the deletion of the installation record), `deleteInstallation` returns the state of the
installation unchanged. -/
theorem deleteInstallation_abort_returns_state (s : InstallationSupervisor σ)
    (installation : Installation) (instanceID : String) (w : World σ)
    (h : ∃ e ∈ newEvents w (deleteInstallation s installation instanceID w).2,
      e.abortsDeletion = true) :
    (deleteInstallation s installation instanceID w).1 = installation.State := by
  obtain ⟨e, he, habort⟩ := h
  rcases deleteInstallation_run s installation instanceID w with
    ⟨hr, -⟩ | ⟨first, snapshot, w0, pre, post, hE, hres, hshape⟩
  · exact hr
  · obtain ⟨-, -, -, -, -, -, ha1, ha2⟩ :=
      deleteInstallation_frame installation instanceID first snapshot pre post hshape
    rcases deleteInstallationFinish_run s installation snapshot w0 with
      ⟨-, htr | ⟨xerr, htr, hr⟩⟩ | ⟨p, c, q, -, -, -, -, htr⟩
      | ⟨p, c, q, msg, -, -, -, hr, -⟩
    · rw [newEvents_of_trace _ _ _ htr] at hE
      rw [hE] at he
      rcases List.mem_append.mp he with h | h
      · rcases List.mem_append.mp h with h | h
        · rw [ha1 e h] at habort
          cases habort
        · rw [abortsDeletion_deletionRequests _ e h] at habort
          cases habort
      · rw [ha2 e h] at habort
        cases habort
    · rw [newEvents_of_trace _ _ _ htr] at hE
      rw [hE] at he
      rcases List.mem_append.mp he with h | h
      · rcases List.mem_append.mp h with h | h
        · rw [ha1 e h] at habort
          cases habort
        · rcases List.mem_append.mp h with h | h
          · rw [abortsDeletion_deletionRequests _ e h] at habort
            cases habort
          · rw [List.mem_singleton.mp h] at habort
            rw [hres, hr]
            cases xerr with
            | none => cases habort
            | some msg => simp
      · rw [ha2 e h] at habort
        cases habort
    · rw [newEvents_of_trace _ _ _ htr] at hE
      rw [hE] at he
      rcases List.mem_append.mp he with h | h
      · rcases List.mem_append.mp h with h | h
        · rw [ha1 e h] at habort
          cases habort
        · rw [abortsDeletion_deletionRequests _ e h] at habort
          cases habort
      · rw [ha2 e h] at habort
        cases habort
    · rw [hres, hr]

/-- C19 at a concrete store: when the persistence of the first child fails, a
DeletionRequested installation stays DeletionRequested. -/
theorem deleteInstallation_abort_returns_state_witness :
    (deleteInstallation memSupervisor ⟨"i1", InstallationStateDeletionRequested, ""⟩
        "instance" ⟨memDeleteUpdateFails, []⟩).1 = InstallationStateDeletionRequested :=
  deleteInstallation_abort_returns_state memSupervisor
    ⟨"i1", InstallationStateDeletionRequested, ""⟩ "instance" ⟨memDeleteUpdateFails, []⟩
    (by decide)

/-! ### Supervise: the calls of a transition -/

theorem transitionTrace.refl (w : World σ) : transitionTrace w w :=
  ⟨[], by simp, by simp⟩

theorem transitionTrace.trans {w w2 w3 : World σ} (h1 : transitionTrace w w2)
    (h2 : transitionTrace w2 w3) : transitionTrace w w3 := by
  obtain ⟨evs1, ht1, hp1⟩ := h1
  obtain ⟨evs2, ht2, hp2⟩ := h2
  refine ⟨evs1 ++ evs2, by rw [ht2, ht1, List.append_assoc], ?_⟩
  intro e he
  rcases List.mem_append.mp he with h | h
  · exact hp1 e h
  · exact hp2 e h

theorem transitionTrace.step {w w2 : World σ} (st : σ) (e : Event)
    (h1 : transitionTrace w w2) (h : e.ofSupervise = false) :
    transitionTrace w (w2.record st e) := by
  obtain ⟨evs, ht, hp⟩ := h1
  refine ⟨evs ++ [e], by simp [World.record, ht], ?_⟩
  intro x hx
  rcases List.mem_append.mp hx with h2 | h2
  · exact hp x h2
  · rw [List.mem_singleton.mp h2]
    exact h

theorem createClusterInstallation_transitionTrace (s : InstallationSupervisor σ)
    (cluster : Cluster) (installation : Installation) (instanceID : String) (w : World σ) :
    transitionTrace w (createClusterInstallation s cluster installation instanceID w).2 := by
  unfold createClusterInstallation
  simp only [clusterLockTryLock, clusterLockUnlock, installationStore.callLockCluster,
    installationStore.callUnlockCluster, installationStore.callGetClusterInstallations,
    InstallationSupervisor.callNewID, installationStore.callCreateClusterInstallation]
  split_ifs <;> dsimp only <;>
    repeat (first | exact transitionTrace.refl _ | refine transitionTrace.step _ _ ?_ rfl)

theorem createInstallationLoop_transitionTrace (s : InstallationSupervisor σ)
    (installation : Installation) (instanceID : String) (clusters : List Cluster)
    (w : World σ) :
    transitionTrace w (createInstallationLoop s installation instanceID clusters w).2 := by
  induction clusters generalizing w with
  | nil => exact transitionTrace.refl w
  | cons cluster clusters ih =>
    unfold createInstallationLoop
    dsimp only
    split_ifs
    · exact createClusterInstallation_transitionTrace s cluster installation instanceID w
    · exact (createClusterInstallation_transitionTrace s cluster installation instanceID
        w).trans (ih _)

theorem createInstallation_transitionTrace (s : InstallationSupervisor σ)
    (installation : Installation) (instanceID : String) (w : World σ) :
    transitionTrace w (createInstallation s installation instanceID w).2 := by
  unfold createInstallation
  simp only [installationStore.callGetClusterInstallations, installationStore.callGetClusters]
  split_ifs <;> (try dsimp only) <;>
    (try refine transitionTrace.trans ?_ (createInstallationLoop_transitionTrace s _ _ _ _)) <;>
    repeat (first | exact transitionTrace.refl _ | refine transitionTrace.step _ _ ?_ rfl)

theorem waitForUpdateComplete_transitionTrace (s : InstallationSupervisor σ)
    (installation : Installation) (instanceID : String) (w : World σ) :
    transitionTrace w (waitForUpdateComplete s installation instanceID w).2 := by
  unfold waitForUpdateComplete
  simp only [installationStore.callGetClusterInstallations]
  split_ifs <;> (try dsimp only) <;>
    repeat (first | exact transitionTrace.refl _ | refine transitionTrace.step _ _ ?_ rfl)

theorem updateInstallationLoop_transitionTrace (s : InstallationSupervisor σ)
    (f : String → String) (installation : Installation) (cis : List ClusterInstallation)
    (w : World σ) :
    transitionTrace w (updateInstallationLoop s f installation cis w).2 := by
  induction cis generalizing w with
  | nil => exact transitionTrace.refl w
  | cons ci cis ih =>
    unfold updateInstallationLoop
    simp only [installationStore.callGetCluster,
      installationProvisioner.callUpdateClusterInstallation,
      installationStore.callUpdateClusterInstallation]
    split_ifs
    · repeat (first | exact transitionTrace.refl _ | refine transitionTrace.step _ _ ?_ rfl)
    · split
      · repeat (first | exact transitionTrace.refl _ | refine transitionTrace.step _ _ ?_ rfl)
      · split_ifs
        · repeat (first | exact transitionTrace.refl _ | refine transitionTrace.step _ _ ?_ rfl)
        · repeat (first | exact transitionTrace.refl _ | refine transitionTrace.step _ _ ?_ rfl)
        · refine transitionTrace.trans ?_ (ih _)
          repeat (first | exact transitionTrace.refl _ | refine transitionTrace.step _ _ ?_ rfl)

theorem updateInstallation_transitionTrace (s : InstallationSupervisor σ)
    (f : String → String) (installation : Installation) (instanceID : String)
    (w : World σ) :
    transitionTrace w (updateInstallation s f installation instanceID w).2 := by
  unfold updateInstallation
  simp only [installationStore.callGetClusterInstallations, clusterInstallationLocksTryLock,
    clusterInstallationLocksUnlock, installationStore.callLockClusterInstallations,
    installationStore.callUnlockClusterInstallations]
  split_ifs <;> (try dsimp only) <;>
    (try (split <;> dsimp only)) <;>
    (try refine transitionTrace.step _ _ ?_ rfl) <;>
    (try refine transitionTrace.trans ?_ (updateInstallationLoop_transitionTrace s f _ _ _)) <;>
    repeat (first | exact transitionTrace.refl _ | refine transitionTrace.step _ _ ?_ rfl)

theorem deleteInstallationLoop_transitionTrace (s : InstallationSupervisor σ)
    (installation : Installation) (cis : List ClusterInstallation) (counts : DeleteCounts)
    (w : World σ) :
    transitionTrace w (deleteInstallationLoop s installation cis counts w).2 := by
  obtain ⟨evs, htr, hkind, -⟩ := deleteInstallationLoop_spec s installation cis counts w
  refine ⟨evs, htr, ?_⟩
  intro e he
  obtain ⟨ci, err, rfl⟩ := hkind e he
  rfl

theorem deleteInstallationFinish_transitionTrace (s : InstallationSupervisor σ)
    (installation : Installation) (cis : List ClusterInstallation) (w : World σ) :
    transitionTrace w (deleteInstallationFinish s installation cis w).2 := by
  obtain ⟨evs, htr, hkind, -⟩ := deleteInstallationFinish_spec s installation cis w
  refine ⟨evs, htr, ?_⟩
  intro e he
  rcases hkind e he with ⟨ci, err, rfl⟩ | ⟨err, rfl⟩ <;> rfl

theorem deleteInstallation_transitionTrace (s : InstallationSupervisor σ)
    (installation : Installation) (instanceID : String) (w : World σ) :
    transitionTrace w (deleteInstallation s installation instanceID w).2 := by
  unfold deleteInstallation
  simp only [installationStore.callGetClusterInstallations, clusterInstallationLocksTryLock,
    clusterInstallationLocksUnlock, installationStore.callLockClusterInstallations,
    installationStore.callUnlockClusterInstallations]
  split_ifs <;> (try dsimp only) <;>
    (try refine transitionTrace.step _ _ ?_ rfl) <;>
    (try refine transitionTrace.trans ?_ (deleteInstallationFinish_transitionTrace s _ _ _)) <;>
    repeat (first | exact transitionTrace.refl _ | refine transitionTrace.step _ _ ?_ rfl)

/-- A transition only adds calls to the trace, and none of them is a call on the
installation records or on the installation lock. -/
theorem transitionInstallation_transitionTrace (s : InstallationSupervisor σ)
    (f : String → String) (installation : Installation) (instanceID : String)
    (w : World σ) :
    transitionTrace w (transitionInstallation s f installation instanceID w).2 := by
  unfold transitionInstallation
  split_ifs
  · exact createInstallation_transitionTrace s installation instanceID w
  · exact updateInstallation_transitionTrace s f installation instanceID w
  · exact waitForUpdateComplete_transitionTrace s installation instanceID w
  · exact deleteInstallation_transitionTrace s installation instanceID w
  · exact transitionTrace.refl w

theorem installationWrites_append (l1 l2 : List Event) :
    installationWrites (l1 ++ l2) = installationWrites l1 ++ installationWrites l2 := by
  simp [installationWrites, List.filterMap_append]

theorem installationWrites_of_transition (evs : List Event)
    (h : ∀ e ∈ evs, e.ofSupervise = false) : installationWrites evs = [] := by
  induction evs with
  | nil => rfl
  | cons e evs ih =>
    have he := h e (List.mem_cons_self _ _)
    have hrest := ih (fun x hx => h x (List.mem_cons_of_mem _ hx))
    cases e <;> first
      | (simp [Event.ofSupervise] at he; done)
      | (simpa [installationWrites] using hrest)

/-- C20: when the installation lock is acquired and the re-fetch returns a record without
error, the records `Supervise` gives to `UpdateInstallation` are: none when the state of
the re-fetched record is the state computed by the transition, and otherwise exactly the
re-fetched record with its State replaced by the computed state (its other fields are
those re-fetched, not those of the installation passed to `Supervise`). -/
theorem Supervise_persists_refetched (s : InstallationSupervisor σ) (f : String → String)
    (installation : Installation) (w : World σ) (fetched : Installation)
    (hlock : Event.LockInstallation installation.ID s.instanceID true none
      ∈ newEvents w (Supervise s f installation w).2)
    (hget : Event.GetInstallation installation.ID (some fetched) none
      ∈ newEvents w (Supervise s f installation w).2) :
    installationWrites (newEvents w (Supervise s f installation w).2)
      = if fetched.State
            = (transitionInstallation s f installation s.instanceID
                (installationLockTryLock s.store installation.ID s.instanceID w).2).1 then []
        else [{ fetched with State :=
                (transitionInstallation s f installation s.instanceID
                  (installationLockTryLock s.store installation.ID s.instanceID w).2).1 }] := by
  rcases hl : s.store.LockInstallation installation.ID s.instanceID w.st
    with ⟨⟨locked, lerr⟩, st1⟩
  by_cases hacq : locked = true ∧ lerr = none
  · obtain ⟨rfl, rfl⟩ := hacq
    have hw1 : (installationLockTryLock s.store installation.ID s.instanceID w)
        = (true, w.record st1
            (Event.LockInstallation installation.ID s.instanceID true none)) := by
      simp [installationLockTryLock, installationStore.callLockInstallation, hl]
    rw [hw1]
    obtain ⟨evs, htr, hP⟩ := transitionInstallation_transitionTrace s f installation
      s.instanceID (w.record st1
        (Event.LockInstallation installation.ID s.instanceID true none))
    have hwr := installationWrites_of_transition evs hP
    rcases hg : s.store.GetInstallation installation.ID
      (transitionInstallation s f installation s.instanceID
        (w.record st1 (Event.LockInstallation installation.ID s.instanceID true none))).2.st
      with ⟨⟨got, gerr⟩, st2⟩
    have htr2 := htr
    simp only [World.record] at htr2
    have hmemT : ∀ got2 gerr2, Event.GetInstallation installation.ID got2 gerr2 ∉ evs := by
      intro got2 gerr2 hmem
      have := hP _ hmem
      simp [Event.ofSupervise] at this
    cases gerr with
    | some msg =>
      have hS : newEvents w (Supervise s f installation w).2
          = Event.LockInstallation installation.ID s.instanceID true none :: (evs ++
            [Event.GetInstallation installation.ID got (some msg),
             Event.UnlockInstallation installation.ID s.instanceID false
              (s.store.UnlockInstallation installation.ID s.instanceID false st2).1.1
              (s.store.UnlockInstallation installation.ID s.instanceID false st2).1.2]) := by
        simp only [Supervise, hw1, installationStore.callGetInstallation, hg,
          installationLockUnlock, installationStore.callUnlockInstallation, newEvents]
        simp [World.record, htr2]
      rw [hS] at hget
      simp [hmemT] at hget
    | none =>
      cases got with
      | none =>
        have hS : newEvents w (Supervise s f installation w).2
            = Event.LockInstallation installation.ID s.instanceID true none :: (evs ++
              [Event.GetInstallation installation.ID none none,
               Event.UnlockInstallation installation.ID s.instanceID false
                (s.store.UnlockInstallation installation.ID s.instanceID false st2).1.1
                (s.store.UnlockInstallation installation.ID s.instanceID false st2).1.2]) := by
          simp only [Supervise, hw1, installationStore.callGetInstallation, hg,
            installationLockUnlock, installationStore.callUnlockInstallation, newEvents]
          simp [World.record, htr2]
        rw [hS] at hget
        simp [hmemT] at hget
      | some found =>
        by_cases hsame : found.State = (transitionInstallation s f installation s.instanceID
            (w.record st1 (Event.LockInstallation installation.ID s.instanceID true none))).1
        · have hS : newEvents w (Supervise s f installation w).2
              = Event.LockInstallation installation.ID s.instanceID true none :: (evs ++
                [Event.GetInstallation installation.ID (some found) none,
                 Event.UnlockInstallation installation.ID s.instanceID false
                  (s.store.UnlockInstallation installation.ID s.instanceID false st2).1.1
                  (s.store.UnlockInstallation installation.ID s.instanceID false st2).1.2])
              := by
            simp only [Supervise, hw1, installationStore.callGetInstallation, hg,
              installationLockUnlock, installationStore.callUnlockInstallation, newEvents]
            simp [World.record, htr2, hsame]
          rw [hS] at hget
          simp [hmemT] at hget
          subst hget
          rw [hS, if_pos hsame]
          simp [installationWrites, List.filterMap_append] at hwr ⊢
          exact hwr
        · obtain ⟨ns, hns⟩ : ∃ ns : String, ns = (transitionInstallation s f installation
              s.instanceID (w.record st1
                (Event.LockInstallation installation.ID s.instanceID true none))).1 :=
            ⟨_, rfl⟩
          rw [← hns] at hsame
          rcases hu : s.store.UpdateInstallation { found with State := ns } st2
            with ⟨uerr, st3⟩
          have hS : newEvents w (Supervise s f installation w).2
              = Event.LockInstallation installation.ID s.instanceID true none :: (evs ++
                [Event.GetInstallation installation.ID (some found) none,
                 Event.UpdateInstallation { found with State := ns } uerr,
                 Event.UnlockInstallation installation.ID s.instanceID false
                  (s.store.UnlockInstallation installation.ID s.instanceID false st3).1.1
                  (s.store.UnlockInstallation installation.ID s.instanceID false st3).1.2])
              := by
            simp only [Supervise, hw1, installationStore.callGetInstallation, hg, ← hns,
              installationStore.callUpdateInstallation, installationLockUnlock,
              installationStore.callUnlockInstallation, newEvents]
            simp [World.record, htr2, hsame, hu]
          rw [hS] at hget
          simp [hmemT] at hget
          subst hget
          rw [hS, ← hns, if_neg hsame]
          simp [installationWrites, List.filterMap_append] at hwr ⊢
          exact hwr
  · have hS : newEvents w (Supervise s f installation w).2
        = [Event.LockInstallation installation.ID s.instanceID locked lerr] := by
      have hl2 : (if lerr ≠ none then false else locked) = false := by
        cases lerr <;> cases locked <;> simp_all
      simp only [Supervise, installationLockTryLock, installationStore.callLockInstallation,
        hl, hl2, newEvents]
      simp [World.record]
    rw [hS] at hlock
    simp at hlock
    exact absurd ⟨hlock.1, hlock.2.symm⟩ hacq

/-- C20 at a concrete store: `Supervise` is given a stale copy of installation `i1`, whose
only child is stable; the record it persists is the one of the store, with the fields
`fresh`, in state Stable. -/
theorem Supervise_persists_refetched_witness :
    installationWrites (newEvents ⟨memWaitStable, []⟩
        (Supervise memSupervisor failedVariant
          ⟨"i1", InstallationStateUpgradeInProgress, "stale"⟩ ⟨memWaitStable, []⟩).2)
      = [⟨"i1", InstallationStateStable, "fresh"⟩] :=
  (Supervise_persists_refetched memSupervisor failedVariant
    ⟨"i1", InstallationStateUpgradeInProgress, "stale"⟩ ⟨memWaitStable, []⟩
    ⟨"i1", InstallationStateUpgradeInProgress, "fresh"⟩ (by decide) (by decide)).trans
    (by decide)

/-! ### Supervise and Do -/

/-- C21: if the installation lock is not acquired (the store does not grant it, or the
attempt fails), `Supervise` returns at once: the lock attempt is the only call of the run,
so no transition runs, no store record is read or written and the provisioner is not
called; the state of the collaborators is the one the lock attempt left. -/
theorem Supervise_lock_not_acquired (s : InstallationSupervisor σ) (f : String → String)
    (installation : Installation) (w : World σ)
    (h : ¬ ((s.store.LockInstallation installation.ID s.instanceID w.st).1.1 = true
      ∧ (s.store.LockInstallation installation.ID s.instanceID w.st).1.2 = none)) :
    (Supervise s f installation w).1 = Except.ok ()
    ∧ newEvents w (Supervise s f installation w).2
      = [Event.LockInstallation installation.ID s.instanceID
          (s.store.LockInstallation installation.ID s.instanceID w.st).1.1
          (s.store.LockInstallation installation.ID s.instanceID w.st).1.2]
    ∧ (Supervise s f installation w).2.st
      = (s.store.LockInstallation installation.ID s.instanceID w.st).2 := by
  rcases hl : s.store.LockInstallation installation.ID s.instanceID w.st
    with ⟨⟨locked, lerr⟩, st1⟩
  rw [hl] at h
  have hl2 : (if lerr ≠ none then false else locked) = false := by
    cases lerr <;> cases locked <;> simp_all
  simp only [Supervise, installationLockTryLock, installationStore.callLockInstallation,
    hl, hl2, newEvents]
  simp [World.record]

/-- C21 at a concrete store: the lock attempt fails, and it is the only call. -/
theorem Supervise_lock_not_acquired_witness :
    newEvents ⟨memLockInstallationFails, []⟩
        (Supervise memSupervisor failedVariant
          ⟨"i1", InstallationStateUpgradeInProgress, ""⟩ ⟨memLockInstallationFails, []⟩).2
      = [Event.LockInstallation "i1" "instance" false (some "LockInstallation")] :=
  (Supervise_lock_not_acquired memSupervisor failedVariant
    ⟨"i1", InstallationStateUpgradeInProgress, ""⟩ ⟨memLockInstallationFails, []⟩
    (by decide)).2.1

/-- C26, the code at the failing input: installation `i1`, in DeletionRequested, has no
children; the transition deletes its record, the re-fetch answers no record and no error,
and `Supervise` dereferences the missing record (line 95): the run ends in a panic, after
the deferred unlock. -/
theorem Supervise_dereferences_missing_record :
    (Supervise memSupervisor failedVariant ⟨"i1", InstallationStateDeletionRequested, ""⟩
        ⟨memDeleteNoChildren, []⟩).1 = Except.error "nil pointer dereference"
    ∧ (Supervise memSupervisor failedVariant ⟨"i1", InstallationStateDeletionRequested, ""⟩
        ⟨memDeleteNoChildren, []⟩).2.trace
      = [Event.LockInstallation "i1" "instance" true none,
         Event.GetClusterInstallations
          { PerPage := AllPerPage, InstallationID := "i1", ClusterID := "", IDs := [],
            IncludeDeleted := true } [] none,
         Event.DeleteInstallation "i1" none,
         Event.GetInstallation "i1" none none,
         Event.UnlockInstallation "i1" "instance" false true none] := by
  refine ⟨by rfl, by decide⟩

/-- C23, the code at the failing input: the pending-work query answers `i1` and `i2`;
`Supervise` on `i1` panics on the missing record, so `Do` does not return, and `i2` is
never supervised: there is no call about `i2` in the trace. -/
theorem Do_stops_at_missing_record :
    (Do memSupervisor failedVariant ⟨memTwoPending, []⟩).1
      = Except.error "nil pointer dereference"
    ∧ (Do memSupervisor failedVariant ⟨memTwoPending, []⟩).2.trace
      = [Event.GetUnlockedInstallationsPendingWork
          [⟨"i1", InstallationStateDeletionRequested, ""⟩,
           ⟨"i2", InstallationStateCreationRequested, ""⟩] none,
         Event.LockInstallation "i1" "instance" true none,
         Event.GetClusterInstallations
          { PerPage := AllPerPage, InstallationID := "i1", ClusterID := "", IDs := [],
            IncludeDeleted := true } [] none,
         Event.DeleteInstallation "i1" none,
         Event.GetInstallation "i1" none none,
         Event.UnlockInstallation "i1" "instance" false true none] := by
  refine ⟨by rfl, by decide⟩

/-- C24, the code at the failing input: the listing of the clusters answers `c1` in state
Stable, and right after it another actor takes `c1` out of Stable.  `createInstallation`
locks `c1` and does not read the cluster again: the listed state decides, and a cluster
installation is created on `c1` although its record in the store is not Stable. -/
theorem createInstallation_uses_listed_cluster_state :
    (createInstallation (actorSupervisor clustersLeaveStable id)
        ⟨"i1", InstallationStateCreationRequested, ""⟩ "instance"
        ⟨memOneFreeCluster, []⟩).2.trace
      = [Event.GetClusterInstallations
          { PerPage := AllPerPage, InstallationID := "i1", ClusterID := "", IDs := [],
            IncludeDeleted := false } [] none,
         Event.GetClusters { PerPage := AllPerPage, IncludeDeleted := false }
          [⟨"c1", ClusterStateStable⟩] none,
         Event.LockCluster "c1" "instance" true none,
         Event.GetClusterInstallations
          { PerPage := AllPerPage, InstallationID := "", ClusterID := "c1", IDs := [],
            IncludeDeleted := false } [] none,
         Event.NewID "n1",
         Event.CreateClusterInstallation
          ⟨"", "c1", "i1", "n1", ClusterInstallationStateCreationRequested⟩ none,
         Event.UnlockCluster "c1" "instance" false true none]
    ∧ (createInstallation (actorSupervisor clustersLeaveStable id)
        ⟨"i1", InstallationStateCreationRequested, ""⟩ "instance"
        ⟨memOneFreeCluster, []⟩).2.st.clusters = [⟨"c1", "Provisioning"⟩]
    ∧ (createInstallation (actorSupervisor clustersLeaveStable id)
        ⟨"i1", InstallationStateCreationRequested, ""⟩ "instance"
        ⟨memOneFreeCluster, []⟩).2.st.clusterInstallations
      = [⟨"n1", "c1", "i1", "n1", ClusterInstallationStateCreationRequested⟩] := by
  refine ⟨by decide, by decide, by decide⟩

/-! ### Locks -/

theorem locksHeldAfter_append (held : List LockRef) (l1 l2 : List Event) :
    locksHeldAfter held (l1 ++ l2)
      = (locksHeldAfter held l1).bind (fun h => locksHeldAfter h l2) := by
  induction l1 generalizing held with
  | nil => rfl
  | cons e l1 ih =>
    simp only [List.cons_append, locksHeldAfter]
    cases e.acquires with
    | some lock => exact ih _
    | none =>
      cases e.releases with
      | none => exact ih _
      | some lock =>
        cases held with
        | nil => rfl
        | cons top rest =>
          dsimp only
          split_ifs
          · exact ih _
          · rfl

theorem heldTrace.nothing (w : World σ) : heldTrace [] w w :=
  ⟨[], by simp, fun _ => rfl⟩

theorem heldTrace.andThen {locks : List LockRef} {w w2 w3 : World σ}
    (h1 : heldTrace locks w w2) (h2 : heldTrace [] w2 w3) : heldTrace locks w w3 := by
  obtain ⟨evs1, ht1, hp1⟩ := h1
  obtain ⟨evs2, ht2, hp2⟩ := h2
  refine ⟨evs1 ++ evs2, by rw [ht2, ht1, List.append_assoc], ?_⟩
  intro held
  rw [locksHeldAfter_append, hp1 held]
  exact hp2 _

theorem heldTrace.quiet {locks : List LockRef} {w w2 : World σ} (st : σ) (e : Event)
    (h : heldTrace locks w w2) (ha : e.acquires = none) (hr : e.releases = none) :
    heldTrace locks w (w2.record st e) := by
  obtain ⟨evs, ht, hp⟩ := h
  refine ⟨evs ++ [e], by simp [World.record, ht], ?_⟩
  intro held
  rw [locksHeldAfter_append, hp held]
  simp [locksHeldAfter, ha, hr]

theorem heldTrace.acquire {locks : List LockRef} {w w2 : World σ} (st : σ) (e : Event)
    (lock : LockRef) (h : heldTrace locks w w2) (ha : e.acquires = some lock) :
    heldTrace (lock :: locks) w (w2.record st e) := by
  obtain ⟨evs, ht, hp⟩ := h
  refine ⟨evs ++ [e], by simp [World.record, ht], ?_⟩
  intro held
  rw [locksHeldAfter_append, hp held]
  simp [locksHeldAfter, ha]

theorem heldTrace.release {locks : List LockRef} {w w2 : World σ} (st : σ) (e : Event)
    (lock : LockRef) (h : heldTrace (lock :: locks) w w2) (ha : e.acquires = none)
    (hr : e.releases = some lock) : heldTrace locks w (w2.record st e) := by
  obtain ⟨evs, ht, hp⟩ := h
  refine ⟨evs ++ [e], by simp [World.record, ht], ?_⟩
  intro held
  rw [locksHeldAfter_append, hp held]
  simp [locksHeldAfter, ha, hr]

theorem heldTrace.newEvents {w w2 : World σ} (h : heldTrace [] w w2) :
    locksHeldAfter [] (newEvents w w2) = some [] := by
  obtain ⟨evs, ht, hp⟩ := h
  rw [newEvents_of_trace _ _ _ ht]
  exact hp []

theorem createClusterInstallation_heldTrace (s : InstallationSupervisor σ)
    (cluster : Cluster) (installation : Installation) (instanceID : String) (w : World σ) :
    heldTrace [] w (createClusterInstallation s cluster installation instanceID w).2 := by
  rcases hl : s.store.LockCluster cluster.ID instanceID w.st with ⟨⟨locked, lerr⟩, st1⟩
  unfold createClusterInstallation
  simp only [clusterLockTryLock, clusterLockUnlock, installationStore.callLockCluster,
    installationStore.callUnlockCluster, installationStore.callGetClusterInstallations,
    InstallationSupervisor.callNewID, installationStore.callCreateClusterInstallation, hl]
  cases locked <;> cases lerr <;>
    simp only [ne_eq, reduceCtorEq, not_false_eq_true, not_true_eq_false, if_true, if_false,
      Bool.true_eq_false, Bool.false_eq_true] <;>
    (try split_ifs) <;> (try dsimp only) <;>
    repeat (first
      | exact heldTrace.nothing _
      | refine heldTrace.quiet _ _ ?_ rfl rfl
      | refine heldTrace.release _ _ _ ?_ rfl rfl
      | refine heldTrace.acquire _ _ _ ?_ rfl)

theorem createInstallationLoop_heldTrace (s : InstallationSupervisor σ)
    (installation : Installation) (instanceID : String) (clusters : List Cluster)
    (w : World σ) :
    heldTrace [] w (createInstallationLoop s installation instanceID clusters w).2 := by
  induction clusters generalizing w with
  | nil => exact heldTrace.nothing w
  | cons cluster clusters ih =>
    unfold createInstallationLoop
    dsimp only
    split_ifs
    · exact createClusterInstallation_heldTrace s cluster installation instanceID w
    · exact (createClusterInstallation_heldTrace s cluster installation instanceID w).andThen
        (ih _)

theorem createInstallation_heldTrace (s : InstallationSupervisor σ)
    (installation : Installation) (instanceID : String) (w : World σ) :
    heldTrace [] w (createInstallation s installation instanceID w).2 := by
  unfold createInstallation
  simp only [installationStore.callGetClusterInstallations, installationStore.callGetClusters]
  split_ifs <;> (try dsimp only) <;>
    (try refine heldTrace.andThen ?_ (createInstallationLoop_heldTrace s _ _ _ _)) <;>
    repeat (first | exact heldTrace.nothing _ | refine heldTrace.quiet _ _ ?_ rfl rfl)

theorem waitForUpdateComplete_heldTrace (s : InstallationSupervisor σ)
    (installation : Installation) (instanceID : String) (w : World σ) :
    heldTrace [] w (waitForUpdateComplete s installation instanceID w).2 := by
  unfold waitForUpdateComplete
  simp only [installationStore.callGetClusterInstallations]
  split_ifs <;> (try dsimp only) <;>
    repeat (first | exact heldTrace.nothing _ | refine heldTrace.quiet _ _ ?_ rfl rfl)

theorem updateInstallationLoop_heldTrace (s : InstallationSupervisor σ)
    (f : String → String) (installation : Installation) (cis : List ClusterInstallation)
    (w : World σ) :
    heldTrace [] w (updateInstallationLoop s f installation cis w).2 := by
  induction cis generalizing w with
  | nil => exact heldTrace.nothing w
  | cons ci cis ih =>
    unfold updateInstallationLoop
    simp only [installationStore.callGetCluster,
      installationProvisioner.callUpdateClusterInstallation,
      installationStore.callUpdateClusterInstallation]
    split_ifs
    · repeat (first | exact heldTrace.nothing _ | refine heldTrace.quiet _ _ ?_ rfl rfl)
    · split
      · repeat (first | exact heldTrace.nothing _ | refine heldTrace.quiet _ _ ?_ rfl rfl)
      · split_ifs
        · repeat (first | exact heldTrace.nothing _ | refine heldTrace.quiet _ _ ?_ rfl rfl)
        · repeat (first | exact heldTrace.nothing _ | refine heldTrace.quiet _ _ ?_ rfl rfl)
        · refine heldTrace.andThen ?_ (ih _)
          repeat (first | exact heldTrace.nothing _ | refine heldTrace.quiet _ _ ?_ rfl rfl)

theorem deleteInstallationFinish_heldTrace (s : InstallationSupervisor σ)
    (installation : Installation) (cis : List ClusterInstallation) (w : World σ) :
    heldTrace [] w (deleteInstallationFinish s installation cis w).2 := by
  obtain ⟨evs, htr, hkind, -⟩ := deleteInstallationFinish_spec s installation cis w
  refine ⟨evs, htr, ?_⟩
  clear htr
  induction evs with
  | nil => intro held; rfl
  | cons e evs ih =>
    intro held
    have hrest := ih (fun x hx => hkind x (List.mem_cons_of_mem _ hx)) held
    rcases hkind e (List.mem_cons_self _ _) with ⟨ci, err, rfl⟩ | ⟨err, rfl⟩ <;>
      simpa [locksHeldAfter, Event.acquires, Event.releases] using hrest

theorem updateInstallation_heldTrace (s : InstallationSupervisor σ)
    (f : String → String) (installation : Installation) (instanceID : String)
    (w : World σ) :
    heldTrace [] w (updateInstallation s f installation instanceID w).2 := by
  rcases hl : s.store.LockClusterInstallations
    ((s.store.GetClusterInstallations
      { PerPage := AllPerPage, InstallationID := installation.ID, ClusterID := "", IDs := [],
        IncludeDeleted := false } w.st).1.1.map (fun ci => ci.ID)) instanceID
    (s.store.GetClusterInstallations
      { PerPage := AllPerPage, InstallationID := installation.ID, ClusterID := "", IDs := [],
        IncludeDeleted := false } w.st).2 with ⟨⟨locked, lerr⟩, st1⟩
  unfold updateInstallation
  simp only [installationStore.callGetClusterInstallations, clusterInstallationLocksTryLock,
    clusterInstallationLocksUnlock, installationStore.callLockClusterInstallations,
    installationStore.callUnlockClusterInstallations, World.record_st, hl]
  cases locked <;> cases lerr <;>
    simp only [ne_eq, reduceCtorEq, not_false_eq_true, not_true_eq_false, if_true, if_false,
      Bool.true_eq_false, Bool.false_eq_true] <;>
    (try split_ifs) <;> (try dsimp only) <;>
    (try (split <;> dsimp only)) <;>
    (try refine heldTrace.release _ _ _ ?_ rfl rfl) <;>
    (try refine heldTrace.andThen ?_ (updateInstallationLoop_heldTrace s f _ _ _)) <;>
    repeat (first
      | exact heldTrace.nothing _
      | refine heldTrace.quiet _ _ ?_ rfl rfl
      | refine heldTrace.release _ _ _ ?_ rfl rfl
      | refine heldTrace.acquire _ _ _ ?_ rfl)

theorem deleteInstallation_heldTrace (s : InstallationSupervisor σ)
    (installation : Installation) (instanceID : String) (w : World σ) :
    heldTrace [] w (deleteInstallation s installation instanceID w).2 := by
  rcases hl : s.store.LockClusterInstallations
    ((s.store.GetClusterInstallations
      { PerPage := AllPerPage, InstallationID := installation.ID, ClusterID := "", IDs := [],
        IncludeDeleted := true } w.st).1.1.map (fun ci => ci.ID)) instanceID
    (s.store.GetClusterInstallations
      { PerPage := AllPerPage, InstallationID := installation.ID, ClusterID := "", IDs := [],
        IncludeDeleted := true } w.st).2 with ⟨⟨locked, lerr⟩, st1⟩
  unfold deleteInstallation
  simp only [installationStore.callGetClusterInstallations, clusterInstallationLocksTryLock,
    clusterInstallationLocksUnlock, installationStore.callLockClusterInstallations,
    installationStore.callUnlockClusterInstallations, World.record_st, hl]
  cases locked <;> cases lerr <;>
    simp only [ne_eq, reduceCtorEq, not_false_eq_true, not_true_eq_false, if_true, if_false,
      Bool.true_eq_false, Bool.false_eq_true] <;>
    (try split_ifs) <;> (try dsimp only) <;>
    (try refine heldTrace.release _ _ _ ?_ rfl rfl) <;>
    (try refine heldTrace.andThen ?_ (deleteInstallationFinish_heldTrace s _ _ _)) <;>
    repeat (first
      | exact heldTrace.nothing _
      | refine heldTrace.quiet _ _ ?_ rfl rfl
      | refine heldTrace.release _ _ _ ?_ rfl rfl
      | refine heldTrace.acquire _ _ _ ?_ rfl)

/-- A transition respects the locks: it releases every lock it acquires, innermost
first, and holds none at its end. -/
theorem transitionInstallation_heldTrace (s : InstallationSupervisor σ)
    (f : String → String) (installation : Installation) (instanceID : String)
    (w : World σ) :
    heldTrace [] w (transitionInstallation s f installation instanceID w).2 := by
  unfold transitionInstallation
  split_ifs
  · exact createInstallation_heldTrace s installation instanceID w
  · exact updateInstallation_heldTrace s f installation instanceID w
  · exact waitForUpdateComplete_heldTrace s installation instanceID w
  · exact deleteInstallation_heldTrace s installation instanceID w
  · exact heldTrace.nothing w

theorem Supervise_heldTrace (s : InstallationSupervisor σ) (f : String → String)
    (installation : Installation) (w : World σ) :
    heldTrace [] w (Supervise s f installation w).2 := by
  rcases hl : s.store.LockInstallation installation.ID s.instanceID w.st
    with ⟨⟨locked, lerr⟩, st1⟩
  unfold Supervise
  simp only [installationLockTryLock, installationLockUnlock,
    installationStore.callLockInstallation, installationStore.callUnlockInstallation,
    installationStore.callGetInstallation, installationStore.callUpdateInstallation,
    World.record_st, hl]
  cases locked <;> cases lerr <;>
    simp only [ne_eq, reduceCtorEq, not_false_eq_true, not_true_eq_false, if_true, if_false,
      Bool.true_eq_false, Bool.false_eq_true] <;>
    (try split_ifs) <;> (try dsimp only) <;>
    (try (split <;> (try split_ifs) <;> dsimp only)) <;>
    (try refine heldTrace.release _ _ _ ?_ rfl rfl) <;>
    (try refine heldTrace.quiet _ _ ?_ rfl rfl) <;>
    (try refine heldTrace.quiet _ _ ?_ rfl rfl) <;>
    (try refine heldTrace.andThen ?_ (transitionInstallation_heldTrace s f _ _ _)) <;>
    repeat (first
      | exact heldTrace.nothing _
      | refine heldTrace.quiet _ _ ?_ rfl rfl
      | refine heldTrace.release _ _ _ ?_ rfl rfl
      | refine heldTrace.acquire _ _ _ ?_ rfl)

/-- C22: for every behaviour of the store and of the provisioner, and so on every exit
path, the runs of `Supervise`, `createClusterInstallation`, `updateInstallation` and
`deleteInstallation` respect the locks: each unlock is issued for the innermost lock that
is held (never for a lock that was not acquired, never twice for one acquisition), and at
the end of the run no acquired lock is still held. -/
theorem locks_released_exactly_once (s : InstallationSupervisor σ) (f : String → String)
    (cluster : Cluster) (installation : Installation) (instanceID : String) (w : World σ) :
    locksHeldAfter [] (newEvents w (Supervise s f installation w).2) = some []
    ∧ locksHeldAfter []
        (newEvents w (createClusterInstallation s cluster installation instanceID w).2)
      = some []
    ∧ locksHeldAfter [] (newEvents w (updateInstallation s f installation instanceID w).2)
      = some []
    ∧ locksHeldAfter [] (newEvents w (deleteInstallation s installation instanceID w).2)
      = some [] :=
  ⟨(Supervise_heldTrace s f installation w).newEvents,
   (createClusterInstallation_heldTrace s cluster installation instanceID w).newEvents,
   (updateInstallation_heldTrace s f installation instanceID w).newEvents,
   (deleteInstallation_heldTrace s installation instanceID w).newEvents⟩

/-! ### The trace is only a record -/

theorem World.shift_st (before : List Event) (w : World σ) : (w.shift before).st = w.st :=
  rfl

theorem World.shift_record (before : List Event) (w : World σ) (st : σ) (e : Event) :
    (w.shift before).record st e = (w.record st e).shift before := by
  simp [World.shift, World.record]

/-- The calls made so far do not influence the loop of `updateInstallation`. -/
theorem updateInstallationLoop_shift (s : InstallationSupervisor σ) (f : String → String)
    (installation : Installation) (before : List Event) (cis : List ClusterInstallation)
    (w : World σ) :
    updateInstallationLoop s f installation cis (w.shift before)
      = ((updateInstallationLoop s f installation cis w).1,
         (updateInstallationLoop s f installation cis w).2.shift before) := by
  induction cis generalizing w with
  | nil => rfl
  | cons ci cis ih =>
    simp only [updateInstallationLoop, installationStore.callGetCluster,
      installationProvisioner.callUpdateClusterInstallation,
      installationStore.callUpdateClusterInstallation, World.shift_st, World.shift_record,
      World.record_st, ih]
    split_ifs
    · rfl
    · split
      · rfl
      · split_ifs <;> rfl

/-- The calls made so far do not influence the loop of `deleteInstallation`. -/
theorem deleteInstallationLoop_shift (s : InstallationSupervisor σ)
    (installation : Installation) (before : List Event) (cis : List ClusterInstallation)
    (counts : DeleteCounts) (w : World σ) :
    deleteInstallationLoop s installation cis counts (w.shift before)
      = ((deleteInstallationLoop s installation cis counts w).1,
         (deleteInstallationLoop s installation cis counts w).2.shift before) := by
  induction cis generalizing counts w with
  | nil => rfl
  | cons ci cis ih =>
    simp only [deleteInstallationLoop, installationStore.callUpdateClusterInstallation,
      World.shift_st, World.shift_record, World.record_st, ih]
    split <;> (try split_ifs) <;> rfl

theorem deleteInstallationFinish_shift (s : InstallationSupervisor σ)
    (installation : Installation) (before : List Event) (cis : List ClusterInstallation)
    (w : World σ) :
    deleteInstallationFinish s installation cis (w.shift before)
      = ((deleteInstallationFinish s installation cis w).1,
         (deleteInstallationFinish s installation cis w).2.shift before) := by
  simp only [deleteInstallationFinish, deleteInstallationLoop_shift,
    installationStore.callDeleteInstallation, World.shift_st, World.shift_record]
  split <;> (try split_ifs) <;> rfl

theorem clusterInstallationLocksUnlock_shift (store : installationStore σ)
    (ids : List String) (lockerID : String) (before : List Event) (w : World σ) :
    clusterInstallationLocksUnlock store ids lockerID (w.shift before)
      = (clusterInstallationLocksUnlock store ids lockerID w).shift before := by
  simp only [clusterInstallationLocksUnlock, installationStore.callUnlockClusterInstallations,
    World.shift_st, World.shift_record]

/-- After its first listing, `updateInstallation` is determined by the identifiers of the
listed children and by the state of the collaborators: the state it returns, the calls it
makes and the answers it gets do not depend on anything else the listing returned. -/
theorem updateInstallation_after_listing (s : InstallationSupervisor σ)
    (f : String → String) (installation : Installation) (instanceID : String)
    (ids : List String) (st1 : σ) :
    ∃ (state : String) (st : σ) (rest : List Event),
      ∀ (w : World σ) (first : List ClusterInstallation),
        s.store.GetClusterInstallations
          { PerPage := AllPerPage, InstallationID := installation.ID, ClusterID := "",
            IDs := [], IncludeDeleted := false } w.st = ((first, none), st1) →
        first.map (fun ci => ci.ID) = ids → first ≠ [] →
        updateInstallation s f installation instanceID w
          = (state, ⟨st, w.trace ++ Event.GetClusterInstallations
              { PerPage := AllPerPage, InstallationID := installation.ID, ClusterID := "",
                IDs := [], IncludeDeleted := false } first none :: rest⟩) := by
  rcases hl : s.store.LockClusterInstallations ids instanceID st1
    with ⟨⟨locked, lerr⟩, st2⟩
  by_cases hacq : locked = true ∧ lerr = none
  · obtain ⟨rfl, rfl⟩ := hacq
    rcases h2 : s.store.GetClusterInstallations
      { PerPage := AllPerPage, InstallationID := "", ClusterID := "", IDs := ids,
        IncludeDeleted := false } st2 with ⟨⟨snapshot, err2⟩, st3⟩
    cases err2 with
    | none =>
      refine ⟨((updateInstallationLoop s f installation snapshot ⟨st3, []⟩).1).getD
          InstallationStateUpgradeInProgress,
        (clusterInstallationLocksUnlock s.store ids instanceID
          (updateInstallationLoop s f installation snapshot ⟨st3, []⟩).2).st,
        Event.LockClusterInstallations ids instanceID true none
          :: Event.GetClusterInstallations
              { PerPage := AllPerPage, InstallationID := "", ClusterID := "", IDs := ids,
                IncludeDeleted := false } snapshot none
          :: (clusterInstallationLocksUnlock s.store ids instanceID
              (updateInstallationLoop s f installation snapshot ⟨st3, []⟩).2).trace, ?_⟩
      intro w first h1 hm hne
      subst hm
      rw [updateInstallation_locked s f installation instanceID w first snapshot st1 st2 st3
        h1 hne hl h2]
      have hshift : ∀ tr : List Event, (⟨st3, tr⟩ : World σ) = World.shift tr ⟨st3, []⟩ := by
        intro tr
        simp [World.shift]
      rw [hshift, updateInstallationLoop_shift, clusterInstallationLocksUnlock_shift]
      simp [World.shift]
    | some msg =>
      refine ⟨installation.State,
        (s.store.UnlockClusterInstallations ids instanceID false st3).2,
        [Event.LockClusterInstallations ids instanceID true none,
         Event.GetClusterInstallations
          { PerPage := AllPerPage, InstallationID := "", ClusterID := "", IDs := ids,
            IncludeDeleted := false } snapshot (some msg),
         Event.UnlockClusterInstallations ids instanceID false
          (s.store.UnlockClusterInstallations ids instanceID false st3).1.1
          (s.store.UnlockClusterInstallations ids instanceID false st3).1.2], ?_⟩
      intro w first h1 hm hne
      subst hm
      have hlen : first.length > 0 := List.length_pos.mpr hne
      simp only [updateInstallation, installationStore.callGetClusterInstallations, h1,
        clusterInstallationLocksTryLock, installationStore.callLockClusterInstallations,
        hl, World.record_st, h2, clusterInstallationLocksUnlock,
        installationStore.callUnlockClusterInstallations, hlen]
      simp [World.record]
  · refine ⟨installation.State, st2,
      [Event.LockClusterInstallations ids instanceID locked lerr], ?_⟩
    intro w first h1 hm hne
    subst hm
    have hlen : first.length > 0 := List.length_pos.mpr hne
    have hl2 : (if lerr ≠ none then false else locked) = false := by
      cases lerr <;> cases locked <;> simp_all
    simp only [updateInstallation, installationStore.callGetClusterInstallations, h1,
      clusterInstallationLocksTryLock, installationStore.callLockClusterInstallations,
      hl, World.record_st, hl2, hlen]
    simp [World.record]

/-- After its first listing, `deleteInstallation` is determined by the identifiers of the
listed children and by the state of the collaborators: the state it returns, the calls it
makes and the answers it gets do not depend on anything else the listing returned. -/
theorem deleteInstallation_after_listing (s : InstallationSupervisor σ)
    (installation : Installation) (instanceID : String) (ids : List String) (st1 : σ) :
    ∃ (state : String) (st : σ) (rest : List Event),
      ∀ (w : World σ) (first : List ClusterInstallation),
        s.store.GetClusterInstallations
          { PerPage := AllPerPage, InstallationID := installation.ID, ClusterID := "",
            IDs := [], IncludeDeleted := true } w.st = ((first, none), st1) →
        first.map (fun ci => ci.ID) = ids → first ≠ [] →
        deleteInstallation s installation instanceID w
          = (state, ⟨st, w.trace ++ Event.GetClusterInstallations
              { PerPage := AllPerPage, InstallationID := installation.ID, ClusterID := "",
                IDs := [], IncludeDeleted := true } first none :: rest⟩) := by
  rcases hl : s.store.LockClusterInstallations ids instanceID st1
    with ⟨⟨locked, lerr⟩, st2⟩
  by_cases hacq : locked = true ∧ lerr = none
  · obtain ⟨rfl, rfl⟩ := hacq
    rcases h2 : s.store.GetClusterInstallations
      { PerPage := AllPerPage, InstallationID := "", ClusterID := "", IDs := ids,
        IncludeDeleted := true } st2 with ⟨⟨snapshot, err2⟩, st3⟩
    cases err2 with
    | none =>
      refine ⟨(deleteInstallationFinish s installation snapshot ⟨st3, []⟩).1,
        (clusterInstallationLocksUnlock s.store ids instanceID
          (deleteInstallationFinish s installation snapshot ⟨st3, []⟩).2).st,
        Event.LockClusterInstallations ids instanceID true none
          :: Event.GetClusterInstallations
              { PerPage := AllPerPage, InstallationID := "", ClusterID := "", IDs := ids,
                IncludeDeleted := true } snapshot none
          :: (clusterInstallationLocksUnlock s.store ids instanceID
              (deleteInstallationFinish s installation snapshot ⟨st3, []⟩).2).trace, ?_⟩
      intro w first h1 hm hne
      subst hm
      have hlen : first.length > 0 := List.length_pos.mpr hne
      have hshift : ∀ tr : List Event, (⟨st3, tr⟩ : World σ) = World.shift tr ⟨st3, []⟩ := by
        intro tr
        simp [World.shift]
      simp only [deleteInstallation, installationStore.callGetClusterInstallations, h1,
        clusterInstallationLocksTryLock, installationStore.callLockClusterInstallations,
        hl, World.record_st, h2, World.record, hlen]
      simp only [ne_eq, not_true_eq_false, if_false, if_true, Bool.true_eq_false]
      rw [hshift, deleteInstallationFinish_shift, clusterInstallationLocksUnlock_shift]
      simp [World.shift]
    | some msg =>
      refine ⟨installation.State,
        (s.store.UnlockClusterInstallations ids instanceID false st3).2,
        [Event.LockClusterInstallations ids instanceID true none,
         Event.GetClusterInstallations
          { PerPage := AllPerPage, InstallationID := "", ClusterID := "", IDs := ids,
            IncludeDeleted := true } snapshot (some msg),
         Event.UnlockClusterInstallations ids instanceID false
          (s.store.UnlockClusterInstallations ids instanceID false st3).1.1
          (s.store.UnlockClusterInstallations ids instanceID false st3).1.2], ?_⟩
      intro w first h1 hm hne
      subst hm
      have hlen : first.length > 0 := List.length_pos.mpr hne
      simp only [deleteInstallation, installationStore.callGetClusterInstallations, h1,
        clusterInstallationLocksTryLock, installationStore.callLockClusterInstallations,
        hl, World.record_st, h2, clusterInstallationLocksUnlock,
        installationStore.callUnlockClusterInstallations, hlen]
      simp [World.record]
  · refine ⟨installation.State, st2,
      [Event.LockClusterInstallations ids instanceID locked lerr], ?_⟩
    intro w first h1 hm hne
    subst hm
    have hlen : first.length > 0 := List.length_pos.mpr hne
    have hl2 : (if lerr ≠ none then false else locked) = false := by
      cases lerr <;> cases locked <;> simp_all
    simp only [deleteInstallation, installationStore.callGetClusterInstallations, h1,
      clusterInstallationLocksTryLock, installationStore.callLockClusterInstallations,
      hl, World.record_st, hl2, hlen]
    simp [World.record]

/-- C25: in `updateInstallation` and in `deleteInstallation` the outcome depends on the
first listing only through the identifiers of the listed children.  For two runs whose
first listings return lists with the same identifiers, not empty, and leave the
collaborators in the same state (so that the lock attempt, the re-read under the lock and
every later call are answered alike), the returned states are the same, the final states
of the collaborators are the same, and after the first listing the two runs make the same
calls with the same answers. -/
theorem first_listing_only_through_ids (s : InstallationSupervisor σ) (f : String → String)
    (installation : Installation) (instanceID : String) (w w2 : World σ)
    (firstU firstU2 firstD firstD2 : List ClusterInstallation) (stU stD : σ)
    (hU : s.store.GetClusterInstallations
      { PerPage := AllPerPage, InstallationID := installation.ID, ClusterID := "",
        IDs := [], IncludeDeleted := false } w.st = ((firstU, none), stU))
    (hU2 : s.store.GetClusterInstallations
      { PerPage := AllPerPage, InstallationID := installation.ID, ClusterID := "",
        IDs := [], IncludeDeleted := false } w2.st = ((firstU2, none), stU))
    (hidsU : firstU.map (fun ci => ci.ID) = firstU2.map (fun ci => ci.ID))
    (hneU : firstU ≠ [])
    (hD : s.store.GetClusterInstallations
      { PerPage := AllPerPage, InstallationID := installation.ID, ClusterID := "",
        IDs := [], IncludeDeleted := true } w.st = ((firstD, none), stD))
    (hD2 : s.store.GetClusterInstallations
      { PerPage := AllPerPage, InstallationID := installation.ID, ClusterID := "",
        IDs := [], IncludeDeleted := true } w2.st = ((firstD2, none), stD))
    (hidsD : firstD.map (fun ci => ci.ID) = firstD2.map (fun ci => ci.ID))
    (hneD : firstD ≠ []) :
    ((updateInstallation s f installation instanceID w).1
        = (updateInstallation s f installation instanceID w2).1
      ∧ (updateInstallation s f installation instanceID w).2.st
        = (updateInstallation s f installation instanceID w2).2.st
      ∧ ∃ rest : List Event,
          newEvents w (updateInstallation s f installation instanceID w).2
            = Event.GetClusterInstallations
                { PerPage := AllPerPage, InstallationID := installation.ID, ClusterID := "",
                  IDs := [], IncludeDeleted := false } firstU none :: rest
          ∧ newEvents w2 (updateInstallation s f installation instanceID w2).2
            = Event.GetClusterInstallations
                { PerPage := AllPerPage, InstallationID := installation.ID, ClusterID := "",
                  IDs := [], IncludeDeleted := false } firstU2 none :: rest)
    ∧ ((deleteInstallation s installation instanceID w).1
        = (deleteInstallation s installation instanceID w2).1
      ∧ (deleteInstallation s installation instanceID w).2.st
        = (deleteInstallation s installation instanceID w2).2.st
      ∧ ∃ rest : List Event,
          newEvents w (deleteInstallation s installation instanceID w).2
            = Event.GetClusterInstallations
                { PerPage := AllPerPage, InstallationID := installation.ID, ClusterID := "",
                  IDs := [], IncludeDeleted := true } firstD none :: rest
          ∧ newEvents w2 (deleteInstallation s installation instanceID w2).2
            = Event.GetClusterInstallations
                { PerPage := AllPerPage, InstallationID := installation.ID, ClusterID := "",
                  IDs := [], IncludeDeleted := true } firstD2 none :: rest) := by
  have hneU2 : firstU2 ≠ [] := by
    intro h0
    rw [h0] at hidsU
    exact hneU (List.map_eq_nil_iff.mp hidsU)
  have hneD2 : firstD2 ≠ [] := by
    intro h0
    rw [h0] at hidsD
    exact hneD (List.map_eq_nil_iff.mp hidsD)
  obtain ⟨stateU, endU, restU, HU⟩ := updateInstallation_after_listing s f installation
    instanceID (firstU.map (fun ci => ci.ID)) stU
  obtain ⟨stateD, endD, restD, HD⟩ := deleteInstallation_after_listing s installation
    instanceID (firstD.map (fun ci => ci.ID)) stD
  rw [HU w firstU hU rfl hneU, HU w2 firstU2 hU2 hidsU.symm hneU2,
    HD w firstD hD rfl hneD, HD w2 firstD2 hD2 hidsD.symm hneD2]
  exact ⟨⟨rfl, rfl, restU, by simp [newEvents], by simp [newEvents]⟩,
    ⟨rfl, rfl, restD, by simp [newEvents], by simp [newEvents]⟩⟩

/-- C25 at a concrete store: in one run the first listing shows the two children in
CreationRequested and Reconciling, in the other it shows them Stable; in both the
children are Stable by the time the lock is asked for, and both runs return the same
state. -/
theorem first_listing_only_through_ids_witness :
    (updateInstallation (actorSupervisor id childrenSettle) failedVariant
        ⟨"i1", InstallationStateUpgradeRequested, ""⟩ "instance"
        ⟨memUpgradeUnsettled, []⟩).1
      = (updateInstallation (actorSupervisor id childrenSettle) failedVariant
        ⟨"i1", InstallationStateUpgradeRequested, ""⟩ "instance" ⟨memUpgrade, []⟩).1 :=
  (first_listing_only_through_ids (actorSupervisor id childrenSettle) failedVariant
    ⟨"i1", InstallationStateUpgradeRequested, ""⟩ "instance"
    ⟨memUpgradeUnsettled, []⟩ ⟨memUpgrade, []⟩
    [⟨"ci1", "c1", "i1", "ns1", ClusterInstallationStateCreationRequested⟩,
     ⟨"ci2", "c2", "i1", "ns2", ClusterInstallationStateReconciling⟩]
    [⟨"ci1", "c1", "i1", "ns1", ClusterInstallationStateStable⟩,
     ⟨"ci2", "c2", "i1", "ns2", ClusterInstallationStateStable⟩]
    [⟨"ci1", "c1", "i1", "ns1", ClusterInstallationStateCreationRequested⟩,
     ⟨"ci2", "c2", "i1", "ns2", ClusterInstallationStateReconciling⟩]
    [⟨"ci1", "c1", "i1", "ns1", ClusterInstallationStateStable⟩,
     ⟨"ci2", "c2", "i1", "ns2", ClusterInstallationStateStable⟩]
    memUpgrade memUpgrade
    (by decide) (by decide) (by decide) (by decide)
    (by decide) (by decide) (by decide) (by decide)).1.1

theorem Event.releases_of_acquires (e : Event) (lock : LockRef)
    (h : e.acquires = some lock) : e.releases = none := by
  cases e <;> first | rfl | simp [Event.acquires] at h

/-- What `locksHeldAfter` says in terms of counting: in a run that respects the locks, the
unlock calls together with the locks still held are, as a multiset, the locks acquired
together with the locks held before. -/
theorem locksHeldAfter_perm (evs : List Event) :
    ∀ held held2 : List LockRef, locksHeldAfter held evs = some held2 →
      (evs.filterMap Event.releases ++ held2).Perm (evs.filterMap Event.acquires ++ held) := by
  induction evs with
  | nil =>
    intro held held2 h
    simp only [locksHeldAfter, Option.some.injEq] at h
    subst h
    exact List.Perm.refl _
  | cons e evs ih =>
    intro held held2 h
    rcases ha : e.acquires with _ | lock
    · rcases hr : e.releases with _ | lock
      · simp only [locksHeldAfter, ha, hr] at h
        simpa [List.filterMap_cons, ha, hr] using ih held held2 h
      · cases held with
        | nil => simp [locksHeldAfter, ha, hr] at h
        | cons top rest =>
          simp only [locksHeldAfter, ha, hr] at h
          split_ifs at h with heq
          · subst heq
            have := ih rest held2 h
            simp only [List.filterMap_cons, ha, hr, List.cons_append]
            exact (List.Perm.cons lock this).trans List.perm_middle.symm
    · have hr := e.releases_of_acquires lock ha
      simp only [locksHeldAfter, ha] at h
      have := ih (lock :: held) held2 h
      simp only [List.filterMap_cons, ha, hr, List.cons_append]
      exact this.trans List.perm_middle

end supervisor
